import Mathlib

/-!
Verification of the event listener of `lxd/events/common.go`, followed by the
migration feature flags of `lxd/migration/utils.go`, the lifecycle events of
`lxd/lifecycle/network_zone.go` and the configuration sections and the serial
template of `lxd/instance/drivers/driver_qemu_templates.go`.  The definitions of
all parts come first, the theorems after them.

Event listener: embedding of `listenerCommon` and its methods.  The websocket connection, the
context and the logger are external: the listener state records the calls made
on them (`Conn.Close`, `ctxCancel`, the write methods, the reads, the log
lines), and the results they return are inputs of the operations.

Two views of the same code are given:

* an operation-level view, in which each method call and each iteration of the
  heartbeat loop is one state transformer (`Close`, `pongHandler`,
  `heartbeatIter`, `reader`, `WriteJSON`, ...);
* a statement-level view (`Sys`, `step`), in which every thread has a program
  counter over the statements of the source, the listener mutex is explicit and
  threads are interleaved by a schedule.
-/

namespace events

/-- Modelled from the spec: `api.Event` is declared outside `common.go`; the wire
message shape of the spec is a type, a timestamp and metadata. -/
structure Event where
  type : String
  timestamp : Nat
  metadata : String
deriving DecidableEq, Repr

/-- Levels of the logger calls made by the listener. -/
inductive LogLevel where
  | debug
  | warn
  | error
deriving DecidableEq, Repr

/-- Frames handed to the write methods of the connection.  The listener writes
pings and messages; the pong and the close frame are the answers that the
connection itself writes, from inside a read, to a ping and to a close of the
peer. -/
inductive Frame where
  /-- WriteControl(websocket.PingMessage, payload, deadline) -/
  | ping (payload : String)
  /-- Conn.WriteJSON(v) -/
  | json (v : Event)
  /-- WriteControl(websocket.PongMessage, payload, deadline), by the connection -/
  | pong (payload : String)
  /-- WriteControl(websocket.CloseMessage, code, deadline), by the connection -/
  | close (code : Nat)
deriving DecidableEq, Repr

/-- Size of the Go type `uint` (64-bit platforms). -/
def uintSize : Nat := 18446744073709551616

/-- The struct `listenerCommon`.  `recvFunc` holds whether the handler is non-nil;
`ctxErr` is `ctx.Err() != nil`; the remaining fields after `pongsPending` record
the calls made on the connection, the cancel function, the handler and the logger. -/
structure listenerCommon where
  messageTypes : List String
  id : String
  pongsPending : Nat
  recvFunc : Bool
  ctxErr : Bool
  cancelCalls : Nat
  connCloseCalls : Nat
  pongHandlerSet : Bool
  written : List (Frame × Bool)
  reads : Nat
  handled : List Event
  log : List (LogLevel × String)
deriving DecidableEq, Repr

namespace listenerCommon

/-- IsClosed returns true if the listener is closed: `e.ctx.Err() != nil`. -/
def IsClosed (e : listenerCommon) : Bool := e.ctxErr

/-- ID returns the listener ID. -/
def ID (e : listenerCommon) : String := e.id

/-- A call of the logger. -/
def logLine (e : listenerCommon) (lvl : LogLevel) (msg : String) : listenerCommon :=
  { e with log := e.log ++ [(lvl, msg)] }

/-- The call `e.Conn.Close()`; `closeErr` tells whether it returns an error, which
is logged and not returned. -/
def connClose (e : listenerCommon) (closeErr : Bool) : listenerCommon :=
  let e1 := { e with connCloseCalls := e.connCloseCalls + 1 }
  if closeErr then e1.logLine LogLevel.error "Failed closing listener connection" else e1

/-- The call `e.ctxCancel()`: the context reports an error from then on. -/
def ctxCancel (e : listenerCommon) : listenerCommon :=
  { e with ctxErr := true, cancelCalls := e.cancelCalls + 1 }

/-- Close disconnects the listener (the mutex is taken on entry and released on
return). -/
def Close (e : listenerCommon) (closeErr : Bool) : listenerCommon :=
  if e.IsClosed then e
  else
    ((e.logLine LogLevel.debug "Event listener server handler stopped").connClose closeErr).ctxCancel

/-- The assignment `e.pongsPending = 0`. -/
def resetPongs (e : listenerCommon) : listenerCommon :=
  { e with pongsPending := 0 }

/-- The statement `e.pongsPending++` on a `uint`. -/
def incrPongs (e : listenerCommon) : listenerCommon :=
  { e with pongsPending := (e.pongsPending + 1) % uintSize }

/-- The callback given to `SetPongHandler`: resets the count under the mutex and
returns `nil` (`none` is the nil error). -/
def pongHandler (e : listenerCommon) (_msg : String) : listenerCommon × Option String :=
  (e.resetPongs, none)

/-- A call of a write method of the connection, with its outcome. -/
def connWrite (e : listenerCommon) (f : Frame) (ok : Bool) : listenerCommon :=
  { e with written := e.written ++ [(f, ok)] }

/-- WriteJSON message to the connection (under the mutex); returns the error of
`Conn.WriteJSON`, here whether the write failed. -/
def WriteJSON (e : listenerCommon) (v : Event) (ok : Bool) : listenerCommon × Bool :=
  (e.connWrite (Frame.json v) ok, !ok)

/-- Wait returns when the given context or the listener context is done; `none`
means that the caller stays blocked. -/
def Wait (e : listenerCommon) (ctxDone : Bool) : Option listenerCommon :=
  if ctxDone || e.IsClosed then some e else none

/-- How the body of a `for` loop ends: with the next iteration or with `return`. -/
inductive Ctl where
  | next
  | ret
deriving DecidableEq, Repr

/-- The statements of `heartbeat` before the loop: the start is logged, the count
is reset and the pong handler is installed (the reader is started alongside). -/
def heartbeatInit (e : listenerCommon) : listenerCommon :=
  { (e.logLine LogLevel.debug "Event listener server handler started").resetPongs with
    pongHandlerSet := true }

/-- One pass through the body of the `for` loop of `heartbeat`; `sendOk` tells
whether `WriteControl` returns no error. -/
def heartbeatBody (e : listenerCommon) (sendOk : Bool) : listenerCommon × Ctl :=
  if e.IsClosed then (e, Ctl.ret)
  else if e.pongsPending > 2 then
    (e.logLine LogLevel.warn "Hearbeat for event listener handler timed out", Ctl.ret)
  else
    let e1 := e.connWrite (Frame.ping "keepalive") sendOk
    if !sendOk then (e1, Ctl.ret)
    else
      let e2 := e1.incrPongs
      -- select: the timer fires, or the context is done and the function returns
      if e2.IsClosed then (e2, Ctl.ret) else (e2, Ctl.next)

/-- One iteration of the heartbeat loop, with the deferred `e.Close()` run when the
body returns. -/
def heartbeatIter (e : listenerCommon) (sendOk closeErr : Bool) : listenerCommon × Ctl :=
  match heartbeatBody e sendOk with
  | (e1, Ctl.ret) => (e1.Close closeErr, Ctl.ret)
  | (e1, Ctl.next) => (e1, Ctl.next)

/-- The heartbeat loop: `sends i` is the outcome of the ping of iteration `i`.  The
result is the final state and the number of iterations run, or `none` when the
fuel is used up before the loop returns. -/
def heartbeatLoop (sends : Nat → Bool) (closeErr : Bool) :
    Nat → Nat → listenerCommon → Option (listenerCommon × Nat)
  | 0, _, _ => none
  | fuel + 1, i, e =>
    match heartbeatIter e (sends i) closeErr with
    | (e1, Ctl.ret) => some (e1, i + 1)
    | (e1, Ctl.next) => heartbeatLoop sends closeErr fuel (i + 1) e1

/-- The function `heartbeat` without its reader goroutine. -/
def heartbeat (fuel : Nat) (e : listenerCommon) (sends : Nat → Bool) (closeErr : Bool) :
    Option (listenerCommon × Nat) :=
  heartbeatLoop sends closeErr fuel 0 e.heartbeatInit

/-- The loop of the reader goroutine when a handler is set: each element of
`input` is the outcome of one `ReadJSON` (`none` is an error).  The flag of the
result tells whether the loop has returned; it has not when the input is used up,
the next read being blocked. -/
def readerLoop (e : listenerCommon) : List (Option Event) → listenerCommon × Bool
  | [] => (e, false)
  | none :: _ => ({ e with reads := e.reads + 1 }, true)
  | some ev :: rest =>
    readerLoop { e with reads := e.reads + 1, handled := e.handled ++ [ev] } rest

/-- The reader goroutine, with its deferred `e.Close()`.  Without a handler one
`NextReader` call is made and its results are dropped. -/
def reader (e : listenerCommon) (input : List (Option Event)) (closeErr : Bool) :
    listenerCommon × Bool :=
  if e.recvFunc then
    match readerLoop e input with
    | (e1, true) => (e1.Close closeErr, true)
    | (e1, false) => (e1, false)
  else
    match input with
    | [] => (e, false)
    | _ :: _ => (Close { e with reads := e.reads + 1 } closeErr, true)

/-- Repeated calls of `Close`, one per element of the list. -/
def closeMany (e : listenerCommon) (closeErrs : List Bool) : listenerCommon :=
  closeErrs.foldl Close e

/-- Number of ping control frames that `WriteControl` sent without error. -/
def pingsSent (e : listenerCommon) : Nat :=
  e.written.countP (fun w => w.1 == Frame.ping "keepalive" && w.2)

end listenerCommon

/-- A listener as the constructor leaves it: context live, nothing done yet. -/
def newListener (id : String) (messageTypes : List String) (recvFunc : Bool) :
    listenerCommon :=
  { messageTypes := messageTypes, id := id, pongsPending := 0, recvFunc := recvFunc,
    ctxErr := false, cancelCalls := 0, connCloseCalls := 0, pongHandlerSet := false,
    written := [], reads := 0, handled := [], log := [] }

/-- The operations of a listener, each with the results of the external calls it
makes. -/
inductive Op where
  | close (closeErr : Bool)
  | pong (msg : String)
  | heartbeatIter (sendOk closeErr : Bool)
  | readerStep (r : Option Event) (closeErr : Bool)
  | writeJSON (v : Event) (ok : Bool)
  | wait (ctxDone : Bool)
  | id
  | isClosed
deriving DecidableEq, Repr

/-- State of the listener after an operation; the reader step is the reader fed
with one read result, and the getters and `Wait` leave the state as it is. -/
def applyOp (e : listenerCommon) : Op → listenerCommon
  | Op.close closeErr => e.Close closeErr
  | Op.pong msg => (e.pongHandler msg).1
  | Op.heartbeatIter sendOk closeErr => (e.heartbeatIter sendOk closeErr).1
  | Op.readerStep r closeErr => (e.reader [r] closeErr).1
  | Op.writeJSON v ok => (e.WriteJSON v ok).1
  | Op.wait ctxDone => (e.Wait ctxDone).getD e
  | Op.id => e
  | Op.isClosed => e

/-- State after a sequence of operations. -/
def applyOps (e : listenerCommon) (ops : List Op) : listenerCommon :=
  ops.foldl applyOp e

/-! ## Statement-level view: threads, program counters and the mutex -/

/-- Program points of the threads that run listener code.  Each one names the
statement of `common.go` that the thread executes next. -/
inductive Pc where
  /-- heartbeat, line 38: `logger.Debug("... started")` -/
  | hbLogStart
  /-- heartbeat, line 43: `e.pongsPending = 0` -/
  | hbReset
  /-- heartbeat, line 45: `e.SetPongHandler(...)` -/
  | hbSetPong
  /-- heartbeat, line 53: `go func() ...` -/
  | hbGo
  /-- heartbeat, line 75: `if e.IsClosed()` -/
  | hbIsClosed
  /-- heartbeat, line 79: `e.lock.Lock()` -/
  | hbLock
  /-- heartbeat, line 80: `if e.pongsPending > 2` -/
  | hbTest
  /-- heartbeat, line 81: `e.lock.Unlock()` -/
  | hbUnlockTimeout
  /-- heartbeat, line 82: `logger.Warn(...)`, then `return` -/
  | hbWarn
  /-- heartbeat, line 85: `e.WriteControl(...)` is entered -/
  | hbPing
  /-- heartbeat, line 85: `e.WriteControl(...)` is running and returns -/
  | hbPinging
  /-- heartbeat, line 86: `if err != nil`, with whether `err` is nil -/
  | hbErrTest (ok : Bool)
  /-- heartbeat, line 87: `e.lock.Unlock()`, then `return` -/
  | hbUnlockErr
  /-- heartbeat, line 91: `e.pongsPending++` -/
  | hbIncr
  /-- heartbeat, line 92: `e.lock.Unlock()` -/
  | hbUnlock
  /-- heartbeat, line 94: `select` -/
  | hbSelect
  /-- reader goroutine not started yet -/
  | rdIdle
  /-- reader, line 56: `if e.recvFunc != nil` -/
  | rdTest
  /-- reader, line 59: `e.Conn.ReadJSON(&event)` and the test of its error -/
  | rdRead
  /-- reader, line 65: `e.recvFunc(event)` -/
  | rdHandle (ev : Event)
  /-- reader, line 70: `e.Conn.NextReader()` -/
  | rdNext
  /-- inside a read: the connection answers a ping of the peer, `WriteControl` with
  the pong is entered; the flags tell which read runs it and whether a failure of
  the write is one that the read passes over -/
  | rdPong (inReadJSON : Bool) (data : String) (ignorable : Bool)
  /-- inside a read: `WriteControl` with the pong is running and returns -/
  | rdPonging (inReadJSON : Bool) (data : String) (ignorable : Bool)
  /-- inside a read: the connection answers a close of the peer, `WriteControl` with
  the close frame is entered -/
  | rdEcho (code : Nat)
  /-- inside a read: `WriteControl` with the close frame is running and returns -/
  | rdEchoing (code : Nat)
  /-- the read returns an error after a control frame -/
  | rdErr
  /-- pong handler, line 46: `e.lock.Lock()`; the flag tells which read runs it -/
  | pongLock (inReadJSON : Bool)
  /-- pong handler, line 47: `e.pongsPending = 0` -/
  | pongReset (inReadJSON : Bool)
  /-- pong handler, line 48: `e.lock.Unlock()`, then `return nil` -/
  | pongUnlock (inReadJSON : Bool)
  /-- Close, line 122: `e.lock.Lock()` -/
  | clLock
  /-- Close, line 125: `if e.IsClosed()` -/
  | clTest
  /-- Close, line 129: `logger.Debug("... stopped")` -/
  | clLog
  /-- Close, lines 131 to 134: `e.Conn.Close()` and the logging of its error -/
  | clConn
  /-- Close, line 135: `e.ctxCancel()` -/
  | clCancel
  /-- Close: the deferred `e.lock.Unlock()` -/
  | clUnlock
  /-- WriteJSON, line 140: `e.lock.Lock()` -/
  | wjLock (v : Event)
  /-- WriteJSON, line 143: `e.Conn.WriteJSON(v)` is entered -/
  | wjWrite (v : Event)
  /-- WriteJSON, line 143: `e.Conn.WriteJSON(v)` is running and returns -/
  | wjWriting (v : Event)
  /-- WriteJSON: the deferred `e.lock.Unlock()` -/
  | wjUnlock
  /-- a caller that has not called the listener yet -/
  | idle
  /-- the function of the thread has returned -/
  | done
deriving DecidableEq, Repr

/-- What a read of the connection meets next: a pong control frame (handled inside
the read by the pong handler of the listener), a message, an error, or a ping or
a close control frame of the peer.  The listener installs no handler for the
last two, so the connection answers them itself from inside the read: a ping by
a pong with the same data, after which the read goes on (it returns the error of
a failed write unless that error is one it passes over), a close by a close
frame, after which the read returns an error. -/
inductive ReadOutcome where
  | pong
  | msg (ev : Event)
  | err
  | ping (data : String) (ignorable : Bool)
  | close (code : Nat)
deriving DecidableEq, Repr

/-- The call that an outside caller makes. -/
inductive Call where
  | writeJSON (v : Event)
  | close
deriving DecidableEq, Repr

/-- One scheduling decision: the thread that runs its next statement, and the
answers of the environment that the statement may consult. -/
structure Choice where
  tid : Nat
  ok : Bool
  read : ReadOutcome
  call : Call
  timer : Bool
deriving DecidableEq, Repr

/-- The listener shared by its threads: the mutex `e.lock` with its holder, the
program counter of every thread, the number of writes to the connection that
have been entered and have not returned, and whether the `go` statement of
`heartbeat` has started the reader goroutine. -/
structure Sys where
  l : listenerCommon
  lock : Option Nat
  pcs : Nat → Pc
  inFlight : Nat
  readerStarted : Bool

namespace Sys

/-- Thread `t` moves to `pc`. -/
def goto (s : Sys) (t : Nat) (pc : Pc) : Sys :=
  { s with pcs := Function.update s.pcs t pc }

/-- Thread `t` runs a statement that acts on the listener fields and moves to `pc`. -/
def exec (s : Sys) (t : Nat) (f : listenerCommon → listenerCommon) (pc : Pc) : Sys :=
  { s with l := f s.l, pcs := Function.update s.pcs t pc }

/-- The statement `e.lock.Lock()`: taken when the mutex is free, blocked otherwise. -/
def acquire (s : Sys) (t : Nat) (pc : Pc) : Sys :=
  match s.lock with
  | none => { s with lock := some t, pcs := Function.update s.pcs t pc }
  | some _ => s

/-- The statement `e.lock.Unlock()`. -/
def release (s : Sys) (t : Nat) (pc : Pc) : Sys :=
  { s with lock := none, pcs := Function.update s.pcs t pc }

/-- A write method of the connection is entered. -/
def writeBegin (s : Sys) (t : Nat) (pc : Pc) : Sys :=
  { s with inFlight := s.inFlight + 1, pcs := Function.update s.pcs t pc }

/-- A write method of the connection returns. -/
def writeEnd (s : Sys) (t : Nat) (f : Frame) (ok : Bool) (pc : Pc) : Sys :=
  { s with l := s.l.connWrite f ok, inFlight := s.inFlight - 1,
           pcs := Function.update s.pcs t pc }

/-- Thread 0 runs `heartbeat`, thread 1 is the reader goroutine that `heartbeat`
starts, every other thread is an outside caller. -/
def init (e : listenerCommon) : Sys :=
  { l := e, lock := none, inFlight := 0, readerStarted := false,
    pcs := fun t => if t = 0 then Pc.hbLogStart else if t = 1 then Pc.rdIdle else Pc.idle }

/-- The chosen thread runs the statement at its program counter. -/
def step (s : Sys) (c : Choice) : Sys :=
  match s.pcs c.tid with
  | Pc.hbLogStart =>
    s.exec c.tid (fun e => e.logLine LogLevel.debug "Event listener server handler started")
      Pc.hbReset
  | Pc.hbReset => s.exec c.tid listenerCommon.resetPongs Pc.hbSetPong
  | Pc.hbSetPong => s.exec c.tid (fun e => { e with pongHandlerSet := true }) Pc.hbGo
  | Pc.hbGo => { s with readerStarted := true, pcs := Function.update s.pcs c.tid Pc.hbIsClosed }
  | Pc.hbIsClosed => if s.l.IsClosed then s.goto c.tid Pc.clLock else s.goto c.tid Pc.hbLock
  | Pc.hbLock => s.acquire c.tid Pc.hbTest
  | Pc.hbTest =>
    if s.l.pongsPending > 2 then s.goto c.tid Pc.hbUnlockTimeout else s.goto c.tid Pc.hbPing
  | Pc.hbUnlockTimeout => s.release c.tid Pc.hbWarn
  | Pc.hbWarn =>
    s.exec c.tid (fun e => e.logLine LogLevel.warn "Hearbeat for event listener handler timed out")
      Pc.clLock
  | Pc.hbPing => s.writeBegin c.tid Pc.hbPinging
  | Pc.hbPinging => s.writeEnd c.tid (Frame.ping "keepalive") c.ok (Pc.hbErrTest c.ok)
  | Pc.hbErrTest ok => if ok then s.goto c.tid Pc.hbIncr else s.goto c.tid Pc.hbUnlockErr
  | Pc.hbUnlockErr => s.release c.tid Pc.clLock
  | Pc.hbIncr => s.exec c.tid listenerCommon.incrPongs Pc.hbUnlock
  | Pc.hbUnlock => s.release c.tid Pc.hbSelect
  | Pc.hbSelect =>
    if c.timer then s.goto c.tid Pc.hbIsClosed
    else if s.l.IsClosed then s.goto c.tid Pc.clLock
    else s
  | Pc.rdIdle => if s.readerStarted then s.goto c.tid Pc.rdTest else s
  | Pc.rdTest => if s.l.recvFunc then s.goto c.tid Pc.rdRead else s.goto c.tid Pc.rdNext
  | Pc.rdRead =>
    match c.read with
    | ReadOutcome.pong => if s.l.pongHandlerSet then s.goto c.tid (Pc.pongLock true) else s
    | ReadOutcome.msg ev =>
      s.exec c.tid (fun e => { e with reads := e.reads + 1 }) (Pc.rdHandle ev)
    | ReadOutcome.err => s.exec c.tid (fun e => { e with reads := e.reads + 1 }) Pc.clLock
    | ReadOutcome.ping data ignorable => s.goto c.tid (Pc.rdPong true data ignorable)
    | ReadOutcome.close code => s.goto c.tid (Pc.rdEcho code)
  | Pc.rdHandle ev => s.exec c.tid (fun e => { e with handled := e.handled ++ [ev] }) Pc.rdRead
  | Pc.rdNext =>
    match c.read with
    | ReadOutcome.pong => if s.l.pongHandlerSet then s.goto c.tid (Pc.pongLock false) else s
    | ReadOutcome.msg _ => s.exec c.tid (fun e => { e with reads := e.reads + 1 }) Pc.clLock
    | ReadOutcome.err => s.exec c.tid (fun e => { e with reads := e.reads + 1 }) Pc.clLock
    | ReadOutcome.ping data ignorable => s.goto c.tid (Pc.rdPong false data ignorable)
    | ReadOutcome.close code => s.goto c.tid (Pc.rdEcho code)
  | Pc.rdPong k data ignorable => s.writeBegin c.tid (Pc.rdPonging k data ignorable)
  | Pc.rdPonging k data ignorable =>
    s.writeEnd c.tid (Frame.pong data) c.ok
      (if c.ok || ignorable then (if k then Pc.rdRead else Pc.rdNext) else Pc.rdErr)
  | Pc.rdEcho code => s.writeBegin c.tid (Pc.rdEchoing code)
  | Pc.rdEchoing code => s.writeEnd c.tid (Frame.close code) c.ok Pc.rdErr
  | Pc.rdErr => s.exec c.tid (fun e => { e with reads := e.reads + 1 }) Pc.clLock
  | Pc.pongLock k => s.acquire c.tid (Pc.pongReset k)
  | Pc.pongReset k => s.exec c.tid listenerCommon.resetPongs (Pc.pongUnlock k)
  | Pc.pongUnlock k => s.release c.tid (if k then Pc.rdRead else Pc.rdNext)
  | Pc.clLock => s.acquire c.tid Pc.clTest
  | Pc.clTest => if s.l.IsClosed then s.goto c.tid Pc.clUnlock else s.goto c.tid Pc.clLog
  | Pc.clLog =>
    s.exec c.tid (fun e => e.logLine LogLevel.debug "Event listener server handler stopped")
      Pc.clConn
  | Pc.clConn => s.exec c.tid (fun e => e.connClose c.ok) Pc.clCancel
  | Pc.clCancel => s.exec c.tid listenerCommon.ctxCancel Pc.clUnlock
  | Pc.clUnlock => s.release c.tid Pc.done
  | Pc.wjLock v => s.acquire c.tid (Pc.wjWrite v)
  | Pc.wjWrite v => s.writeBegin c.tid (Pc.wjWriting v)
  | Pc.wjWriting v => s.writeEnd c.tid (Frame.json v) c.ok Pc.wjUnlock
  | Pc.wjUnlock => s.release c.tid Pc.done
  | Pc.idle =>
    match c.call with
    | Call.writeJSON v => s.goto c.tid (Pc.wjLock v)
    | Call.close => s.goto c.tid Pc.clLock
  | Pc.done => s

/-- The state after a schedule, from first to last decision. -/
def run (s : Sys) (sched : List Choice) : Sys :=
  sched.foldl step s

end Sys

/-- Program points at which a write that the listener makes is running: the ping
of the heartbeat and the message of `WriteJSON`. -/
def Pc.writing : Pc → Bool
  | Pc.hbPinging => true
  | Pc.wjWriting _ => true
  | _ => false

/-- Program points at which the connection is writing its answer to a control
frame of the peer, inside a read. -/
def Pc.replying : Pc → Bool
  | Pc.rdPonging _ _ _ => true
  | Pc.rdEchoing _ => true
  | _ => false

/-- Program points between a `Lock()` of the listener mutex and the matching
`Unlock()`. -/
def Pc.locked : Pc → Bool
  | Pc.hbTest => true
  | Pc.hbUnlockTimeout => true
  | Pc.hbPing => true
  | Pc.hbPinging => true
  | Pc.hbErrTest _ => true
  | Pc.hbUnlockErr => true
  | Pc.hbIncr => true
  | Pc.hbUnlock => true
  | Pc.pongReset _ => true
  | Pc.pongUnlock _ => true
  | Pc.clTest => true
  | Pc.clLog => true
  | Pc.clConn => true
  | Pc.clCancel => true
  | Pc.clUnlock => true
  | Pc.wjWrite _ => true
  | Pc.wjWriting _ => true
  | Pc.wjUnlock => true
  | _ => false

/-- Program points whose statement assigns `pongsPending`. -/
def Pc.assignsPongs : Pc → Bool
  | Pc.hbReset => true
  | Pc.pongReset _ => true
  | Pc.hbIncr => true
  | _ => false

/-- Program points of `heartbeat` up to its `go` statement. -/
def Pc.beforeGo : Pc → Bool
  | Pc.hbLogStart => true
  | Pc.hbReset => true
  | Pc.hbSetPong => true
  | Pc.hbGo => true
  | _ => false

/-- Program points of the reader goroutine once started, the pong handler that
its reads run and the answers of the connection to control frames included. -/
def Pc.inReader : Pc → Bool
  | Pc.rdTest => true
  | Pc.rdRead => true
  | Pc.rdHandle _ => true
  | Pc.rdNext => true
  | Pc.rdPong _ _ _ => true
  | Pc.rdPonging _ _ _ => true
  | Pc.rdEcho _ => true
  | Pc.rdEchoing _ => true
  | Pc.rdErr => true
  | Pc.pongLock _ => true
  | Pc.pongReset _ => true
  | Pc.pongUnlock _ => true
  | _ => false

/-- Program points that only the reader goroutine can be at. -/
def Pc.readerOnly (pc : Pc) : Bool :=
  pc == Pc.rdIdle || pc.inReader

/-- Program points of `heartbeat` before `SetPongHandler` has returned. -/
def Pc.beforeSet : Pc → Bool
  | Pc.hbLogStart => true
  | Pc.hbReset => true
  | Pc.hbSetPong => true
  | _ => false

/-- Program points of `heartbeat` after a `return` of its loop has been decided:
the statements before the `return` and the deferred `Close`. -/
def Pc.hbExit : Pc → Bool
  | Pc.hbUnlockTimeout => true
  | Pc.hbWarn => true
  | Pc.hbUnlockErr => true
  | Pc.clLock => true
  | Pc.clTest => true
  | Pc.clLog => true
  | Pc.clConn => true
  | Pc.clCancel => true
  | Pc.clUnlock => true
  | Pc.done => true
  | _ => false

/-- Number of running writes of the listener when only the holder of the mutex may
be writing. -/
def writesOfHolder (lock : Option Nat) (pcs : Nat → Pc) : Nat :=
  match lock with
  | none => 0
  | some t => if (pcs t).writing then 1 else 0

/-- Number of running answers of the connection to a control frame: they are written
inside a read of the reader goroutine, thread 1. -/
def repliesOfReader (pcs : Nat → Pc) : Nat :=
  if (pcs 1).replying then 1 else 0

/-- The facts kept by every step of every thread: a thread between `Lock()` and
`Unlock()` holds the mutex; the writes in flight are the write of the holder and
the answer that the reader is writing; only thread 0 runs the start of
`heartbeat`, the reader runs only after the `go` statement, and only thread 1
runs the reader. -/
def Sys.Inv (s : Sys) : Prop :=
  (∀ t, (s.pcs t).locked = true → s.lock = some t) ∧
  s.inFlight = writesOfHolder s.lock s.pcs + repliesOfReader s.pcs ∧
  (∀ t, (s.pcs t).beforeGo = true → t = 0) ∧
  (s.readerStarted = true → (s.pcs 0).beforeGo = false) ∧
  (∀ t, (s.pcs t).inReader = true → s.readerStarted = true) ∧
  (∀ t, (s.pcs t).readerOnly = true → t = 1)

/-- The holder of the mutex is between `Lock()` and `Unlock()`. -/
def Sys.Held (s : Sys) : Prop :=
  ∀ t, s.lock = some t → (s.pcs t).locked = true

/-- The pong handler is not installed while the heartbeat has not passed
`SetPongHandler`. -/
def Sys.Unset (s : Sys) : Prop :=
  (s.pcs 0).beforeSet = true → s.l.pongHandlerSet = false

/-! ## Invariants of the count, the token and the connection -/

/-- The token has fired exactly when the connection has been closed, which has
then happened once. -/
def Agrees (e : listenerCommon) : Prop :=
  (e.ctxErr = false ∧ e.connCloseCalls = 0 ∧ e.cancelCalls = 0) ∨
  (e.ctxErr = true ∧ e.connCloseCalls = 1 ∧ e.cancelCalls = 1)

/-- Program points of the heartbeat between the test of the count and its
increment. -/
def Pc.pinging : Pc → Bool
  | Pc.hbPing => true
  | Pc.hbPinging => true
  | Pc.hbErrTest _ => true
  | Pc.hbIncr => true
  | _ => false

/-- The count is at most 3, and at most 2 while a heartbeat is between its test
and its increment. -/
def Sys.Bounded (s : Sys) : Prop :=
  s.l.pongsPending ≤ 3 ∧ ∀ t, (s.pcs t).pinging = true → s.l.pongsPending ≤ 2

/-- Program points of `Close` after the test, up to the call of the cancel
function. -/
def Pc.closing : Pc → Bool
  | Pc.clLog => true
  | Pc.clConn => true
  | Pc.clCancel => true
  | _ => false

/-- The program point of `Close` between `e.Conn.Close()` and `e.ctxCancel()`. -/
def Pc.isCancel : Pc → Bool
  | Pc.clCancel => true
  | _ => false

/-- Number of `Close` calls that have closed the connection and not yet called the
cancel function, when only the holder of the mutex may be there. -/
def closesOfHolder (lock : Option Nat) (pcs : Nat → Pc) : Nat :=
  match lock with
  | none => 0
  | some t => if (pcs t).isCancel then 1 else 0

/-- The token and the connection at statement level: a thread past the test of
`Close` sees the token not fired; the cancel function has been called once when
the token has fired and never otherwise; the connection has been closed as often
as the cancel function has been called, plus once for a `Close` that is between
the two calls. -/
def Sys.Counts (s : Sys) : Prop :=
  (∀ t, (s.pcs t).closing = true → s.l.ctxErr = false) ∧
  s.l.cancelCalls = (if s.l.ctxErr = true then 1 else 0) ∧
  s.l.connCloseCalls = s.l.cancelCalls + closesOfHolder s.lock s.pcs

/-- Program points that the thread of `heartbeat` can be at. -/
def Pc.hbRole : Pc → Bool
  | Pc.hbLogStart => true
  | Pc.hbReset => true
  | Pc.hbSetPong => true
  | Pc.hbGo => true
  | Pc.hbIsClosed => true
  | Pc.hbLock => true
  | Pc.hbTest => true
  | Pc.hbUnlockTimeout => true
  | Pc.hbWarn => true
  | Pc.hbPing => true
  | Pc.hbPinging => true
  | Pc.hbErrTest _ => true
  | Pc.hbUnlockErr => true
  | Pc.hbIncr => true
  | Pc.hbUnlock => true
  | Pc.hbSelect => true
  | Pc.clLock => true
  | Pc.clTest => true
  | Pc.clLog => true
  | Pc.clConn => true
  | Pc.clCancel => true
  | Pc.clUnlock => true
  | Pc.done => true
  | _ => false

/-- Program points that the reader goroutine can be at. -/
def Pc.rdRole : Pc → Bool
  | Pc.rdIdle => true
  | Pc.rdTest => true
  | Pc.rdRead => true
  | Pc.rdHandle _ => true
  | Pc.rdNext => true
  | Pc.rdPong _ _ _ => true
  | Pc.rdPonging _ _ _ => true
  | Pc.rdEcho _ => true
  | Pc.rdEchoing _ => true
  | Pc.rdErr => true
  | Pc.pongLock _ => true
  | Pc.pongReset _ => true
  | Pc.pongUnlock _ => true
  | Pc.clLock => true
  | Pc.clTest => true
  | Pc.clLog => true
  | Pc.clConn => true
  | Pc.clCancel => true
  | Pc.clUnlock => true
  | Pc.done => true
  | _ => false

/-- The heartbeat and the reader after their return: threads 0 and 1 stay within
their functions, a `Close` that is at its unlock has seen or made the token
fired, and so has the deferred `Close` of a heartbeat or reader that is done. -/
def Sys.Returned (s : Sys) : Prop :=
  (s.pcs 0).hbRole = true ∧ (s.pcs 1).rdRole = true ∧
  (∀ t, s.pcs t = Pc.clUnlock → s.l.ctxErr = true) ∧
  (s.pcs 0 = Pc.done → s.l.ctxErr = true) ∧ (s.pcs 1 = Pc.done → s.l.ctxErr = true)

end events

/-! ## Migration feature flags of `lxd/migration/utils.go` -/

namespace migration

/-- BTRFSFeatureMigrationHeader indicates a migration header will be sent/recv in
data channel after index header. -/
def BTRFSFeatureMigrationHeader : String := "migration_header"

/-- BTRFSFeatureSubvolumes indicates migration can send/recv subvolumes. -/
def BTRFSFeatureSubvolumes : String := "header_subvolumes"

/-- BTRFSFeatureSubvolumeUUIDs indicates that the header will include subvolume
UUIDs. -/
def BTRFSFeatureSubvolumeUUIDs : String := "header_subvolume_uuids"

/-- ZFSFeatureMigrationHeader indicates a migration header will be sent/recv in
data channel after index header. -/
def ZFSFeatureMigrationHeader : String := "migration_header"

/-- The message type behind `m.RsyncFeatures`, declared outside `utils.go`: the
four `*bool` fields that the code reads (`none` is the nil pointer). -/
structure RsyncFeatures where
  Xattrs : Option Bool
  Delete : Option Bool
  Compress : Option Bool
  Bidirectional : Option Bool
deriving DecidableEq, Repr

/-- The message type behind `m.ZfsFeatures`, declared outside `utils.go`. -/
structure ZfsFeatures where
  Compress : Option Bool
  MigrationHeader : Option Bool
deriving DecidableEq, Repr

/-- The message type behind `m.BtrfsFeatures`, declared outside `utils.go`. -/
structure BtrfsFeatures where
  MigrationHeader : Option Bool
  HeaderSubvolumes : Option Bool
  HeaderSubvolumeUuids : Option Bool
deriving DecidableEq, Repr

/-- The type `MigrationHeader`, declared outside `utils.go`: the three pointer
fields that the functions of `utils.go` read. -/
structure MigrationHeader where
  RsyncFeatures : Option migration.RsyncFeatures
  ZfsFeatures : Option migration.ZfsFeatures
  BtrfsFeatures : Option migration.BtrfsFeatures
deriving DecidableEq, Repr

/-- A Go `[]string`: `none` is the nil slice. -/
abbrev Slice := Option (List String)

/-- The Go builtin `append(s, x)`. -/
def Slice.append (s : Slice) (x : String) : Slice :=
  match s with
  | none => some [x]
  | some l => some (l ++ [x])

/-- The dereference of a pointer: a nil pointer makes the function panic. -/
def load {α : Type} (p : Option α) : Except String α :=
  match p with
  | none => Except.error "invalid memory address or nil pointer dereference"
  | some a => Except.ok a

/-- The test `p != nil && *p == true`, the right operand being evaluated only when
the left one holds. -/
def isTrue (p : Option Bool) : Except String Bool :=
  if p.isSome then do
    let v ← load p
    pure (v == true)
  else pure false

/-- The statement `if p != nil && *p == true { features = append(features, name) }`. -/
def appendIf (features : Slice) (p : Option Bool) (name : String) : Except String Slice := do
  if (← isTrue p) then pure (features.append name) else pure features

/-- GetRsyncFeaturesSlice returns a slice of strings representing the supported
RSYNC features. -/
def GetRsyncFeaturesSlice (m : Option MigrationHeader) : Except String Slice := do
  let features : Slice := some []
  if m.isNone then
    return features
  let h ← load m
  if h.RsyncFeatures.isSome then
    let r ← load h.RsyncFeatures
    let features ← appendIf features r.Xattrs "xattrs"
    let features ← appendIf features r.Delete "delete"
    let features ← appendIf features r.Compress "compress"
    let features ← appendIf features r.Bidirectional "bidirectional"
    return features
  return features

/-- GetZfsFeaturesSlice returns a slice of strings representing the supported ZFS
features. -/
def GetZfsFeaturesSlice (m : Option MigrationHeader) : Except String Slice := do
  let features : Slice := some []
  if m.isNone then
    return features
  let h ← load m
  if h.ZfsFeatures.isSome then
    let z ← load h.ZfsFeatures
    let features ← appendIf features z.Compress "compress"
    let features ← appendIf features z.MigrationHeader ZFSFeatureMigrationHeader
    return features
  return features

/-- GetBtrfsFeaturesSlice returns a slice of strings representing the supported
BTRFS features. -/
def GetBtrfsFeaturesSlice (m : Option MigrationHeader) : Except String Slice := do
  let features : Slice := some []
  if m.isNone then
    return features
  let h ← load m
  if h.BtrfsFeatures.isSome then
    let b ← load h.BtrfsFeatures
    let features ← appendIf features b.MigrationHeader BTRFSFeatureMigrationHeader
    let features ← appendIf features b.HeaderSubvolumes BTRFSFeatureSubvolumes
    let features ← appendIf features b.HeaderSubvolumeUuids BTRFSFeatureSubvolumeUUIDs
    return features
  return features

end migration

/-! ## Lifecycle events of `lxd/lifecycle/network_zone.go` -/

namespace lifecycle

/-- What `network_zone.go` imports: `url.PathEscape` and `url.QueryEscape` of the
Go library, and the constant `project.Default`, declared outside the file. -/
structure Imports where
  PathEscape : String → String
  QueryEscape : String → String
  Default : String

/-- The type `api.NetworkZone`, declared outside the file: the field that is read. -/
structure NetworkZone where
  Name : String
deriving DecidableEq, Repr

/-- The type `api.EventLifecycleRequestor`, declared outside the file. -/
structure EventLifecycleRequestor where
  Username : String
  Protocol : String
  Address : String
deriving DecidableEq, Repr

/-- A `map[string]any`, carried through as given. -/
abbrev Context := List (String × String)

/-- The type `api.EventLifecycle`, declared outside the file: the four fields that
are set (`Requestor` is a pointer, `none` being nil). -/
structure EventLifecycle where
  Action : String
  Source : String
  Context : lifecycle.Context
  Requestor : Option EventLifecycleRequestor
deriving DecidableEq, Repr

/-- Internal copy of the network zone interface: the results of `Info()`, a
pointer, and of `Project()`. -/
structure networkZone where
  Info : Option NetworkZone
  Project : String
deriving DecidableEq, Repr

/-- NetworkZoneAction represents a lifecycle event action for network zones. -/
abbrev NetworkZoneAction := String

/-- NetworkZoneRecordAction represents a lifecycle event action for network zone
records. -/
abbrev NetworkZoneRecordAction := String

/-- The dereference of a pointer: a nil pointer makes the function panic. -/
def load {α : Type} (p : Option α) : Except String α :=
  match p with
  | none => Except.error "invalid memory address or nil pointer dereference"
  | some a => Except.ok a

/-- Event creates the lifecycle event for an action on a network zone. -/
def NetworkZoneAction.Event (imp : Imports) (a : NetworkZoneAction) (n : networkZone)
    (requestor : Option EventLifecycleRequestor) (ctx : Context) :
    Except String EventLifecycle := do
  let info ← load n.Info
  let u := "/1.0/network-zones/" ++ imp.PathEscape info.Name
  let u := if n.Project != imp.Default then u ++ "?project=" ++ imp.QueryEscape n.Project else u
  pure { Action := a, Source := u, Context := ctx, Requestor := requestor }

/-- Event creates the lifecycle event for an action on a network zone record. -/
def NetworkZoneRecordAction.Event (imp : Imports) (a : NetworkZoneRecordAction)
    (n : networkZone) (name : String) (requestor : Option EventLifecycleRequestor)
    (ctx : Context) : Except String EventLifecycle := do
  let info ← load n.Info
  let u := "/1.0/network-zones/" ++ imp.PathEscape info.Name ++ "/records/" ++
    imp.PathEscape name
  let u := if n.Project != imp.Default then u ++ "?project=" ++ imp.QueryEscape n.Project else u
  pure { Action := a, Source := u, Context := ctx, Requestor := requestor }

end lifecycle

/-! ## Configuration sections of `lxd/instance/drivers/driver_qemu_templates.go` -/

namespace drivers

/-- The struct `cfgEntry`. -/
structure cfgEntry where
  key : String
  value : String
deriving DecidableEq, Repr

/-- The struct `cfgSection`. -/
structure cfgSection where
  name : String
  comment : String
  entries : List cfgEntry
deriving DecidableEq, Repr

/-- The inner loop of `qemuAppendSections`: the entries with a value are written to
the builder, whose content is `sb`. -/
def writeEntries (sb : String) (entries : List cfgEntry) : String :=
  entries.foldl (fun sb entry =>
    let value := entry.value
    if value != "" then sb ++ (entry.key ++ " = \"" ++ value ++ "\"\n") else sb) sb

/-- The function `qemuAppendSections`: `sb` is the content of the builder before the
call, the result its content after. -/
def qemuAppendSections (sb : String) (sections : List cfgSection) : String :=
  sections.foldl (fun sb sec =>
    let sb := if sec.comment != "" then sb ++ ("# " ++ sec.comment ++ "\n") else sb
    let sb := sb ++ ("[" ++ sec.name ++ "]\n")
    let sb := writeEntries sb sec.entries
    sb ++ "\n") sb

/-- The function `qemuBaseSections`. -/
def qemuBaseSections (architecture : String) : List cfgSection :=
  let machineType :=
    if architecture == "x86_64" then "q35"
    else if architecture == "aarch64" then "virt"
    else if architecture == "ppc64le" then "pseries"
    else if architecture == "s390x" then "s390-ccw-virtio"
    else ""
  let gicVersion := if architecture == "aarch64" then "max" else ""
  let capLargeDecr := if architecture == "ppc64le" then "off" else ""
  let sections : List cfgSection := [{
    name := "machine",
    comment := "Machine",
    entries := [
      { key := "graphics", value := "off" },
      { key := "type", value := machineType },
      { key := "gic-version", value := gicVersion },
      { key := "cap-large-decr", value := capLargeDecr },
      { key := "accel", value := "kvm" },
      { key := "usb", value := "off" }] }]
  let sections :=
    if architecture == "x86_64" then
      sections ++ [{
        name := "global",
        comment := "",
        entries := [
          { key := "driver", value := "ICH9-LPC" },
          { key := "property", value := "disable_s3" },
          { key := "value", value := "1" }] }, {
        name := "global",
        comment := "",
        entries := [
          { key := "driver", value := "ICH9-LPC" },
          { key := "property", value := "disable_s4" },
          { key := "value", value := "1" }] }]
    else sections
  sections ++ [{
    name := "boot-opts",
    comment := "",
    entries := [{ key := "strict", value := "on" }] }]

/-- The struct `qemuDevOpts`. -/
structure qemuDevOpts where
  busName : String
  devBus : String
  devAddr : String
  multifunction : Bool
deriving DecidableEq, Repr

/-- The struct `qemuDevEntriesOpts`. -/
structure qemuDevEntriesOpts where
  dev : qemuDevOpts
  pciName : String
  ccwName : String
deriving DecidableEq, Repr

/-- The function `qemuDeviceEntries`, on the struct that `opts` points to. -/
def qemuDeviceEntries (opts : qemuDevEntriesOpts) : List cfgEntry :=
  let entries : List cfgEntry := []
  let entries :=
    if opts.dev.busName == "pci" || opts.dev.busName == "pcie" then
      entries ++ [
        { key := "driver", value := opts.pciName },
        { key := "bus", value := opts.dev.devBus },
        { key := "addr", value := opts.dev.devAddr }]
    else if opts.dev.busName == "ccw" then
      entries ++ [{ key := "driver", value := opts.ccwName }]
    else entries
  let entries :=
    if opts.dev.multifunction then
      entries ++ [{ key := "multifunction", value := "on" }]
    else entries
  entries

/-- The struct `qemuSerialOpts`. -/
structure qemuSerialOpts where
  dev : qemuDevOpts
  charDevName : String
  ringbufSizeBytes : Int
deriving DecidableEq, Repr

/-- The function `qemuSerialSections`, on the struct that `opts` points to;
`toString` of an integer is its `%d` form. -/
def qemuSerialSections (opts : qemuSerialOpts) : List cfgSection :=
  let entriesOpts : qemuDevEntriesOpts := {
    dev := opts.dev,
    pciName := "virtio-serial-pci",
    ccwName := "virtio-serial-ccw" }
  [{
    name := "device \"dev-qemu_serial\"",
    comment := "Virtual serial bus",
    entries := qemuDeviceEntries entriesOpts }, {
    name := "chardev \"" ++ opts.charDevName ++ "\"",
    comment := "LXD serial identifier",
    entries := [
      { key := "backend", value := "ringbuf" },
      { key := "size", value := toString opts.ringbufSizeBytes ++ "B" }] }, {
    name := "device \"qemu_serial\"",
    comment := "",
    entries := [
      { key := "driver", value := "virtserialport" },
      { key := "name", value := "org.linuxcontainers.lxd" },
      { key := "chardev", value := opts.charDevName },
      { key := "bus", value := "dev-qemu_serial.0" }] }, {
    name := "chardev \"qemu_spice-chardev\"",
    comment := "Spice agent",
    entries := [
      { key := "backend", value := "spicevmc" },
      { key := "name", value := "vdagent" }] }, {
    name := "device \"qemu_spice\"",
    comment := "",
    entries := [
      { key := "driver", value := "virtserialport" },
      { key := "name", value := "com.redhat.spice.0" },
      { key := "chardev", value := "qemu_spice-chardev" },
      { key := "bus", value := "dev-qemu_serial.0" }] }, {
    name := "chardev \"qemu_spicedir-chardev\"",
    comment := "Spice folder",
    entries := [
      { key := "backend", value := "spiceport" },
      { key := "name", value := "org.spice-space.webdav.0" }] }, {
    name := "device \"qemu_spicedir\"",
    comment := "",
    entries := [
      { key := "driver", value := "virtserialport" },
      { key := "name", value := "org.spice-space.webdav.0" },
      { key := "chardev", value := "qemu_spicedir-chardev" },
      { key := "bus", value := "dev-qemu_serial.0" }] }]

/-- The text of one entry in the words of the specification: the line
`key = value`, the value between double quotes, when the value is not empty, nothing otherwise. -/
def entryText (entry : cfgEntry) : String :=
  if entry.value = "" then "" else entry.key ++ " = \"" ++ entry.value ++ "\"\n"

/-- The concatenation of a list of texts. -/
def concatText : List String → String
  | [] => ""
  | s :: rest => s ++ concatText rest

/-- The text of one section in the words of the specification: the comment line
when there is a comment, the name in brackets, the entries, an empty line. -/
def sectionText (sec : cfgSection) : String :=
  (if sec.comment = "" then "" else "# " ++ sec.comment ++ "\n") ++
    ("[" ++ sec.name ++ "]\n") ++ concatText (sec.entries.map entryText) ++ "\n"


/-! ## The text template `qemuSerial`

The template text is that of the source; `Parse` and `Execute` follow the Go
package `text/template` for the constructs that the text uses: text, the trim
markers, `if` with a field or with `eq`, `end`, and the printing of a field. -/

namespace template

/-- A value of the data map given to a template. -/
inductive Value where
  | str (s : String)
  | bool (b : Bool)
  | int (n : Int)
deriving DecidableEq, Repr

/-- The actions that occur between the delimiters. -/
inductive Action where
  /-- The action `if eq .field c1 c2 ...`, the constants being quoted strings. -/
  | ifEq (field : String) (consts : List String)
  /-- The action `if .field`. -/
  | ifField (field : String)
  /-- The action `end`. -/
  | endIf
  /-- The action `.field`, which prints the field. -/
  | field (name : String)
deriving DecidableEq, Repr

/-- Pieces of a template text: text outside the delimiters, the inside of an
action, or an action that is not closed. -/
inductive Raw where
  | text (cs : List Char)
  | action (cs : List Char)
  | unclosed
deriving DecidableEq, Repr

/-- A parsed piece: text, or an action with its left and right trim markers. -/
inductive Node where
  | text (s : String)
  | action (trimLeft : Bool) (a : Action) (trimRight : Bool)
deriving DecidableEq, Repr

/-- Cuts a template text at the delimiters; `acc` holds the current piece in
reverse. -/
def lex : Bool → List Char → List Char → List Raw
  | false, acc, '\x7b' :: '\x7b' :: rest => Raw.text acc.reverse :: lex true [] rest
  | true, acc, '\x7d' :: '\x7d' :: rest => Raw.action acc.reverse :: lex false [] rest
  | inAction, acc, c :: rest => lex inAction (c :: acc) rest
  | false, acc, [] => [Raw.text acc.reverse]
  | true, _, [] => [Raw.unclosed]

/-- The white space of template texts. -/
def isSpace (c : Char) : Bool :=
  c == ' ' || c == '\t' || c == '\r' || c == '\n'

/-- The words of an action, cut at white space; `cur` holds the current word in
reverse. -/
def words (cur : List Char) : List Char → List (List Char)
  | [] => if cur.isEmpty then [] else [cur.reverse]
  | c :: cs =>
    if isSpace c then
      if cur.isEmpty then words [] cs else cur.reverse :: words [] cs
    else words (c :: cur) cs

/-- The content of a string constant between double quotes. -/
def unquote (w : List Char) : Option String :=
  match w with
  | '\x22' :: rest =>
    match rest.reverse with
    | '\x22' :: inner => some (String.mk inner.reverse)
    | _ => none
  | _ => none

/-- The action that a list of words spells. -/
def parseWords : List (List Char) → Option Action
  | [['e', 'n', 'd']] => some Action.endIf
  | ['i', 'f'] :: ['e', 'q'] :: ('.' :: f) :: consts =>
    (consts.mapM unquote).map (Action.ifEq (String.mk f))
  | [['i', 'f'], '.' :: f] => some (Action.ifField (String.mk f))
  | ['.' :: f] => some (Action.field (String.mk f))
  | _ => none

/-- An action starts with a trim marker: a minus sign followed by white space. -/
def hasLeftTrimMarker (cs : List Char) : Bool :=
  match cs with
  | '-' :: c :: _ => isSpace c
  | _ => false

/-- An action ends with a trim marker: white space followed by a minus sign. -/
def hasRightTrimMarker (cs : List Char) : Bool :=
  match cs.reverse with
  | '-' :: c :: _ => isSpace c
  | _ => false

/-- The node of a piece, if the piece is well formed. -/
def toNode : Raw → Option Node
  | Raw.text cs => some (Node.text (String.mk cs))
  | Raw.unclosed => none
  | Raw.action cs =>
    let l := hasLeftTrimMarker cs
    let r := hasRightTrimMarker cs
    let cs := if l then cs.drop 1 else cs
    let cs := if r then cs.dropLast else cs
    (parseWords (words [] cs)).map (fun a => Node.action l a r)

/-- Every `if` has its `end`; `depth` counts the open ones. -/
def balanced : Nat → List Node → Bool
  | depth, [] => depth == 0
  | depth, Node.text _ :: rest => balanced depth rest
  | depth, Node.action _ (Action.field _) _ :: rest => balanced depth rest
  | depth, Node.action _ (Action.ifEq _ _) _ :: rest => balanced (depth + 1) rest
  | depth, Node.action _ (Action.ifField _) _ :: rest => balanced (depth + 1) rest
  | 0, Node.action _ Action.endIf _ :: _ => false
  | depth + 1, Node.action _ Action.endIf _ :: rest => balanced depth rest

/-- Trailing white space removed. -/
def trimRight (s : String) : String :=
  String.mk ((s.data.reverse.dropWhile isSpace).reverse)

/-- Leading white space removed. -/
def trimLeft (s : String) : String :=
  String.mk (s.data.dropWhile isSpace)

/-- The effect of the trim markers: a text loses its leading white space after an
action with a right marker, and its trailing white space before an action with a
left marker. -/
def trim : Bool → List Node → List Node
  | _, [] => []
  | after, Node.text s :: rest =>
    let s := if after then trimLeft s else s
    let s :=
      match rest with
      | Node.action true _ _ :: _ => trimRight s
      | _ => s
    Node.text s :: trim false rest
  | _, Node.action l a r :: rest => Node.action l a r :: trim r rest

/-- The parsing of a template text; `none` when the text is not a template. -/
def Parse (text : String) : Option (List Node) :=
  match (lex false [] text.data).mapM toNode with
  | none => none
  | some nodes => if balanced 0 nodes then some (trim false nodes) else none

/-- The data map of a template. -/
abbrev Data := List (String × Value)

/-- The truth of a field in an `if`: a missing field, false, the empty string and
zero are false. -/
def truth : Option Value → Bool
  | none => false
  | some (Value.bool b) => b
  | some (Value.str s) => s != ""
  | some (Value.int n) => n != 0

/-- The printed form of a field. -/
def print : Option Value → String
  | none => "<no value>"
  | some (Value.bool b) => toString b
  | some (Value.str s) => s
  | some (Value.int n) => toString n

/-- The output of a list of nodes; `skip` counts the open `if` actions from the
innermost false one on, and is 0 when output is produced. -/
def exec (data : Data) : Nat → List Node → Except String String
  | _, [] => Except.ok ""
  | 0, Node.text s :: rest => (exec data 0 rest).map (fun out => s ++ out)
  | 0, Node.action _ (Action.field f) _ :: rest =>
    (exec data 0 rest).map (fun out => print (data.lookup f) ++ out)
  | 0, Node.action _ (Action.ifField f) _ :: rest =>
    exec data (if truth (data.lookup f) then 0 else 1) rest
  | 0, Node.action _ (Action.ifEq f consts) _ :: rest =>
    match data.lookup f with
    | some (Value.str s) => exec data (if consts.contains s then 0 else 1) rest
    | _ => Except.error "error calling eq: incompatible types for comparison"
  | 0, Node.action _ Action.endIf _ :: rest => exec data 0 rest
  | skip + 1, Node.text _ :: rest => exec data (skip + 1) rest
  | skip + 1, Node.action _ (Action.field _) _ :: rest => exec data (skip + 1) rest
  | skip + 1, Node.action _ (Action.ifField _) _ :: rest => exec data (skip + 2) rest
  | skip + 1, Node.action _ (Action.ifEq _ _) _ :: rest => exec data (skip + 2) rest
  | skip + 1, Node.action _ Action.endIf _ :: rest => exec data skip rest

/-- The execution of a parsed template on a data map: the text written, or the
error. -/
def Execute (t : Option (List Node)) (data : Data) : Except String String :=
  match t with
  | none => Except.error "template: parse error"
  | some nodes => exec data 0 nodes

end template

/-- The text of the template `qemuSerial`. -/
def qemuSerialText : String :=
  "\n" ++
  "# Virtual serial bus\n" ++
  "[device \"dev-qemu_serial\"]\n" ++
  "\x7b\x7b- if eq .bus \"pci\" \"pcie\"\x7d\x7d\n" ++
  "driver = \"virtio-serial-pci\"\n" ++
  "bus = \"\x7b\x7b.devBus\x7d\x7d\"\n" ++
  "addr = \"\x7b\x7b.devAddr\x7d\x7d\"\n" ++
  "\x7b\x7b- end\x7d\x7d\n" ++
  "\x7b\x7bif eq .bus \"ccw\" -\x7d\x7d\n" ++
  "driver = \"virtio-serial-ccw\"\n" ++
  "\x7b\x7b- end\x7d\x7d\n" ++
  "\x7b\x7bif .multifunction -\x7d\x7d\n" ++
  "multifunction = \"on\"\n" ++
  "\x7b\x7b- end \x7d\x7d\n" ++
  "\n" ++
  "# LXD serial identifier\n" ++
  "[chardev \"\x7b\x7b.chardevName\x7d\x7d\"]\n" ++
  "backend = \"ringbuf\"\n" ++
  "size = \"\x7b\x7b.ringbufSizeBytes\x7d\x7dB\"\n" ++
  "\n" ++
  "[device \"qemu_serial\"]\n" ++
  "driver = \"virtserialport\"\n" ++
  "name = \"org.linuxcontainers.lxd\"\n" ++
  "chardev = \"\x7b\x7b.chardevName\x7d\x7d\"\n" ++
  "bus = \"dev-qemu_serial.0\"\n" ++
  "\n" ++
  "# Spice agent\n" ++
  "[chardev \"qemu_spice-chardev\"]\n" ++
  "backend = \"spicevmc\"\n" ++
  "name = \"vdagent\"\n" ++
  "\n" ++
  "[device \"qemu_spice\"]\n" ++
  "driver = \"virtserialport\"\n" ++
  "name = \"com.redhat.spice.0\"\n" ++
  "chardev = \"qemu_spice-chardev\"\n" ++
  "bus = \"dev-qemu_serial.0\"\n" ++
  "\n" ++
  "# Spice folder\n" ++
  "[chardev \"qemu_spicedir-chardev\"]\n" ++
  "backend = \"spiceport\"\n" ++
  "name = \"org.spice-space.webdav.0\"\n" ++
  "\n" ++
  "[device \"qemu_spicedir\"]\n" ++
  "driver = \"virtserialport\"\n" ++
  "name = \"org.spice-space.webdav.0\"\n" ++
  "chardev = \"qemu_spicedir-chardev\"\n" ++
  "bus = \"dev-qemu_serial.0\"\n"

/-- The template `qemuSerial`. -/
def qemuSerial : Option (List template.Node) :=
  template.Parse qemuSerialText

/-- The data map that gives the template `qemuSerial` the values of the options. -/
def qemuSerialData (opts : qemuSerialOpts) : template.Data :=
  [("bus", template.Value.str opts.dev.busName),
   ("devBus", template.Value.str opts.dev.devBus),
   ("devAddr", template.Value.str opts.dev.devAddr),
   ("multifunction", template.Value.bool opts.dev.multifunction),
   ("chardevName", template.Value.str opts.charDevName),
   ("ringbufSizeBytes", template.Value.int opts.ringbufSizeBytes)]

/-- The scanning of a text for its lines: `done` holds the non-empty lines that
are complete, last first, and `cur` the line being read, in reverse. -/
structure LineScan where
  done : List String
  cur : List Char
deriving DecidableEq, Repr

/-- The scan after one more character. -/
def LineScan.feed (st : LineScan) (c : Char) : LineScan :=
  if c = '\n' then
    { done := if st.cur = [] then st.done else String.mk st.cur.reverse :: st.done, cur := [] }
  else { st with cur := c :: st.cur }

/-- The lines found when the text ends. -/
def LineScan.finish (st : LineScan) : List String :=
  (if st.cur = [] then st.done else String.mk st.cur.reverse :: st.done).reverse

/-- The sequence of the non-empty lines of a text, lines being separated by the
newline character. -/
def nonEmptyLines (s : String) : List String :=
  (s.data.foldl LineScan.feed { done := [], cur := [] }).finish


/-- The text made of the given lines, each followed by the newline character. -/
def unlines (ls : List String) : String :=
  concatText (ls.map (fun l => l ++ "\n"))

/-- The non-empty lines of a list of texts, text after text. -/
def linesOfAll (ls : List String) : List String :=
  ls.foldr (fun l acc => nonEmptyLines l ++ acc) []

/-- The lines of the serial configuration from the character device of the ring
buffer to the last device, with the empty lines of the template text. -/
def serialTailLines (charDevName : String) (ringbufSizeBytes : Int) : List String :=
  ["# LXD serial identifier",
   "[chardev \"" ++ charDevName ++ "\"]",
   "backend = \"ringbuf\"",
   "size = \"" ++ toString ringbufSizeBytes ++ "B\"",
   "",
   "[device \"qemu_serial\"]",
   "driver = \"virtserialport\"",
   "name = \"org.linuxcontainers.lxd\"",
   "chardev = \"" ++ charDevName ++ "\"",
   "bus = \"dev-qemu_serial.0\"",
   "",
   "# Spice agent",
   "[chardev \"qemu_spice-chardev\"]",
   "backend = \"spicevmc\"",
   "name = \"vdagent\"",
   "",
   "[device \"qemu_spice\"]",
   "driver = \"virtserialport\"",
   "name = \"com.redhat.spice.0\"",
   "chardev = \"qemu_spice-chardev\"",
   "bus = \"dev-qemu_serial.0\"",
   "",
   "# Spice folder",
   "[chardev \"qemu_spicedir-chardev\"]",
   "backend = \"spiceport\"",
   "name = \"org.spice-space.webdav.0\"",
   "",
   "[device \"qemu_spicedir\"]",
   "driver = \"virtserialport\"",
   "name = \"org.spice-space.webdav.0\"",
   "chardev = \"qemu_spicedir-chardev\"",
   "bus = \"dev-qemu_serial.0\""]

end drivers

/-! ## Theorems on the event listener -/

namespace events

open listenerCommon

/-! ## Helper lemmas on the operations -/

theorem Close_of_closed (e : listenerCommon) (closeErr : Bool) (h : e.IsClosed = true) :
    e.Close closeErr = e := by
  simp [Close, h]

theorem isClosed_Close (e : listenerCommon) (closeErr : Bool) :
    (e.Close closeErr).IsClosed = true := by
  unfold Close
  split
  · assumption
  · simp [listenerCommon.IsClosed, ctxCancel]

theorem closeMany_of_closed (closeErrs : List Bool) (e : listenerCommon)
    (h : e.IsClosed = true) : e.closeMany closeErrs = e := by
  induction closeErrs with
  | nil => rfl
  | cons c cs ih => simp only [closeMany, List.foldl_cons] at ih ⊢; rw [Close_of_closed e c h]; exact ih

theorem connCloseCalls_Close_of_open (e : listenerCommon) (closeErr : Bool)
    (h : e.IsClosed = false) :
    (e.Close closeErr).connCloseCalls = e.connCloseCalls + 1 ∧
    (e.Close closeErr).cancelCalls = e.cancelCalls + 1 := by
  cases closeErr <;> simp [Close, h, ctxCancel, connClose, logLine]

/-! ## Close -/

/-- C1: Close is idempotent.  For a listener that starts open, the first `Close()`
leaves it closed, any further number of `Close()` calls leaves the state as the
first call left it, and over the whole sequence the connection is closed exactly
once and the cancel function is called exactly once. -/
theorem Close_idempotent (e : listenerCommon) (closeErr : Bool) (closeErrs : List Bool)
    (h : e.IsClosed = false) :
    (e.Close closeErr).IsClosed = true ∧
    (e.Close closeErr).closeMany closeErrs = e.Close closeErr ∧
    (e.closeMany (closeErr :: closeErrs)).IsClosed = true ∧
    (e.closeMany (closeErr :: closeErrs)).connCloseCalls = e.connCloseCalls + 1 ∧
    (e.closeMany (closeErr :: closeErrs)).cancelCalls = e.cancelCalls + 1 := by
  have hc := isClosed_Close e closeErr
  have hm := closeMany_of_closed closeErrs (e.Close closeErr) hc
  have hn := connCloseCalls_Close_of_open e closeErr h
  have hcons : e.closeMany (closeErr :: closeErrs) = (e.Close closeErr).closeMany closeErrs := rfl
  rw [hcons, hm]
  exact ⟨hc, rfl, hc, hn.1, hn.2⟩

theorem Close_idempotent_witness :
    (newListener "l1" ["lifecycle"] false).IsClosed = false ∧
    ((newListener "l1" ["lifecycle"] false).closeMany [false, true, false]).connCloseCalls = 0 + 1 :=
  ⟨rfl, (Close_idempotent (newListener "l1" ["lifecycle"] false) false [true, false] rfl).2.2.2.1⟩

/-! ## Heartbeat iterations -/

theorem heartbeatIter_of_closed (e : listenerCommon) (sendOk closeErr : Bool)
    (h : e.IsClosed = true) : e.heartbeatIter sendOk closeErr = (e, Ctl.ret) := by
  simp [heartbeatIter, heartbeatBody, h, Close_of_closed]

theorem heartbeatIter_of_timeout (e : listenerCommon) (sendOk closeErr : Bool)
    (h : e.IsClosed = false) (hp : 2 < e.pongsPending) :
    e.heartbeatIter sendOk closeErr =
      ((e.logLine LogLevel.warn "Hearbeat for event listener handler timed out").Close closeErr,
        Ctl.ret) := by
  simp [heartbeatIter, heartbeatBody, h, hp]

theorem heartbeatIter_of_sendFail (e : listenerCommon) (closeErr : Bool)
    (h : e.IsClosed = false) (hp : e.pongsPending ≤ 2) :
    e.heartbeatIter false closeErr =
      ((e.connWrite (Frame.ping "keepalive") false).Close closeErr, Ctl.ret) := by
  have hp2 : ¬ 2 < e.pongsPending := by omega
  simp [heartbeatIter, heartbeatBody, h, hp2]

theorem heartbeatIter_of_sendOk (e : listenerCommon) (closeErr : Bool)
    (h : e.IsClosed = false) (hp : e.pongsPending ≤ 2) :
    e.heartbeatIter true closeErr =
      ((e.connWrite (Frame.ping "keepalive") true).incrPongs, Ctl.next) := by
  have hp2 : ¬ 2 < e.pongsPending := by omega
  have hc : ((e.connWrite (Frame.ping "keepalive") true).incrPongs).IsClosed = false := h
  simp [heartbeatIter, heartbeatBody, h, hp2, hc]

theorem written_Close (e : listenerCommon) (closeErr : Bool) :
    (e.Close closeErr).written = e.written := by
  cases closeErr <;> unfold Close <;> split <;> simp [ctxCancel, connClose, logLine]

theorem pongsPending_Close (e : listenerCommon) (closeErr : Bool) :
    (e.Close closeErr).pongsPending = e.pongsPending := by
  cases closeErr <;> unfold Close <;> split <;> simp [ctxCancel, connClose, logLine]

theorem incr_small (n : Nat) (h : n ≤ 2) : (n + 1) % uintSize = n + 1 := by
  apply Nat.mod_eq_of_lt
  unfold uintSize
  omega

/-- One iteration of the heartbeat loop taken as a whole hands a ping to the
connection exactly when, at its start, the listener is not closed and
`pongsPending` is at most 2; in every other case nothing is written.  On a closed
listener the iteration returns with the state as it was; with `pongsPending`
above 2 it returns with the listener closed and nothing written. -/
theorem heartbeatIter_atomic (e : listenerCommon) (sendOk closeErr : Bool) :
    ((e.heartbeatIter sendOk closeErr).1.written =
        e.written ++ [(Frame.ping "keepalive", sendOk)] ↔
      (e.IsClosed = false ∧ e.pongsPending ≤ 2)) ∧
    (¬ (e.IsClosed = false ∧ e.pongsPending ≤ 2) →
      (e.heartbeatIter sendOk closeErr).1.written = e.written ∧
      (e.heartbeatIter sendOk closeErr).2 = Ctl.ret) ∧
    (e.IsClosed = true → e.heartbeatIter sendOk closeErr = (e, Ctl.ret)) ∧
    (e.IsClosed = false → 2 < e.pongsPending →
      (e.heartbeatIter sendOk closeErr).1.IsClosed = true ∧
      (e.heartbeatIter sendOk closeErr).2 = Ctl.ret ∧
      (e.heartbeatIter sendOk closeErr).1.written = e.written) := by
  have key : ∀ (hc : e.IsClosed = false) (hp : 2 < e.pongsPending),
      (e.heartbeatIter sendOk closeErr).1.IsClosed = true ∧
      (e.heartbeatIter sendOk closeErr).2 = Ctl.ret ∧
      (e.heartbeatIter sendOk closeErr).1.written = e.written := by
    intro hc hp
    rw [heartbeatIter_of_timeout e sendOk closeErr hc hp]
    exact ⟨isClosed_Close _ _, rfl, by rw [written_Close]; rfl⟩
  refine ⟨?_, ?_, heartbeatIter_of_closed e sendOk closeErr, key⟩
  · cases hc : e.IsClosed
    · by_cases hp : e.pongsPending ≤ 2
      · cases sendOk
        · rw [heartbeatIter_of_sendFail e closeErr hc hp]
          simp [written_Close, connWrite, hp]
        · rw [heartbeatIter_of_sendOk e closeErr hc hp]
          simp [connWrite, incrPongs, hp]
      · have hp2 : 2 < e.pongsPending := by omega
        simp [(key hc hp2).2.2, hp]
    · rw [heartbeatIter_of_closed e sendOk closeErr hc]
      simp
  · intro hn
    cases hc : e.IsClosed
    · have hp2 : 2 < e.pongsPending := by
        by_contra hlt
        exact hn ⟨hc, by omega⟩
      exact ⟨(key hc hp2).2.2, (key hc hp2).2.1⟩
    · rw [heartbeatIter_of_closed e sendOk closeErr hc]
      exact ⟨rfl, rfl⟩

/-! ## The heartbeat loop without pongs -/

/-- A successful ping of the heartbeat loop: the frame is written and the count
goes up by one. -/
theorem heartbeatLoop_next (sends : Nat → Bool) (closeErr : Bool) (fuel i : Nat)
    (e e1 : listenerCommon) (h : e.heartbeatIter (sends i) closeErr = (e1, Ctl.next)) :
    heartbeatLoop sends closeErr (fuel + 1) i e = heartbeatLoop sends closeErr fuel (i + 1) e1 := by
  simp [heartbeatLoop, h]

theorem heartbeatLoop_ret (sends : Nat → Bool) (closeErr : Bool) (fuel i : Nat)
    (e e1 : listenerCommon) (h : e.heartbeatIter (sends i) closeErr = (e1, Ctl.ret)) :
    heartbeatLoop sends closeErr (fuel + 1) i e = some (e1, i + 1) := by
  simp [heartbeatLoop, h]

/-- With every send successful and no pong, the loop started at count 0 runs
three pinging iterations and returns in the fourth. -/
theorem heartbeatLoop_no_pong (e : listenerCommon) (closeErr : Bool) (k : Nat)
    (h : e.IsClosed = false) (h0 : e.pongsPending = 0) :
    heartbeatLoop (fun _ => true) closeErr (k + 4) 0 e =
      some (({ e with pongsPending := 3,
                      written := e.written ++ List.replicate 3 (Frame.ping "keepalive", true) }.logLine
              LogLevel.warn "Hearbeat for event listener handler timed out").Close closeErr, 4) := by
  have s1 := heartbeatIter_of_sendOk e closeErr h (by omega)
  have s2 := heartbeatIter_of_sendOk ((e.connWrite (Frame.ping "keepalive") true).incrPongs)
    closeErr h (by simp [incrPongs, connWrite, h0, uintSize])
  have s3 := heartbeatIter_of_sendOk
    ((((e.connWrite (Frame.ping "keepalive") true).incrPongs).connWrite
      (Frame.ping "keepalive") true).incrPongs)
    closeErr h (by simp [incrPongs, connWrite, h0, uintSize])
  have s4 := heartbeatIter_of_timeout
    ((((((e.connWrite (Frame.ping "keepalive") true).incrPongs).connWrite
      (Frame.ping "keepalive") true).incrPongs).connWrite
      (Frame.ping "keepalive") true).incrPongs) true
    closeErr h (by simp [incrPongs, connWrite, h0, uintSize])
  rw [heartbeatLoop_next _ _ _ _ _ _ s1, heartbeatLoop_next _ _ _ _ _ _ s2,
    heartbeatLoop_next _ _ _ _ _ _ s3, heartbeatLoop_ret _ _ _ _ _ _ s4]
  simp [incrPongs, connWrite, h0, uintSize, List.replicate]

theorem heartbeatLoop_three_running (e : listenerCommon) (closeErr : Bool)
    (h : e.IsClosed = false) (h0 : e.pongsPending = 0) :
    heartbeatLoop (fun _ => true) closeErr 3 0 e = none := by
  have s1 := heartbeatIter_of_sendOk e closeErr h (by omega)
  have s2 := heartbeatIter_of_sendOk ((e.connWrite (Frame.ping "keepalive") true).incrPongs)
    closeErr h (by simp [incrPongs, connWrite, h0, uintSize])
  have s3 := heartbeatIter_of_sendOk
    ((((e.connWrite (Frame.ping "keepalive") true).incrPongs).connWrite
      (Frame.ping "keepalive") true).incrPongs)
    closeErr h (by simp [incrPongs, connWrite, h0, uintSize])
  rw [heartbeatLoop_next _ _ _ _ _ _ s1, heartbeatLoop_next _ _ _ _ _ _ s2,
    heartbeatLoop_next _ _ _ _ _ _ s3]
  rfl

/-- C3, as stated, fails: on a fresh listener whose pings all succeed and that
never gets a pong, the heartbeat does not stop at the third iteration with at
most two pings sent. -/
theorem heartbeat_two_pings_counterexample :
    ¬ (∀ e1 n, heartbeat 10 (newListener "l1" ["lifecycle"] false) (fun _ => true) false =
          some (e1, n) → e1.pingsSent ≤ 2 ∧ n = 3) := by
  intro hall
  have h := hall _ _ rfl
  revert h
  decide

/-- C3, amended: started on an open listener, with every ping sent successfully and
no pong received, the heartbeat sends exactly three pings, one in each of its first
three iterations, and is declared dead in the fourth iteration, the one on which
the fourth ping would be sent; the count of pending pongs is then 3. -/
theorem heartbeat_three_pings (e : listenerCommon) (closeErr : Bool) (fuel : Nat)
    (h : e.IsClosed = false) (hf : 4 ≤ fuel) :
    heartbeat 3 e (fun _ => true) closeErr = none ∧
    ∃ e1, heartbeat fuel e (fun _ => true) closeErr = some (e1, 4) ∧
      e1.written = e.written ++ List.replicate 3 (Frame.ping "keepalive", true) ∧
      e1.pingsSent = e.pingsSent + 3 ∧
      e1.pongsPending = 3 ∧ e1.IsClosed = true := by
  obtain ⟨k, rfl⟩ : ∃ k, fuel = k + 4 := ⟨fuel - 4, by omega⟩
  have hi : e.heartbeatInit.IsClosed = false := h
  have h0 : e.heartbeatInit.pongsPending = 0 := rfl
  refine ⟨heartbeatLoop_three_running _ closeErr hi h0, _, heartbeatLoop_no_pong _ closeErr k hi h0,
    ?_, ?_, ?_, isClosed_Close _ _⟩
  · rw [written_Close]; rfl
  · unfold pingsSent
    rw [written_Close]
    simp [logLine, heartbeatInit, resetPongs, List.countP_append, List.replicate]
  · rw [pongsPending_Close]; rfl

theorem heartbeat_three_pings_witness :
    (newListener "l1" ["lifecycle"] true).IsClosed = false ∧ 4 ≤ 7 ∧
    ∃ e1, heartbeat 7 (newListener "l1" ["lifecycle"] true) (fun _ => true) true = some (e1, 4) ∧
      e1.written = (newListener "l1" ["lifecycle"] true).written ++
        List.replicate 3 (Frame.ping "keepalive", true) ∧
      e1.pingsSent = (newListener "l1" ["lifecycle"] true).pingsSent + 3 ∧
      e1.pongsPending = 3 ∧ e1.IsClosed = true :=
  ⟨rfl, by decide,
    (heartbeat_three_pings (newListener "l1" ["lifecycle"] true) true 7 rfl (by decide)).2⟩

/-- C4: liveness timeout.  From an open listener with `pongsPending = 0`, when every
ping is sent successfully and no pong arrives, the heartbeat loop returns after
exactly four iterations whatever fuel of at least four it is given, and the
listener is closed on return: the loop itself has closed the connection once and
called the cancel function once. -/
theorem heartbeatLoop_liveness_timeout (e : listenerCommon) (closeErr : Bool) (fuel : Nat)
    (h : e.IsClosed = false) (h0 : e.pongsPending = 0) (hf : 4 ≤ fuel) :
    ∃ e1, heartbeatLoop (fun _ => true) closeErr fuel 0 e = some (e1, 4) ∧
      e1.IsClosed = true ∧
      e1.connCloseCalls = e.connCloseCalls + 1 ∧
      e1.cancelCalls = e.cancelCalls + 1 := by
  obtain ⟨k, rfl⟩ : ∃ k, fuel = k + 4 := ⟨fuel - 4, by omega⟩
  refine ⟨_, heartbeatLoop_no_pong e closeErr k h h0, isClosed_Close _ _, ?_, ?_⟩
  · rw [(connCloseCalls_Close_of_open _ closeErr (by exact h)).1]; rfl
  · rw [(connCloseCalls_Close_of_open _ closeErr (by exact h)).2]; rfl

theorem heartbeatLoop_liveness_timeout_witness :
    (newListener "l1" [] false).IsClosed = false ∧
    (newListener "l1" [] false).pongsPending = 0 ∧ 4 ≤ 4 ∧
    ∃ e1, heartbeatLoop (fun _ => true) false 4 0 (newListener "l1" [] false) = some (e1, 4) ∧
      e1.IsClosed = true ∧
      e1.connCloseCalls = (newListener "l1" [] false).connCloseCalls + 1 ∧
      e1.cancelCalls = (newListener "l1" [] false).cancelCalls + 1 :=
  ⟨rfl, rfl, by decide,
    heartbeatLoop_liveness_timeout (newListener "l1" [] false) false 4 rfl rfl (by decide)⟩

/-! ## Pong handler and ping outcome -/

/-- C5: pong reset.  The pong handler sets `pongsPending` to 0 whatever it was,
returns no error and leaves every other field, the closed state among them, as it
was.  So on an open listener, whatever the count before the pong, the next
heartbeat iteration hands a ping to the connection instead of timing out, and
when that ping is sent successfully the loop goes on with a count of 1. -/
theorem pongHandler_resets (e : listenerCommon) (msg : String) (sendOk closeErr : Bool) :
    (e.pongHandler msg).1.pongsPending = 0 ∧
    (e.pongHandler msg).2 = none ∧
    (e.pongHandler msg).1 = { e with pongsPending := 0 } ∧
    (e.pongHandler msg).1.IsClosed = e.IsClosed ∧
    (e.IsClosed = false →
      ((e.pongHandler msg).1.heartbeatIter sendOk closeErr).1.written =
        e.written ++ [(Frame.ping "keepalive", sendOk)] ∧
      (e.pongHandler msg).1.heartbeatIter true closeErr =
        ({ e with pongsPending := 1, written := e.written ++ [(Frame.ping "keepalive", true)] },
          Ctl.next)) := by
  refine ⟨rfl, rfl, rfl, rfl, ?_⟩
  intro h
  have hc : (e.pongHandler msg).1.IsClosed = false := h
  have hp : (e.pongHandler msg).1.pongsPending ≤ 2 := by simp [pongHandler, resetPongs]
  constructor
  · cases sendOk
    · rw [heartbeatIter_of_sendFail _ closeErr hc hp, written_Close]
      rfl
    · rw [heartbeatIter_of_sendOk _ closeErr hc hp]
      rfl
  · rw [heartbeatIter_of_sendOk _ closeErr hc hp]
    simp [pongHandler, resetPongs, connWrite, incrPongs, uintSize]

/-- C6: in a heartbeat iteration that attempts a ping (listener open, count at most
2): when the send fails the listener is closed, the loop returns and
`pongsPending` keeps its value; when the send succeeds `pongsPending` goes up by
exactly 1, the listener stays open and the loop goes on. -/
theorem heartbeatIter_ping_outcome (e : listenerCommon) (closeErr : Bool)
    (h : e.IsClosed = false) (hp : e.pongsPending ≤ 2) :
    ((e.heartbeatIter false closeErr).1.IsClosed = true ∧
      (e.heartbeatIter false closeErr).2 = Ctl.ret ∧
      (e.heartbeatIter false closeErr).1.pongsPending = e.pongsPending) ∧
    ((e.heartbeatIter true closeErr).1.pongsPending = e.pongsPending + 1 ∧
      (e.heartbeatIter true closeErr).1.IsClosed = false ∧
      (e.heartbeatIter true closeErr).2 = Ctl.next) := by
  rw [heartbeatIter_of_sendFail e closeErr h hp, heartbeatIter_of_sendOk e closeErr h hp]
  refine ⟨⟨isClosed_Close _ _, rfl, ?_⟩, ?_, h, rfl⟩
  · rw [pongsPending_Close]; rfl
  · exact incr_small e.pongsPending hp

theorem heartbeatIter_ping_outcome_witness :
    ({ newListener "l1" [] false with pongsPending := 2 } : listenerCommon).IsClosed = false ∧
    ({ newListener "l1" [] false with pongsPending := 2 } : listenerCommon).pongsPending ≤ 2 ∧
    (({ newListener "l1" [] false with pongsPending := 2 } : listenerCommon).heartbeatIter
      true false).1.pongsPending = 2 + 1 :=
  ⟨rfl, by decide,
    (heartbeatIter_ping_outcome { newListener "l1" [] false with pongsPending := 2 } false rfl
      (by decide)).2.1⟩

/-! ## Closed is terminal -/

theorem isClosed_applyOp (e : listenerCommon) (op : Op) (h : e.IsClosed = true) :
    (applyOp e op).IsClosed = true := by
  cases op with
  | close closeErr => exact isClosed_Close e closeErr
  | pong msg => exact h
  | heartbeatIter sendOk closeErr =>
    simp only [applyOp, heartbeatIter_of_closed e sendOk closeErr h]; exact h
  | readerStep r closeErr =>
    simp only [applyOp, reader]
    cases hr : e.recvFunc
    · simp only [Bool.false_eq_true, if_false]; exact isClosed_Close _ _
    · cases r with
      | none => simp only [if_true, readerLoop]; exact isClosed_Close _ _
      | some ev => simp only [if_true, readerLoop]; exact h
  | writeJSON v ok => exact h
  | wait ctxDone => simp [applyOp, Wait, h]
  | id => exact h
  | isClosed => exact h

/-- C7: closed is terminal.  Once `IsClosed()` is true, it is true after every
sequence of listener operations: `Close`, the pong handler, heartbeat iterations,
reader steps, `WriteJSON`, `Wait`, `ID` and `IsClosed`. -/
theorem closed_is_terminal (e : listenerCommon) (ops : List Op) (h : e.IsClosed = true) :
    (applyOps e ops).IsClosed = true := by
  induction ops generalizing e with
  | nil => exact h
  | cons op rest ih => exact ih (applyOp e op) (isClosed_applyOp e op h)

theorem closed_is_terminal_witness :
    ((newListener "l1" [] true).Close false).IsClosed = true ∧
    (applyOps ((newListener "l1" [] true).Close false)
      [Op.pong "", Op.heartbeatIter true false, Op.readerStep (some ⟨"lifecycle", 0, ""⟩) false,
        Op.writeJSON ⟨"lifecycle", 0, ""⟩ true, Op.wait false, Op.close true]).IsClosed = true :=
  ⟨rfl, closed_is_terminal _ _ rfl⟩

/-! ## Reader loop -/

theorem readerLoop_until_error (msgs : List Event) (rest : List (Option Event))
    (e : listenerCommon) :
    readerLoop e (msgs.map some ++ none :: rest) =
      ({ e with reads := e.reads + msgs.length + 1, handled := e.handled ++ msgs }, true) := by
  induction msgs generalizing e with
  | nil => simp [readerLoop]
  | cons m ms ih =>
    show readerLoop { e with reads := e.reads + 1, handled := e.handled ++ [m] }
      (ms.map some ++ none :: rest) = _
    rw [ih]
    simp [Nat.add_assoc, Nat.add_comm 1]

theorem readerLoop_no_error (msgs : List Event) (e : listenerCommon) :
    readerLoop e (msgs.map some) =
      ({ e with reads := e.reads + msgs.length, handled := e.handled ++ msgs }, false) := by
  induction msgs generalizing e with
  | nil => simp [readerLoop]
  | cons m ms ih =>
    show readerLoop { e with reads := e.reads + 1, handled := e.handled ++ [m] }
      (ms.map some) = _
    rw [ih]
    simp [Nat.add_assoc, Nat.add_comm 1]

/-- Every sequence of read results is a run of messages, either followed by a first
error and whatever comes after it, or with no error at all. -/
theorem reads_shape (input : List (Option Event)) :
    (∃ msgs : List Event, input = msgs.map some) ∨
    (∃ (msgs : List Event) (rest : List (Option Event)), input = msgs.map some ++ none :: rest) := by
  induction input with
  | nil => exact Or.inl ⟨[], rfl⟩
  | cons r rs ih =>
    cases r with
    | none => exact Or.inr ⟨[], rs, rfl⟩
    | some ev =>
      rcases ih with ⟨msgs, hm⟩ | ⟨msgs, rest, hm⟩
      · exact Or.inl ⟨ev :: msgs, by rw [hm]; rfl⟩
      · exact Or.inr ⟨ev :: msgs, rest, by rw [hm]; rfl⟩

/-- C8: reader loop.  With a handler set, when the reads deliver the messages
`msgs` and then an error, the handler is called on exactly the messages of `msgs`,
in order, one read is made per message plus the failing one, nothing after the
error is read or handled, the loop returns and the listener is closed; as long as
no read has failed the loop is still running, having handled every message read.
Without a handler exactly one read is made, the handler is not called, and the
listener is closed afterwards whatever that read returned. -/
theorem reader_handles_until_error (e : listenerCommon) (msgs : List Event)
    (rest : List (Option Event)) (r : Option Event) (closeErr : Bool) :
    (e.recvFunc = true →
      ((e.reader (msgs.map some ++ none :: rest) closeErr).2 = true ∧
        (e.reader (msgs.map some ++ none :: rest) closeErr).1.handled = e.handled ++ msgs ∧
        (e.reader (msgs.map some ++ none :: rest) closeErr).1.reads = e.reads + msgs.length + 1 ∧
        (e.reader (msgs.map some ++ none :: rest) closeErr).1.IsClosed = true) ∧
      ((e.reader (msgs.map some) closeErr).2 = false ∧
        (e.reader (msgs.map some) closeErr).1.handled = e.handled ++ msgs ∧
        (e.reader (msgs.map some) closeErr).1.reads = e.reads + msgs.length ∧
        (e.reader (msgs.map some) closeErr).1.IsClosed = e.IsClosed)) ∧
    (e.recvFunc = false →
      (e.reader (r :: rest) closeErr).2 = true ∧
      (e.reader (r :: rest) closeErr).1.handled = e.handled ∧
      (e.reader (r :: rest) closeErr).1.reads = e.reads + 1 ∧
      (e.reader (r :: rest) closeErr).1.IsClosed = true) := by
  have hh : ∀ (x : listenerCommon) (c : Bool), (x.Close c).handled = x.handled := by
    intro x c
    cases c <;> unfold Close <;> split <;> simp [ctxCancel, connClose, logLine]
  have hr : ∀ (x : listenerCommon) (c : Bool), (x.Close c).reads = x.reads := by
    intro x c
    cases c <;> unfold Close <;> split <;> simp [ctxCancel, connClose, logLine]
  constructor
  · intro h
    have h1 : e.reader (msgs.map some ++ none :: rest) closeErr =
        (Close { e with reads := e.reads + msgs.length + 1, handled := e.handled ++ msgs } closeErr,
          true) := by
      simp only [reader, h, if_true, readerLoop_until_error]
    have h2 : e.reader (msgs.map some) closeErr =
        ({ e with reads := e.reads + msgs.length, handled := e.handled ++ msgs }, false) := by
      simp only [reader, h, if_true, readerLoop_no_error]
    rw [h1, h2]
    exact ⟨⟨rfl, by rw [hh], by rw [hr], isClosed_Close _ _⟩, rfl, rfl, rfl, rfl⟩
  · intro h
    have h1 : e.reader (r :: rest) closeErr =
        (Close { e with reads := e.reads + 1 } closeErr, true) := by
      simp only [reader, h, Bool.false_eq_true, if_false]
    rw [h1]
    exact ⟨rfl, by rw [hh], by rw [hr], isClosed_Close _ _⟩

/-! ## Threads and the mutex: facts kept by every step -/

theorem Inv_init (e : listenerCommon) : (Sys.init e).Inv := by
  refine ⟨?_, rfl, ?_, ?_, ?_, ?_⟩
  · intro t
    simp only [Sys.init]
    split
    · simp [Pc.locked]
    · split <;> simp [Pc.locked]
  · intro t
    simp only [Sys.init]
    split
    · intro _; assumption
    · split <;> simp [Pc.beforeGo]
  · simp [Sys.init]
  · intro t
    simp only [Sys.init]
    split
    · simp [Pc.inReader]
    · split <;> simp [Pc.inReader]
  · intro t
    simp only [Sys.init]
    split
    · simp [Pc.readerOnly, Pc.inReader]
    · split
      · intro _; assumption
      · simp [Pc.readerOnly, Pc.inReader]

/-- Invariance under a change of the lock, of the counter and of one program
counter, given how the classes of the old and new program points compare. -/
theorem Inv_update (s : Sys) (t : Nat) (pc : Pc) (l1 : listenerCommon) (lock1 : Option Nat)
    (n1 : Nat) (h : s.Inv)
    (hlock : pc.locked = true → lock1 = some t)
    (hother : ∀ u, u ≠ t → (s.pcs u).locked = true → lock1 = some u)
    (hn : n1 = writesOfHolder lock1 (Function.update s.pcs t pc) +
      repliesOfReader (Function.update s.pcs t pc))
    (hb : pc.beforeGo = true → (s.pcs t).beforeGo = true)
    (hr : pc.inReader = true → (s.pcs t).inReader = true ∨ s.readerStarted = true)
    (hro : pc.readerOnly = true → (s.pcs t).readerOnly = true) :
    Sys.Inv { s with l := l1, lock := lock1, inFlight := n1, pcs := Function.update s.pcs t pc } := by
  obtain ⟨hA, hB, hE, hG, hH, hR⟩ := h
  refine ⟨?_, hn, ?_, ?_, ?_, ?_⟩
  · intro u hu
    by_cases hut : u = t
    · subst hut
      simp only [Function.update_same] at hu
      exact hlock hu
    · simp only [Function.update_noteq hut] at hu
      exact hother u hut hu
  · intro u hu
    by_cases hut : u = t
    · subst hut
      simp only [Function.update_same] at hu
      exact hE u (hb hu)
    · simp only [Function.update_noteq hut] at hu
      exact hE u hu
  · intro hs
    have h0 := hG hs
    by_cases hut : (0 : Nat) = t
    · subst hut
      simp only [Function.update_same]
      cases hp : pc.beforeGo
      · rfl
      · rw [hb hp] at h0; exact absurd h0 (by simp)
    · simp only [Function.update_noteq hut]
      exact h0
  · intro u hu
    by_cases hut : u = t
    · subst hut
      simp only [Function.update_same] at hu
      rcases hr hu with h1 | h1
      · exact hH u h1
      · exact h1
    · simp only [Function.update_noteq hut] at hu
      exact hH u hu
  · intro u hu
    by_cases hut : u = t
    · subst hut
      simp only [Function.update_same] at hu
      exact hR u (hro hu)
    · simp only [Function.update_noteq hut] at hu
      exact hR u hu

theorem writesOfHolder_update (lock : Option Nat) (pcs : Nat → Pc) (t : Nat) (pc : Pc)
    (hw : pc.writing = (pcs t).writing) :
    writesOfHolder lock (Function.update pcs t pc) = writesOfHolder lock pcs := by
  cases lock with
  | none => rfl
  | some u =>
    by_cases hut : u = t
    · subst hut; simp only [writesOfHolder, Function.update_same, hw]
    · simp only [writesOfHolder, Function.update_noteq hut]

theorem repliesOfReader_update (pcs : Nat → Pc) (t : Nat) (pc : Pc)
    (hp : pc.replying = (pcs t).replying) :
    repliesOfReader (Function.update pcs t pc) = repliesOfReader pcs := by
  by_cases hut : (1 : Nat) = t
  · subst hut; simp only [repliesOfReader, Function.update_same, hp]
  · simp only [repliesOfReader, Function.update_noteq hut]

/-- A step that keeps the lock and the counter; the listener fields play no part
in the invariant, so this covers the steps that act on them as well. -/
theorem Inv_goto (s : Sys) (t : Nat) (pc : Pc) (h : s.Inv)
    (hl : pc.locked = (s.pcs t).locked) (hw : pc.writing = (s.pcs t).writing)
    (hp : pc.replying = (s.pcs t).replying)
    (hb : pc.beforeGo = true → (s.pcs t).beforeGo = true)
    (hr : pc.inReader = true → (s.pcs t).inReader = true ∨ s.readerStarted = true)
    (hro : pc.readerOnly = true → (s.pcs t).readerOnly = true) :
    (s.goto t pc).Inv := by
  refine Inv_update s t pc s.l s.lock s.inFlight h (fun hq => h.1 t (hl ▸ hq))
    (fun u _ hu => h.1 u hu) ?_ hb hr hro
  rw [writesOfHolder_update _ _ _ _ hw, repliesOfReader_update _ _ _ hp]
  exact h.2.1

theorem Inv_acquire (s : Sys) (t : Nat) (pc : Pc) (h : s.Inv)
    (hw : pc.writing = false) (hp : pc.replying = (s.pcs t).replying)
    (hb : pc.beforeGo = true → (s.pcs t).beforeGo = true)
    (hr : pc.inReader = true → (s.pcs t).inReader = true ∨ s.readerStarted = true)
    (hro : pc.readerOnly = true → (s.pcs t).readerOnly = true) :
    (s.acquire t pc).Inv := by
  unfold Sys.acquire
  cases hlk : s.lock with
  | some u => exact h
  | none =>
    have hn : s.inFlight = repliesOfReader s.pcs := by rw [h.2.1, hlk]; simp [writesOfHolder]
    have hfree : ∀ u, (s.pcs u).locked = true → False := by
      intro u hu
      have := h.1 u hu
      rw [hlk] at this
      exact Option.noConfusion this
    have := Inv_update s t pc s.l (some t) s.inFlight h (fun _ => rfl)
      (fun u _ hu => (hfree u hu).elim)
      (by rw [hn, repliesOfReader_update _ _ _ hp]; simp [writesOfHolder, hw]) hb hr hro
    exact this

theorem Inv_release (s : Sys) (t : Nat) (pc : Pc) (h : s.Inv)
    (hl0 : (s.pcs t).locked = true) (hw0 : (s.pcs t).writing = false)
    (hl : pc.locked = false) (hp : pc.replying = (s.pcs t).replying)
    (hb : pc.beforeGo = true → (s.pcs t).beforeGo = true)
    (hr : pc.inReader = true → (s.pcs t).inReader = true ∨ s.readerStarted = true)
    (hro : pc.readerOnly = true → (s.pcs t).readerOnly = true) :
    (s.release t pc).Inv := by
  have hlk := h.1 t hl0
  have hn : s.inFlight = repliesOfReader s.pcs := by
    rw [h.2.1, hlk]; simp [writesOfHolder, hw0]
  have := Inv_update s t pc s.l none s.inFlight h
      (fun hq => by rw [hl] at hq; exact absurd hq (by simp))
      (fun u hut hu => by
        have := h.1 u hu
        rw [hlk] at this
        exact absurd (Option.some.inj this).symm hut)
      (by rw [hn, repliesOfReader_update _ _ _ hp]; simp [writesOfHolder]) hb hr hro
  exact this

theorem Inv_writeBegin (s : Sys) (t : Nat) (pc : Pc) (h : s.Inv)
    (hl0 : (s.pcs t).locked = true) (hw0 : (s.pcs t).writing = false)
    (hw : pc.writing = true) (hp : pc.replying = (s.pcs t).replying)
    (hb : pc.beforeGo = true → (s.pcs t).beforeGo = true)
    (hr : pc.inReader = true → (s.pcs t).inReader = true ∨ s.readerStarted = true)
    (hro : pc.readerOnly = true → (s.pcs t).readerOnly = true) :
    (s.writeBegin t pc).Inv := by
  have hlk := h.1 t hl0
  have hn : s.inFlight = repliesOfReader s.pcs := by
    rw [h.2.1, hlk]; simp [writesOfHolder, hw0]
  have := Inv_update s t pc s.l s.lock (s.inFlight + 1) h (fun _ => hlk)
      (fun u _ hu => h.1 u hu)
      (by rw [hn, hlk, repliesOfReader_update _ _ _ hp]; simp [writesOfHolder, hw]; omega)
      hb hr hro
  exact this

theorem Inv_writeEnd (s : Sys) (t : Nat) (f : Frame) (ok : Bool) (pc : Pc) (h : s.Inv)
    (hl0 : (s.pcs t).locked = true) (hw0 : (s.pcs t).writing = true)
    (hw : pc.writing = false) (hp : pc.replying = (s.pcs t).replying)
    (hb : pc.beforeGo = true → (s.pcs t).beforeGo = true)
    (hr : pc.inReader = true → (s.pcs t).inReader = true ∨ s.readerStarted = true)
    (hro : pc.readerOnly = true → (s.pcs t).readerOnly = true) :
    (s.writeEnd t f ok pc).Inv := by
  have hlk := h.1 t hl0
  have hn : s.inFlight = 1 + repliesOfReader s.pcs := by
    rw [h.2.1, hlk]; simp [writesOfHolder, hw0]
  have := Inv_update s t pc (s.l.connWrite f ok) s.lock (s.inFlight - 1) h (fun _ => hlk)
      (fun u _ hu => h.1 u hu)
      (by rw [hn, hlk, repliesOfReader_update _ _ _ hp]; simp [writesOfHolder, hw])
      hb hr hro
  exact this

/-- The connection starts to write its answer to a control frame, inside a read of
the reader, without the mutex. -/
theorem Inv_replyBegin (s : Sys) (t : Nat) (pc : Pc) (h : s.Inv)
    (hro0 : (s.pcs t).readerOnly = true) (hin : (s.pcs t).inReader = true)
    (hl0 : (s.pcs t).locked = false) (hw0 : (s.pcs t).writing = false)
    (hp0 : (s.pcs t).replying = false)
    (hl : pc.locked = false) (hw : pc.writing = false) (hp : pc.replying = true)
    (hb : pc.beforeGo = false) :
    (s.writeBegin t pc).Inv := by
  have ht : t = 1 := h.2.2.2.2.2 t hro0
  subst ht
  have hR0 : repliesOfReader s.pcs = 0 := by simp [repliesOfReader, hp0]
  have := Inv_update s 1 pc s.l s.lock (s.inFlight + 1) h
      (fun hq => by rw [hl] at hq; exact absurd hq (by simp))
      (fun u _ hu => h.1 u hu)
      (by
        rw [h.2.1, hR0, writesOfHolder_update _ _ _ _ (by rw [hw, hw0])]
        simp [repliesOfReader, hp])
      (fun hq => by rw [hb] at hq; exact absurd hq (by simp))
      (fun _ => Or.inl hin) (fun _ => hro0)
  exact this

/-- The write of the answer returns. -/
theorem Inv_replyEnd (s : Sys) (t : Nat) (f : Frame) (ok : Bool) (pc : Pc) (h : s.Inv)
    (hro0 : (s.pcs t).readerOnly = true) (hin : (s.pcs t).inReader = true)
    (hl0 : (s.pcs t).locked = false) (hw0 : (s.pcs t).writing = false)
    (hp0 : (s.pcs t).replying = true)
    (hl : pc.locked = false) (hw : pc.writing = false) (hp : pc.replying = false)
    (hb : pc.beforeGo = false) :
    (s.writeEnd t f ok pc).Inv := by
  have ht : t = 1 := h.2.2.2.2.2 t hro0
  subst ht
  have hR0 : repliesOfReader s.pcs = 1 := by simp [repliesOfReader, hp0]
  have := Inv_update s 1 pc (s.l.connWrite f ok) s.lock (s.inFlight - 1) h
      (fun hq => by rw [hl] at hq; exact absurd hq (by simp))
      (fun u _ hu => h.1 u hu)
      (by
        rw [h.2.1, hR0, writesOfHolder_update _ _ _ _ (by rw [hw, hw0])]
        simp [repliesOfReader, hp])
      (fun hq => by rw [hb] at hq; exact absurd hq (by simp))
      (fun _ => Or.inl hin) (fun _ => hro0)
  exact this

theorem Inv_go (s : Sys) (t : Nat) (h : s.Inv) (hpc : s.pcs t = Pc.hbGo) :
    Sys.Inv { s with readerStarted := true, pcs := Function.update s.pcs t Pc.hbIsClosed } := by
  have ht : t = 0 := h.2.2.1 t (by rw [hpc]; rfl)
  have hg := Inv_goto s t Pc.hbIsClosed h (by rw [hpc]; rfl) (by rw [hpc]; rfl)
    (by rw [hpc]; rfl)
    (fun hq => absurd hq (by decide)) (fun hq => absurd hq (by decide))
    (fun hq => absurd hq (by decide))
  obtain ⟨hA, hB, hE, _, _, hR⟩ := hg
  refine ⟨hA, hB, hE, ?_, fun _ _ => rfl, hR⟩
  intro _
  subst ht
  simp only [Function.update_same]
  rfl

set_option linter.unusedTactic false in
theorem Inv_step (s : Sys) (c : Choice) (h : s.Inv) : (s.step c).Inv := by
  unfold Sys.step
  cases hpc : s.pcs c.tid <;> simp only []
  all_goals try split
  all_goals try split
  all_goals first
    | exact h
    | exact Inv_go s c.tid h hpc
    | ((apply Inv_goto s c.tid _ h <;>
        simp_all [Pc.locked, Pc.writing, Pc.replying, Pc.beforeGo, Pc.inReader, Pc.readerOnly]); done)
    | ((apply Inv_acquire s c.tid _ h <;>
        simp_all [Pc.locked, Pc.writing, Pc.replying, Pc.beforeGo, Pc.inReader, Pc.readerOnly]); done)
    | ((apply Inv_release s c.tid _ h <;>
        simp_all [Pc.locked, Pc.writing, Pc.replying, Pc.beforeGo, Pc.inReader, Pc.readerOnly]); done)
    | ((apply Inv_writeBegin s c.tid _ h <;>
        simp_all [Pc.locked, Pc.writing, Pc.replying, Pc.beforeGo, Pc.inReader, Pc.readerOnly]); done)
    | ((apply Inv_writeEnd s c.tid _ _ _ h <;>
        simp_all [Pc.locked, Pc.writing, Pc.replying, Pc.beforeGo, Pc.inReader, Pc.readerOnly]); done)
    | ((apply Inv_replyBegin s c.tid _ h <;>
        simp_all [Pc.locked, Pc.writing, Pc.replying, Pc.beforeGo, Pc.inReader, Pc.readerOnly]); done)
    | ((apply Inv_replyEnd s c.tid _ _ _ h <;>
        simp_all [Pc.locked, Pc.writing, Pc.replying, Pc.beforeGo, Pc.inReader, Pc.readerOnly]); done)

theorem Inv_run (sched : List Choice) (s : Sys) (h : s.Inv) : (s.run sched).Inv := by
  induction sched generalizing s with
  | nil => exact h
  | cons c cs ih => exact ih (s.step c) (Inv_step s c h)

theorem step_pongsPending (s : Sys) (c : Choice) (h : (s.pcs c.tid).assignsPongs = false) :
    (s.step c).l.pongsPending = s.l.pongsPending := by
  unfold Sys.step
  cases hpc : s.pcs c.tid <;> simp only []
  all_goals try split
  all_goals try split
  all_goals simp_all [Sys.exec, Sys.goto, Sys.acquire, Sys.release, Sys.writeBegin, Sys.writeEnd,
    Pc.assignsPongs, logLine, ctxCancel, connClose, connWrite]
  all_goals try split
  all_goals simp

/-! ## The holder of the mutex and the installation of the pong handler -/

/-- A step that changes one program counter and possibly the lock keeps the holder
between `Lock()` and `Unlock()`. -/
theorem Held_update (s : Sys) (t : Nat) (pc : Pc) (l1 : listenerCommon) (lock1 : Option Nat)
    (n1 : Nat) (r1 : Bool) (h : s.Held)
    (hself : lock1 = some t → pc.locked = true)
    (hother : ∀ u, u ≠ t → lock1 = some u → s.lock = some u) :
    Sys.Held { l := l1, lock := lock1, inFlight := n1, readerStarted := r1,
               pcs := Function.update s.pcs t pc } := by
  intro u hu
  by_cases hut : u = t
  · subst hut
    simp only [Function.update_same]
    exact hself hu
  · simp only [Function.update_noteq hut]
    exact h u (hother u hut hu)

theorem Held_keep (s : Sys) (t : Nat) (pc : Pc) (l1 : listenerCommon) (n1 : Nat) (r1 : Bool)
    (h : s.Held) (hl : (s.pcs t).locked = true → pc.locked = true) :
    Sys.Held { l := l1, lock := s.lock, inFlight := n1, readerStarted := r1,
               pcs := Function.update s.pcs t pc } :=
  Held_update s t pc l1 s.lock n1 r1 h (fun hq => hl (h t hq)) (fun _ _ hu => hu)

theorem Held_acquire (s : Sys) (t : Nat) (pc : Pc) (h : s.Held) (hl : pc.locked = true) :
    (s.acquire t pc).Held := by
  unfold Sys.acquire
  cases hlk : s.lock with
  | some u => exact h
  | none =>
    refine Held_update s t pc s.l (some t) s.inFlight s.readerStarted h (fun _ => hl) ?_
    intro u hut hu
    exact absurd (Option.some.inj hu).symm hut

theorem Held_release (s : Sys) (t : Nat) (pc : Pc) (h : s.Held) :
    (s.release t pc).Held :=
  Held_update s t pc s.l none s.inFlight s.readerStarted h
    (fun hq => Option.noConfusion hq) (fun _ _ hu => Option.noConfusion hu)

theorem Held_init (e : listenerCommon) : (Sys.init e).Held := by
  intro t ht
  exact Option.noConfusion ht

set_option linter.unusedTactic false in
set_option linter.unreachableTactic false in
theorem Held_step (s : Sys) (c : Choice) (h : s.Held) : (s.step c).Held := by
  unfold Sys.step
  cases hpc : s.pcs c.tid <;> simp only []
  all_goals try split
  all_goals try split
  all_goals first
    | exact h
    | ((apply Held_keep s c.tid _ _ _ _ h <;> simp_all [Pc.locked]); done)
    | ((apply Held_acquire s c.tid _ h <;> simp_all [Pc.locked]); done)
    | ((apply Held_release s c.tid _ h <;> simp_all [Pc.locked]); done)

theorem Held_run (sched : List Choice) (s : Sys) (h : s.Held) : (s.run sched).Held := by
  induction sched generalizing s with
  | nil => exact h
  | cons c cs ih => exact ih (s.step c) (Held_step s c h)

/-- A step that changes one program counter keeps the pong handler uninstalled
while thread 0 is before the end of `SetPongHandler`. -/
theorem Unset_update (s : Sys) (t : Nat) (pc : Pc) (l1 : listenerCommon) (lock1 : Option Nat)
    (n1 : Nat) (r1 : Bool) (h : s.Unset)
    (hset : pc.beforeSet = true → (s.pcs t).beforeSet = true)
    (hph : l1.pongHandlerSet = s.l.pongHandlerSet ∨ (t = 0 ∧ pc.beforeSet = false)) :
    Sys.Unset { l := l1, lock := lock1, inFlight := n1, readerStarted := r1,
                pcs := Function.update s.pcs t pc } := by
  intro hq
  show l1.pongHandlerSet = false
  by_cases hut : (0 : Nat) = t
  · subst hut
    simp only [Function.update_same] at hq
    rcases hph with h1 | h1
    · rw [h1]; exact h (hset hq)
    · rw [h1.2] at hq; exact absurd hq (by simp)
  · simp only [Function.update_noteq hut] at hq
    rcases hph with h1 | h1
    · rw [h1]; exact h hq
    · exact absurd h1.1.symm hut

theorem Unset_acquire (s : Sys) (t : Nat) (pc : Pc) (h : s.Unset)
    (hset : pc.beforeSet = true → (s.pcs t).beforeSet = true) :
    (s.acquire t pc).Unset := by
  unfold Sys.acquire
  cases hlk : s.lock with
  | some u => exact h
  | none => exact Unset_update s t pc s.l (some t) s.inFlight s.readerStarted h hset (Or.inl rfl)

theorem Unset_init (e : listenerCommon) (h : e.pongHandlerSet = false) : (Sys.init e).Unset :=
  fun _ => h

set_option linter.unusedTactic false in
set_option linter.unnecessarySeqFocus false in
theorem Unset_step (s : Sys) (c : Choice) (hI : s.Inv) (h : s.Unset) : (s.step c).Unset := by
  have h0 : (s.pcs c.tid).beforeGo = true → c.tid = 0 := hI.2.2.1 c.tid
  unfold Sys.step
  cases hpc : s.pcs c.tid <;> simp only []
  all_goals try split
  all_goals try split
  all_goals first
    | exact h
    | ((apply Unset_update s c.tid _ _ _ _ _ h <;>
        simp_all [Pc.beforeSet, Pc.beforeGo, logLine, resetPongs, incrPongs, ctxCancel,
          connClose, connWrite]); done)
    | ((apply Unset_update s c.tid _ _ _ _ _ h <;>
        simp_all [Pc.beforeSet, Pc.beforeGo, logLine, resetPongs, incrPongs, ctxCancel,
          connClose, connWrite] <;> split <;> simp); done)
    | ((apply Unset_acquire s c.tid _ h <;> simp_all [Pc.beforeSet]); done)

theorem Unset_run (sched : List Choice) (s : Sys) (hI : s.Inv) (h : s.Unset) :
    (s.run sched).Unset := by
  induction sched generalizing s with
  | nil => exact h
  | cons c cs ih => exact ih (s.step c) (Inv_step s c hI) (Unset_step s c hI h)

theorem step_pcs_other (s : Sys) (c : Choice) (t : Nat) (h : t ≠ c.tid) :
    (s.step c).pcs t = s.pcs t := by
  unfold Sys.step
  cases hpc : s.pcs c.tid <;> simp only []
  all_goals try split
  all_goals try split
  all_goals simp [Sys.goto, Sys.exec, Sys.acquire, Sys.release, Sys.writeBegin, Sys.writeEnd,
    Function.update_noteq h]
  all_goals try split
  all_goals simp [Function.update_noteq h]

/-! ## Write serialization -/

/-- A write in flight is reached: the heartbeat started on a fresh listener is
inside its first `WriteControl` after eight of its own steps, holding the mutex. -/
theorem write_in_flight_reachable :
    ((Sys.init (newListener "l1" [] false)).run
      (List.replicate 8 ⟨0, true, ReadOutcome.err, Call.close, true⟩)).inFlight = 1 ∧
    ((Sys.init (newListener "l1" [] false)).run
      (List.replicate 8 ⟨0, true, ReadOutcome.err, Call.close, true⟩)).lock = some 0 := by
  decide

/-! ## Assignments to `pongsPending` and the mutex -/

/-- C10, as stated, fails: after the first statement of `heartbeat` on a listener
whose count is 7, the thread is about to assign `pongsPending` while no thread
holds the mutex, and its next step does assign it (to 0) with the mutex free. -/
theorem pongsPending_mutex_counterexample :
    ((Sys.init { newListener "l1" [] false with pongsPending := 7 }).run
      [⟨0, true, ReadOutcome.err, Call.close, true⟩]).lock = none ∧
    ((Sys.init { newListener "l1" [] false with pongsPending := 7 }).run
      [⟨0, true, ReadOutcome.err, Call.close, true⟩]).l.pongsPending = 7 ∧
    ((Sys.init { newListener "l1" [] false with pongsPending := 7 }).run
      [⟨0, true, ReadOutcome.err, Call.close, true⟩,
        ⟨0, true, ReadOutcome.err, Call.close, true⟩]).l.pongsPending = 0 ∧
    ((Sys.init { newListener "l1" [] false with pongsPending := 7 }).run
      [⟨0, true, ReadOutcome.err, Call.close, true⟩,
        ⟨0, true, ReadOutcome.err, Call.close, true⟩]).lock = none ∧
    ¬ (∀ t, (((Sys.init { newListener "l1" [] false with pongsPending := 7 }).run
        [⟨0, true, ReadOutcome.err, Call.close, true⟩]).pcs t).assignsPongs = true →
      ((Sys.init { newListener "l1" [] false with pongsPending := 7 }).run
        [⟨0, true, ReadOutcome.err, Call.close, true⟩]).lock = some t) := by
  refine ⟨by decide, by decide, by decide, by decide, ?_⟩
  intro hall
  have h := hall 0 (by decide)
  revert h
  decide

/-- C10, amended: on a listener on which no pong handler is installed yet, in every
state reached under any schedule, a step of a thread that is not at one of the
three assignments leaves `pongsPending` as it is; the thread that is at the reset
of the pong handler or at the increment after a successful ping holds the
listener mutex; and the thread at the reset at the start of `heartbeat` is the
heartbeat thread, it does not hold the mutex, the pong handler is not installed,
the reader goroutine is not started and no thread runs the reader or the pong
handler, and its step sets the count to 0 and leaves the mutex as it is. -/
theorem pongsPending_mutex (e : listenerCommon) (sched : List Choice) (t : Nat) (c : Choice)
    (hset : e.pongHandlerSet = false) :
    ((((Sys.init e).run sched).pcs c.tid).assignsPongs = false →
      (((Sys.init e).run sched).step c).l.pongsPending =
        ((Sys.init e).run sched).l.pongsPending) ∧
    (∀ k, ((Sys.init e).run sched).pcs t = Pc.pongReset k →
      ((Sys.init e).run sched).lock = some t) ∧
    (((Sys.init e).run sched).pcs t = Pc.hbIncr → ((Sys.init e).run sched).lock = some t) ∧
    (((Sys.init e).run sched).pcs t = Pc.hbReset →
      t = 0 ∧ ((Sys.init e).run sched).lock ≠ some t ∧
      ((Sys.init e).run sched).l.pongHandlerSet = false ∧
      ((Sys.init e).run sched).readerStarted = false ∧
      (∀ u, (((Sys.init e).run sched).pcs u).inReader = false) ∧
      (c.tid = t →
        (((Sys.init e).run sched).step c).l.pongsPending = 0 ∧
        (((Sys.init e).run sched).step c).lock = ((Sys.init e).run sched).lock ∧
        (((Sys.init e).run sched).step c).l.pongHandlerSet = false ∧
        (((Sys.init e).run sched).step c).pcs t = Pc.hbSetPong)) := by
  have h := Inv_run sched (Sys.init e) (Inv_init e)
  have hH := Held_run sched (Sys.init e) (Held_init e)
  have hU := Unset_run sched (Sys.init e) (Inv_init e) (Unset_init e hset)
  refine ⟨step_pongsPending _ c, ?_, ?_, ?_⟩
  · intro k hk
    exact h.1 t (by rw [hk]; rfl)
  · intro hk
    exact h.1 t (by rw [hk]; rfl)
  · intro hk
    have ht : t = 0 := h.2.2.1 t (by rw [hk]; rfl)
    have hrs : ((Sys.init e).run sched).readerStarted = false := by
      cases hs : ((Sys.init e).run sched).readerStarted
      · rfl
      · have h0 := h.2.2.2.1 hs
        rw [← ht, hk] at h0
        exact absurd h0 (by decide)
    have hph : ((Sys.init e).run sched).l.pongHandlerSet = false := by
      apply hU
      rw [← ht, hk]
      rfl
    refine ⟨ht, ?_, hph, hrs, ?_, ?_⟩
    · intro hl
      have := hH t hl
      rw [hk] at this
      exact absurd this (by decide)
    · intro u
      cases hu : (((Sys.init e).run sched).pcs u).inReader
      · rfl
      · have := h.2.2.2.2.1 u hu
        rw [hrs] at this
        exact absurd this (by decide)
    · intro hc
      subst hc
      unfold Sys.step
      rw [hk]
      simp only [Sys.exec, Function.update_same, resetPongs]
      exact ⟨trivial, trivial, hph, trivial⟩

theorem pongsPending_mutex_witness :
    (newListener "l1" [] false).pongHandlerSet = false ∧
    ((Sys.init (newListener "l1" [] false)).run
      [⟨0, true, ReadOutcome.err, Call.close, true⟩]).pcs 0 = Pc.hbReset ∧
    ((Sys.init (newListener "l1" [] false)).run
      [⟨0, true, ReadOutcome.err, Call.close, true⟩]).lock ≠ some 0 ∧
    ((Sys.init (newListener "l1" [] false)).run
      [⟨0, true, ReadOutcome.err, Call.close, true⟩]).l.pongHandlerSet = false :=
  ⟨rfl, by decide,
    ((pongsPending_mutex (newListener "l1" [] false)
      [⟨0, true, ReadOutcome.err, Call.close, true⟩] 0
      ⟨0, true, ReadOutcome.err, Call.close, true⟩ rfl).2.2.2 (by decide)).2.1,
    ((pongsPending_mutex (newListener "l1" [] false)
      [⟨0, true, ReadOutcome.err, Call.close, true⟩] 0
      ⟨0, true, ReadOutcome.err, Call.close, true⟩ rfl).2.2.2 (by decide)).2.2.1⟩

/-! ## Wait -/

/-- C11: `Wait` returns exactly when at least one of the two contexts is done.  It
returns at once when the given context is already cancelled or the listener is
already closed, it stays blocked while both are live, and the listener state it
returns with is the state it was called on: it neither closes the listener nor
touches `pongsPending`. -/
theorem Wait_returns_iff (e : listenerCommon) (ctxDone : Bool) :
    ((e.Wait ctxDone).isSome = true ↔ (ctxDone = true ∨ e.IsClosed = true)) ∧
    (ctxDone = true → e.Wait ctxDone = some e) ∧
    (e.IsClosed = true → e.Wait ctxDone = some e) ∧
    (ctxDone = false → e.IsClosed = false → e.Wait ctxDone = none) ∧
    (∀ e1, e.Wait ctxDone = some e1 →
      e1 = e ∧ e1.IsClosed = e.IsClosed ∧ e1.pongsPending = e.pongsPending) := by
  refine ⟨?_, ?_, ?_, ?_, ?_⟩
  · cases ctxDone <;> cases hc : e.IsClosed <;> simp [Wait, hc]
  · intro h
    simp [Wait, h]
  · intro h
    simp [Wait, h]
  · intro h1 h2
    simp [Wait, h1, h2]
  · intro e1 h
    have he : e1 = e := by
      unfold Wait at h
      split at h
      · exact (Option.some.inj h).symm
      · exact Option.noConfusion h
    subst he
    exact ⟨rfl, rfl, rfl⟩

/-! ## Bound on the count and agreement of the closed state, operation by operation -/

theorem pongsPending_applyOp (e : listenerCommon) (op : Op) (h : e.pongsPending ≤ 3) :
    (applyOp e op).pongsPending ≤ 3 := by
  cases op with
  | close closeErr => simp only [applyOp, pongsPending_Close]; exact h
  | pong msg => simp [applyOp, pongHandler, resetPongs]
  | heartbeatIter sendOk closeErr =>
    simp only [applyOp]
    cases hc : e.IsClosed
    · by_cases hp : e.pongsPending ≤ 2
      · cases sendOk
        · rw [heartbeatIter_of_sendFail e closeErr hc hp, pongsPending_Close]
          exact h
        · rw [heartbeatIter_of_sendOk e closeErr hc hp]
          show (e.pongsPending + 1) % uintSize ≤ 3
          rw [incr_small _ hp]
          omega
      · rw [heartbeatIter_of_timeout e sendOk closeErr hc (by omega), pongsPending_Close]
        exact h
    · rw [heartbeatIter_of_closed e sendOk closeErr hc]
      exact h
  | readerStep r closeErr =>
    simp only [applyOp, reader]
    cases hr : e.recvFunc
    · simp only [Bool.false_eq_true, if_false, pongsPending_Close]; exact h
    · cases r with
      | none => simp only [if_true, readerLoop, pongsPending_Close]; exact h
      | some ev => simp only [if_true, readerLoop]; exact h
  | writeJSON v ok => exact h
  | wait ctxDone =>
    simp only [applyOp, Wait]
    split <;> exact h
  | id => exact h
  | isClosed => exact h

theorem pongsPending_applyOps (ops : List Op) (e : listenerCommon) (h : e.pongsPending ≤ 3) :
    (applyOps e ops).pongsPending ≤ 3 := by
  induction ops generalizing e with
  | nil => exact h
  | cons op rest ih => exact ih (applyOp e op) (pongsPending_applyOp e op h)

theorem Agrees_Close (e : listenerCommon) (closeErr : Bool) (h : Agrees e) :
    Agrees (e.Close closeErr) := by
  cases hc : e.IsClosed
  · rcases h with ⟨h1, h2, h3⟩ | ⟨h1, _, _⟩
    · right
      have hn := connCloseCalls_Close_of_open e closeErr hc
      refine ⟨isClosed_Close e closeErr, ?_, ?_⟩
      · rw [hn.1, h2]
      · rw [hn.2, h3]
    · have : e.ctxErr = false := hc
      rw [this] at h1
      exact absurd h1 (by decide)
  · rw [Close_of_closed e closeErr hc]
    exact h

theorem Agrees_applyOp (e : listenerCommon) (op : Op) (h : Agrees e) : Agrees (applyOp e op) := by
  cases op with
  | close closeErr => exact Agrees_Close e closeErr h
  | pong msg => exact h
  | heartbeatIter sendOk closeErr =>
    simp only [applyOp]
    cases hc : e.IsClosed
    · by_cases hp : e.pongsPending ≤ 2
      · cases sendOk
        · rw [heartbeatIter_of_sendFail e closeErr hc hp]
          exact Agrees_Close _ closeErr h
        · rw [heartbeatIter_of_sendOk e closeErr hc hp]
          exact h
      · rw [heartbeatIter_of_timeout e sendOk closeErr hc (by omega)]
        exact Agrees_Close _ closeErr h
    · rw [heartbeatIter_of_closed e sendOk closeErr hc]
      exact h
  | readerStep r closeErr =>
    simp only [applyOp, reader]
    cases hr : e.recvFunc
    · simp only [Bool.false_eq_true, if_false]
      exact Agrees_Close _ closeErr h
    · cases r with
      | none =>
        simp only [if_true, readerLoop]
        exact Agrees_Close _ closeErr h
      | some ev => simp only [if_true, readerLoop]; exact h
  | writeJSON v ok => exact h
  | wait ctxDone =>
    simp only [applyOp, Wait]
    split <;> exact h
  | id => exact h
  | isClosed => exact h

theorem Agrees_applyOps (ops : List Op) (e : listenerCommon) (h : Agrees e) :
    Agrees (applyOps e ops) := by
  induction ops generalizing e with
  | nil => exact h
  | cons op rest ih => exact ih (applyOp e op) (Agrees_applyOp e op h)

theorem isClosed_applyOps (ops : List Op) (e : listenerCommon) (h : e.IsClosed = true) :
    (applyOps e ops).IsClosed = true := by
  induction ops generalizing e with
  | nil => exact h
  | cons op rest ih => exact ih (applyOp e op) (isClosed_applyOp e op h)

theorem applyOps_append (ops1 ops2 : List Op) (e : listenerCommon) :
    applyOps e (ops1 ++ ops2) = applyOps (applyOps e ops1) ops2 := by
  simp [applyOps]

theorem heartbeatIter_ret_closed (e : listenerCommon) (sendOk closeErr : Bool)
    (h : (e.heartbeatIter sendOk closeErr).2 = Ctl.ret) :
    (e.heartbeatIter sendOk closeErr).1.IsClosed = true := by
  cases hc : e.IsClosed
  · by_cases hp : e.pongsPending ≤ 2
    · cases sendOk
      · rw [heartbeatIter_of_sendFail e closeErr hc hp]
        exact isClosed_Close _ _
      · rw [heartbeatIter_of_sendOk e closeErr hc hp] at h
        simp at h
    · rw [heartbeatIter_of_timeout e sendOk closeErr hc (by omega)]
      exact isClosed_Close _ _
  · rw [heartbeatIter_of_closed e sendOk closeErr hc]
    exact hc

theorem reader_ret_closed (e : listenerCommon) (input : List (Option Event)) (closeErr : Bool)
    (h : (e.reader input closeErr).2 = true) :
    (e.reader input closeErr).1.IsClosed = true := by
  unfold reader at h ⊢
  cases hr : e.recvFunc
  · simp only [hr, Bool.false_eq_true, if_false] at h ⊢
    cases input with
    | nil => simp at h
    | cons r rs => exact isClosed_Close _ _
  · simp only [hr, if_true] at h ⊢
    rcases hl : readerLoop e input with ⟨e1, b⟩
    rw [hl] at h
    cases b
    · simp at h
    · exact isClosed_Close _ _

theorem pinging_locked (pc : Pc) (h : pc.pinging = true) : pc.locked = true := by
  cases pc <;> simp_all [Pc.locked, Pc.pinging]

/-- The bound is kept when one thread moves and the count stays within the bound
that the new program point asks for. -/
theorem Bounded_update (s : Sys) (t : Nat) (pc : Pc) (l1 : listenerCommon) (lock1 : Option Nat)
    (n1 : Nat) (r1 : Bool) (hl : l1.pongsPending ≤ 3)
    (hpc : pc.pinging = true → l1.pongsPending ≤ 2)
    (hother : ∀ u, u ≠ t → (s.pcs u).pinging = true → l1.pongsPending ≤ 2) :
    Sys.Bounded { l := l1, lock := lock1, pcs := Function.update s.pcs t pc, inFlight := n1,
                  readerStarted := r1 } := by
  refine ⟨hl, ?_⟩
  intro u hu
  by_cases hut : u = t
  · subst hut
    simp only [Function.update_same] at hu
    exact hpc hu
  · simp only [Function.update_noteq hut] at hu
    exact hother u hut hu

/-- A step that leaves the count as it is. -/
theorem Bounded_same (s : Sys) (t : Nat) (pc : Pc) (l1 : listenerCommon) (lock1 : Option Nat)
    (n1 : Nat) (r1 : Bool) (h : s.Bounded) (hl : l1.pongsPending = s.l.pongsPending)
    (hpc : pc.pinging = true → (s.pcs t).pinging = true ∨ s.l.pongsPending ≤ 2) :
    Sys.Bounded { l := l1, lock := lock1, pcs := Function.update s.pcs t pc, inFlight := n1,
                  readerStarted := r1 } := by
  refine Bounded_update s t pc l1 lock1 n1 r1 (by rw [hl]; exact h.1) ?_ ?_
  · intro hp
    rw [hl]
    rcases hpc hp with h1 | h1
    · exact h.2 t h1
    · exact h1
  · intro u _ hu
    rw [hl]
    exact h.2 u hu

/-- A step that resets the count. -/
theorem Bounded_reset (s : Sys) (t : Nat) (pc : Pc) (l1 : listenerCommon) (lock1 : Option Nat)
    (n1 : Nat) (r1 : Bool) (hl : l1.pongsPending = 0) :
    Sys.Bounded { l := l1, lock := lock1, pcs := Function.update s.pcs t pc, inFlight := n1,
                  readerStarted := r1 } := by
  refine Bounded_update s t pc l1 lock1 n1 r1 (by omega) ?_ ?_
  · intro _; omega
  · intro _ _ _; omega

theorem pongsPending_connClose (e : listenerCommon) (closeErr : Bool) :
    (e.connClose closeErr).pongsPending = e.pongsPending := by
  cases closeErr <;> rfl

theorem Bounded_step (s : Sys) (c : Choice) (hI : s.Inv) (h : s.Bounded) :
    (s.step c).Bounded := by
  unfold Sys.step
  cases hpc : s.pcs c.tid <;> simp only []
  case hbIncr =>
    have hp : s.l.pongsPending ≤ 2 := h.2 c.tid (by rw [hpc]; rfl)
    have hlk : s.lock = some c.tid := hI.1 c.tid (by rw [hpc]; rfl)
    refine Bounded_update s c.tid Pc.hbUnlock _ s.lock s.inFlight s.readerStarted ?_ ?_ ?_
    · show (s.l.pongsPending + 1) % uintSize ≤ 3
      rw [incr_small _ hp]; omega
    · intro hx; exact absurd hx (by decide)
    · intro u hut hu
      have := hI.1 u (pinging_locked _ hu)
      rw [hlk] at this
      exact absurd (Option.some.inj this).symm hut
  all_goals try split
  all_goals try split
  all_goals first
    | exact h
    | (apply Bounded_reset; rfl)
    | (apply Bounded_same s c.tid _ _ _ _ _ h <;>
        simp_all [Pc.pinging, logLine, connWrite, pongsPending_connClose, ctxCancel])
    | (unfold Sys.acquire; split <;>
        first | exact h | (apply Bounded_same s c.tid _ _ _ _ _ h <;> simp_all [Pc.pinging]))

theorem Bounded_run (sched : List Choice) (s : Sys) (hI : s.Inv) (h : s.Bounded) :
    (s.run sched).Bounded := by
  induction sched generalizing s with
  | nil => exact h
  | cons c cs ih => exact ih (s.step c) (Inv_step s c hI) (Bounded_step s c hI h)

theorem closing_locked (pc : Pc) (h : pc.closing = true) : pc.locked = true := by
  cases pc <;> simp_all [Pc.locked, Pc.closing]

theorem isCancel_closing (pc : Pc) (h : pc.isCancel = true) : pc.closing = true := by
  cases pc <;> simp_all [Pc.isCancel, Pc.closing]

theorem closesOfHolder_update (lock : Option Nat) (pcs : Nat → Pc) (t : Nat) (pc : Pc)
    (hw : pc.isCancel = (pcs t).isCancel) :
    closesOfHolder lock (Function.update pcs t pc) = closesOfHolder lock pcs := by
  cases lock with
  | none => rfl
  | some u =>
    by_cases hut : u = t
    · subst hut; simp only [closesOfHolder, Function.update_same, hw]
    · simp only [closesOfHolder, Function.update_noteq hut]

/-- The counts are kept by a step that leaves the token, the two counters and the
number of closes in progress as they are. -/
theorem Counts_update (s : Sys) (t : Nat) (pc : Pc) (l1 : listenerCommon) (lock1 : Option Nat)
    (n1 : Nat) (r1 : Bool) (h : s.Counts)
    (h1 : l1.ctxErr = s.l.ctxErr) (h2 : l1.cancelCalls = s.l.cancelCalls)
    (h3 : l1.connCloseCalls = s.l.connCloseCalls)
    (hpc : pc.closing = true → (s.pcs t).closing = true ∨ s.l.ctxErr = false)
    (hc : closesOfHolder lock1 (Function.update s.pcs t pc) = closesOfHolder s.lock s.pcs) :
    Sys.Counts { l := l1, lock := lock1, pcs := Function.update s.pcs t pc, inFlight := n1,
                 readerStarted := r1 } := by
  obtain ⟨hA, hB, hC⟩ := h
  refine ⟨?_, ?_, ?_⟩
  · intro u hu
    show l1.ctxErr = false
    rw [h1]
    by_cases hut : u = t
    · subst hut
      simp only [Function.update_same] at hu
      rcases hpc hu with h4 | h4
      · exact hA u h4
      · exact h4
    · simp only [Function.update_noteq hut] at hu
      exact hA u hu
  · show l1.cancelCalls = if l1.ctxErr = true then 1 else 0
    rw [h1, h2]; exact hB
  · show l1.connCloseCalls = l1.cancelCalls + closesOfHolder lock1 (Function.update s.pcs t pc)
    rw [h2, h3, hc]; exact hC

/-- A step that keeps the lock; the fields of the listener that the counts do not
read may change. -/
theorem Counts_goto (s : Sys) (t : Nat) (pc : Pc) (h : s.Counts)
    (hpc : pc.closing = true → (s.pcs t).closing = true ∨ s.l.ctxErr = false)
    (hw : pc.isCancel = (s.pcs t).isCancel) : (s.goto t pc).Counts :=
  Counts_update s t pc s.l s.lock s.inFlight s.readerStarted h rfl rfl rfl hpc
    (closesOfHolder_update _ _ _ _ hw)

theorem Counts_acquire (s : Sys) (t : Nat) (pc : Pc) (h : s.Counts)
    (hpc : pc.closing = false) : (s.acquire t pc).Counts := by
  unfold Sys.acquire
  cases hlk : s.lock with
  | some u => exact h
  | none =>
    have hx : pc.isCancel = false := by
      cases hi : pc.isCancel
      · rfl
      · rw [isCancel_closing pc hi] at hpc; exact absurd hpc (by decide)
    have := Counts_update s t pc s.l (some t) s.inFlight s.readerStarted h rfl rfl rfl
      (fun hp => by rw [hpc] at hp; exact absurd hp (by decide))
      (by rw [hlk]; simp [closesOfHolder, hx])
    exact this

theorem Counts_release (s : Sys) (t : Nat) (pc : Pc) (hI : s.Inv) (h : s.Counts)
    (hl0 : (s.pcs t).locked = true) (hw0 : (s.pcs t).isCancel = false)
    (hpc : pc.closing = false) : (s.release t pc).Counts := by
  have hlk := hI.1 t hl0
  have := Counts_update s t pc s.l none s.inFlight s.readerStarted h rfl rfl rfl
    (fun hp => by rw [hpc] at hp; exact absurd hp (by decide))
    (by rw [hlk]; simp [closesOfHolder, hw0])
  exact this

/-- The call `e.Conn.Close()` of a `Close` that holds the mutex. -/
theorem Counts_clConn (s : Sys) (t : Nat) (ok : Bool) (hI : s.Inv) (h : s.Counts)
    (hpc : s.pcs t = Pc.clConn) :
    (s.exec t (fun e => e.connClose ok) Pc.clCancel).Counts := by
  obtain ⟨hA, hB, hC⟩ := h
  have hlk : s.lock = some t := hI.1 t (by rw [hpc]; rfl)
  have hE : s.l.ctxErr = false := hA t (by rw [hpc]; rfl)
  have h1 : (s.l.connClose ok).ctxErr = s.l.ctxErr := by cases ok <;> rfl
  have h2 : (s.l.connClose ok).cancelCalls = s.l.cancelCalls := by cases ok <;> rfl
  have h3 : (s.l.connClose ok).connCloseCalls = s.l.connCloseCalls + 1 := by cases ok <;> rfl
  have hc0 : closesOfHolder s.lock s.pcs = 0 := by
    rw [hlk]; simp [closesOfHolder, hpc, Pc.isCancel]
  refine ⟨?_, ?_, ?_⟩
  · intro u _
    show (s.l.connClose ok).ctxErr = false
    rw [h1]; exact hE
  · show (s.l.connClose ok).cancelCalls = if (s.l.connClose ok).ctxErr = true then 1 else 0
    rw [h1, h2]; exact hB
  · show (s.l.connClose ok).connCloseCalls =
      (s.l.connClose ok).cancelCalls + closesOfHolder s.lock (Function.update s.pcs t Pc.clCancel)
    rw [h2, h3, hC, hc0, hlk]
    simp [closesOfHolder, Pc.isCancel]

/-- The call `e.ctxCancel()` of a `Close` that holds the mutex. -/
theorem Counts_clCancel (s : Sys) (t : Nat) (hI : s.Inv) (h : s.Counts)
    (hpc : s.pcs t = Pc.clCancel) :
    (s.exec t listenerCommon.ctxCancel Pc.clUnlock).Counts := by
  obtain ⟨hA, hB, hC⟩ := h
  have hlk : s.lock = some t := hI.1 t (by rw [hpc]; rfl)
  have hE : s.l.ctxErr = false := hA t (by rw [hpc]; rfl)
  have hc1 : closesOfHolder s.lock s.pcs = 1 := by
    rw [hlk]; simp [closesOfHolder, hpc, Pc.isCancel]
  have hB0 : s.l.cancelCalls = 0 := by rw [hB, hE]; simp
  refine ⟨?_, ?_, ?_⟩
  · intro u hu
    by_cases hut : u = t
    · subst hut
      simp [Sys.exec, Pc.closing] at hu
    · simp only [Sys.exec, Function.update_noteq hut] at hu
      have := hI.1 u (closing_locked _ hu)
      rw [hlk] at this
      exact absurd (Option.some.inj this).symm hut
  · show s.l.cancelCalls + 1 = if true = true then 1 else 0
    rw [hB0]; rfl
  · show s.l.connCloseCalls =
      (s.l.cancelCalls + 1) + closesOfHolder s.lock (Function.update s.pcs t Pc.clUnlock)
    rw [hC, hc1, hlk, hB0]
    simp [closesOfHolder, Pc.isCancel]

theorem Counts_step (s : Sys) (c : Choice) (hI : s.Inv) (h : s.Counts) : (s.step c).Counts := by
  unfold Sys.step
  cases hpc : s.pcs c.tid <;> simp only []
  case clConn => exact Counts_clConn s c.tid c.ok hI h hpc
  case clCancel => exact Counts_clCancel s c.tid hI h hpc
  case hbGo =>
    exact Counts_update s c.tid Pc.hbIsClosed s.l s.lock s.inFlight true h rfl rfl rfl
      (fun hp => absurd hp (by decide))
      (closesOfHolder_update _ _ _ _ (by rw [hpc]; rfl))
  all_goals try split
  all_goals try split
  all_goals first
    | exact h
    | (apply Counts_goto s c.tid _ h <;> simp_all [Pc.closing, Pc.isCancel, listenerCommon.IsClosed])
    | (apply Counts_acquire s c.tid _ h; rfl)
    | (apply Counts_release s c.tid _ hI h <;> simp_all [Pc.closing, Pc.isCancel, Pc.locked])

theorem Counts_run (sched : List Choice) (s : Sys) (hI : s.Inv) (h : s.Counts) :
    (s.run sched).Counts := by
  induction sched generalizing s with
  | nil => exact h
  | cons c cs ih => exact ih (s.step c) (Inv_step s c hI) (Counts_step s c hI h)

theorem Counts_init (e : listenerCommon) (h1 : e.IsClosed = false) (h2 : e.connCloseCalls = 0)
    (h3 : e.cancelCalls = 0) : (Sys.init e).Counts := by
  have hE : e.ctxErr = false := h1
  refine ⟨fun _ _ => hE, ?_, ?_⟩
  · show e.cancelCalls = if e.ctxErr = true then 1 else 0
    rw [h3, hE]; rfl
  · show e.connCloseCalls = e.cancelCalls + closesOfHolder none _
    rw [h2, h3]; rfl

theorem Returned_update (s : Sys) (t : Nat) (pc : Pc) (l1 : listenerCommon) (lock1 : Option Nat)
    (n1 : Nat) (r1 : Bool) (h : s.Returned)
    (hmono : s.l.ctxErr = true → l1.ctxErr = true)
    (hr0 : (s.pcs t).hbRole = true → pc.hbRole = true)
    (hr1 : (s.pcs t).rdRole = true → pc.rdRole = true)
    (hu : pc = Pc.clUnlock → l1.ctxErr = true)
    (hd : pc = Pc.done → s.pcs t = Pc.clUnlock ∨ s.pcs t = Pc.done ∨
      ((s.pcs t).hbRole = false ∧ (s.pcs t).rdRole = false)) :
    Sys.Returned { l := l1, lock := lock1, pcs := Function.update s.pcs t pc, inFlight := n1,
                   readerStarted := r1 } := by
  obtain ⟨hR0, hR1, hU, hD0, hD1⟩ := h
  refine ⟨?_, ?_, ?_, ?_, ?_⟩
  · show (Function.update s.pcs t pc 0).hbRole = true
    by_cases h0 : (0 : Nat) = t
    · subst h0; simp only [Function.update_same]; exact hr0 hR0
    · simp only [Function.update_noteq h0]; exact hR0
  · show (Function.update s.pcs t pc 1).rdRole = true
    by_cases h1 : (1 : Nat) = t
    · subst h1; simp only [Function.update_same]; exact hr1 hR1
    · simp only [Function.update_noteq h1]; exact hR1
  · intro u huu
    show l1.ctxErr = true
    by_cases hut : u = t
    · subst hut
      simp only [Function.update_same] at huu
      exact hu huu
    · simp only [Function.update_noteq hut] at huu
      exact hmono (hU u huu)
  · intro hdn
    show l1.ctxErr = true
    by_cases h0 : (0 : Nat) = t
    · subst h0
      simp only [Function.update_same] at hdn
      rcases hd hdn with h2 | h2 | h2
      · exact hmono (hU 0 h2)
      · exact hmono (hD0 h2)
      · rw [h2.1] at hR0; exact absurd hR0 (by decide)
    · simp only [Function.update_noteq h0] at hdn
      exact hmono (hD0 hdn)
  · intro hdn
    show l1.ctxErr = true
    by_cases h1 : (1 : Nat) = t
    · subst h1
      simp only [Function.update_same] at hdn
      rcases hd hdn with h2 | h2 | h2
      · exact hmono (hU 1 h2)
      · exact hmono (hD1 h2)
      · rw [h2.2] at hR1; exact absurd hR1 (by decide)
    · simp only [Function.update_noteq h1] at hdn
      exact hmono (hD1 hdn)

theorem ctxErr_connClose (e : listenerCommon) (closeErr : Bool) :
    (e.connClose closeErr).ctxErr = e.ctxErr := by
  cases closeErr <;> rfl

theorem Returned_step (s : Sys) (c : Choice) (h : s.Returned) : (s.step c).Returned := by
  unfold Sys.step
  cases hpc : s.pcs c.tid <;> simp only []
  all_goals try split
  all_goals try split
  all_goals first
    | exact h
    | (apply Returned_update s c.tid _ _ _ _ _ h <;>
        simp_all [Pc.hbRole, Pc.rdRole, logLine, connWrite, ctxErr_connClose, ctxCancel,
          resetPongs, incrPongs, listenerCommon.IsClosed])
    | (unfold Sys.acquire; split <;>
        first
        | exact h
        | (apply Returned_update s c.tid _ _ _ _ _ h <;> simp_all [Pc.hbRole, Pc.rdRole]))

theorem Returned_run (sched : List Choice) (s : Sys) (h : s.Returned) : (s.run sched).Returned := by
  induction sched generalizing s with
  | nil => exact h
  | cons c cs ih => exact ih (s.step c) (Returned_step s c h)

theorem Returned_init (e : listenerCommon) : (Sys.init e).Returned := by
  refine ⟨rfl, rfl, ?_, ?_, ?_⟩
  · intro t ht
    simp only [Sys.init] at ht
    split at ht
    · exact absurd ht (by decide)
    · split at ht <;> exact absurd ht (by decide)
  · intro h; simp [Sys.init] at h
  · intro h; simp [Sys.init] at h

/-! ## The heartbeat iteration at statement level -/

/-- The heartbeat thread running alone through an iteration that returns: the
state of the listener is the one of `heartbeatIter`, the thread is done and the
mutex is free.  The first five decisions carry the outcome of the ping, the last
eight the outcome of `Conn.Close()`. -/
theorem heartbeat_solo_ret (s : Sys) (sendOk closeErr : Bool)
    (h0 : s.pcs 0 = Pc.hbIsClosed) (hl : s.lock = none)
    (hret : (s.l.heartbeatIter sendOk closeErr).2 = Ctl.ret) :
    (s.run (List.replicate 5 ⟨0, sendOk, ReadOutcome.err, Call.close, true⟩ ++
        List.replicate 8 ⟨0, closeErr, ReadOutcome.err, Call.close, true⟩)).l =
      (s.l.heartbeatIter sendOk closeErr).1 ∧
    (s.run (List.replicate 5 ⟨0, sendOk, ReadOutcome.err, Call.close, true⟩ ++
        List.replicate 8 ⟨0, closeErr, ReadOutcome.err, Call.close, true⟩)).pcs 0 = Pc.done ∧
    (s.run (List.replicate 5 ⟨0, sendOk, ReadOutcome.err, Call.close, true⟩ ++
        List.replicate 8 ⟨0, closeErr, ReadOutcome.err, Call.close, true⟩)).lock = none := by
  obtain ⟨l, lock, pcs, n, r⟩ := s
  simp only at h0 hl hret
  subst hl
  have hs : ∀ a b : Choice, List.replicate 5 a ++ List.replicate 8 b =
      [a, a, a, a, a, b, b, b, b, b, b, b, b] := fun _ _ => rfl
  rw [hs]
  cases hc : l.IsClosed
  · by_cases hp : l.pongsPending ≤ 2
    · cases sendOk
      · rw [heartbeatIter_of_sendFail l closeErr hc hp]
        have hc1 : l.ctxErr = false := hc
        have hp1 : ¬ 2 < l.pongsPending := by omega
        simp [Sys.run, Sys.step, Sys.goto, Sys.exec, Sys.acquire, Sys.release, Sys.writeBegin,
          Sys.writeEnd, h0, hc1, hp1, Close, listenerCommon.IsClosed, connWrite, logLine,
          connClose, ctxCancel]
      · rw [heartbeatIter_of_sendOk l closeErr hc hp] at hret
        simp at hret
    · have hp2 : 2 < l.pongsPending := by omega
      rw [heartbeatIter_of_timeout l sendOk closeErr hc hp2]
      have hc1 : l.ctxErr = false := hc
      simp [Sys.run, Sys.step, Sys.goto, Sys.exec, Sys.acquire, Sys.release, Sys.writeBegin,
        Sys.writeEnd, h0, hc1, hp2, Close, listenerCommon.IsClosed, connWrite, logLine,
        connClose, ctxCancel]
  · rw [heartbeatIter_of_closed l sendOk closeErr hc]
    have hc1 : l.ctxErr = true := hc
    simp [Sys.run, Sys.step, Sys.goto, Sys.exec, Sys.acquire, Sys.release, Sys.writeBegin,
      Sys.writeEnd, h0, hc1, listenerCommon.IsClosed]

/-- The heartbeat thread running alone through an iteration that goes on: after
nine steps the state of the listener is the one of `heartbeatIter`, the thread is
at the start of the next iteration and the mutex is free. -/
theorem heartbeat_solo_next (s : Sys) (sendOk closeErr : Bool)
    (h0 : s.pcs 0 = Pc.hbIsClosed) (hl : s.lock = none)
    (hnext : (s.l.heartbeatIter sendOk closeErr).2 = Ctl.next) :
    (s.run (List.replicate 9 ⟨0, sendOk, ReadOutcome.err, Call.close, true⟩)).l =
      (s.l.heartbeatIter sendOk closeErr).1 ∧
    (s.run (List.replicate 9 ⟨0, sendOk, ReadOutcome.err, Call.close, true⟩)).pcs 0 =
      Pc.hbIsClosed ∧
    (s.run (List.replicate 9 ⟨0, sendOk, ReadOutcome.err, Call.close, true⟩)).lock = none := by
  obtain ⟨l, lock, pcs, n, r⟩ := s
  simp only at h0 hl hnext
  subst hl
  have hs : ∀ a : Choice, List.replicate 9 a = [a, a, a, a, a, a, a, a, a] := fun _ => rfl
  rw [hs]
  cases hc : l.IsClosed
  · by_cases hp : l.pongsPending ≤ 2
    · cases sendOk
      · rw [heartbeatIter_of_sendFail l closeErr hc hp] at hnext
        simp at hnext
      · rw [heartbeatIter_of_sendOk l closeErr hc hp]
        have hc1 : l.ctxErr = false := hc
        have hp1 : ¬ 2 < l.pongsPending := by omega
        simp [Sys.run, Sys.step, Sys.goto, Sys.exec, Sys.acquire, Sys.release, Sys.writeBegin,
          Sys.writeEnd, h0, hc1, hp1, listenerCommon.IsClosed, connWrite, incrPongs]
    · have hp2 : 2 < l.pongsPending := by omega
      rw [heartbeatIter_of_timeout l sendOk closeErr hc hp2] at hnext
      simp at hnext
  · rw [heartbeatIter_of_closed l sendOk closeErr hc] at hnext
    simp at hnext

/-- The program points on the way to a ping are entered only from the program
point before, by the thread itself, and past the two tests only with the answer
that lets the ping go on. -/
theorem step_to_ping (s : Sys) (c : Choice) (t : Nat) :
    ((s.step c).pcs t = Pc.hbLock →
      s.pcs t = Pc.hbLock ∨ (c.tid = t ∧ s.pcs t = Pc.hbIsClosed ∧ s.l.IsClosed = false)) ∧
    ((s.step c).pcs t = Pc.hbTest →
      s.pcs t = Pc.hbTest ∨ (c.tid = t ∧ s.pcs t = Pc.hbLock ∧ s.lock = none)) ∧
    ((s.step c).pcs t = Pc.hbPing →
      s.pcs t = Pc.hbPing ∨ (c.tid = t ∧ s.pcs t = Pc.hbTest ∧ s.l.pongsPending ≤ 2)) ∧
    ((s.step c).pcs t = Pc.hbPinging →
      s.pcs t = Pc.hbPinging ∨ (c.tid = t ∧ s.pcs t = Pc.hbPing)) := by
  by_cases ht : t = c.tid
  · subst ht
    unfold Sys.step
    cases hpc : s.pcs c.tid <;> simp only []
    all_goals try split
    all_goals try split
    all_goals simp_all [Sys.goto, Sys.exec, Sys.acquire, Sys.release, Sys.writeBegin,
      Sys.writeEnd, listenerCommon.IsClosed]
    all_goals try split
    all_goals simp_all
  · rw [step_pcs_other s c t ht]
    exact ⟨Or.inl, Or.inl, Or.inl, Or.inl⟩

/-- A step that hands a ping to the connection is the return of the `WriteControl`
of the heartbeat. -/
theorem step_writes_ping (s : Sys) (c : Choice) (ok : Bool)
    (h : (s.step c).l.written = s.l.written ++ [(Frame.ping "keepalive", ok)]) :
    s.pcs c.tid = Pc.hbPinging := by
  revert h
  unfold Sys.step
  cases hpc : s.pcs c.tid <;> simp only []
  all_goals try split
  all_goals try split
  all_goals simp [Sys.exec, Sys.goto, Sys.acquire, Sys.release, Sys.writeBegin, Sys.writeEnd,
    logLine, resetPongs, incrPongs, ctxCancel, connClose, connWrite]
  all_goals try split
  all_goals simp

/-- While the heartbeat thread holds the mutex, a step of another thread leaves the
count as it is. -/
theorem step_pongsPending_held (s : Sys) (c : Choice) (hI : s.Inv)
    (h0 : (s.pcs 0).locked = true) (hc : c.tid ≠ 0) :
    (s.step c).l.pongsPending = s.l.pongsPending := by
  cases ha : (s.pcs c.tid).assignsPongs
  · exact step_pongsPending s c ha
  · exfalso
    have hlk := hI.1 0 h0
    cases hpc : s.pcs c.tid <;> simp_all [Pc.assignsPongs]
    · exact hc (hI.2.2.1 c.tid (by rw [hpc]; rfl))
    · have := hI.1 c.tid (by rw [hpc]; rfl)
      rw [hlk] at this
      exact hc (Option.some.inj this).symm
    · have := hI.1 c.tid (by rw [hpc]; rfl)
      rw [hlk] at this
      exact hc (Option.some.inj this).symm

set_option linter.unusedTactic false in
/-- Once the heartbeat has decided to return it stays on its way out: it runs the
statements before the `return` and the deferred `Close`, and is then done. -/
theorem step_hbExit (s : Sys) (c : Choice) (t : Nat) (h : (s.pcs t).hbExit = true) :
    ((s.step c).pcs t).hbExit = true := by
  by_cases ht : t = c.tid
  · subst ht
    revert h
    unfold Sys.step
    cases hpc : s.pcs c.tid <;> intro h <;> simp only [Sys.acquire]
    all_goals try (simp [Pc.hbExit] at h; done)
    all_goals first
      | (simp [Sys.goto, Sys.exec, Sys.release, Pc.hbExit, hpc]; done)
      | (split <;> simp [Sys.goto, Sys.exec, Sys.release, Pc.hbExit, hpc]; done)
  · rw [step_pcs_other s c t ht]
    exact h

/-- The two reads of a heartbeat iteration: the statement of line 75 reads the token
and that of line 80 the count, each deciding where the thread goes and leaving
the listener as it is; the `WriteControl` that follows is entered whatever the
state, and its return hands the ping to the connection. -/
theorem step_hb_reads (s : Sys) (c : Choice) :
    (s.pcs c.tid = Pc.hbIsClosed →
      (s.step c).l = s.l ∧ (s.step c).lock = s.lock ∧
      (s.step c).pcs c.tid = (if s.l.IsClosed then Pc.clLock else Pc.hbLock)) ∧
    (s.pcs c.tid = Pc.hbTest →
      (s.step c).l = s.l ∧ (s.step c).lock = s.lock ∧
      (s.step c).pcs c.tid =
        (if s.l.pongsPending > 2 then Pc.hbUnlockTimeout else Pc.hbPing)) ∧
    (s.pcs c.tid = Pc.hbPing →
      (s.step c).l = s.l ∧ (s.step c).pcs c.tid = Pc.hbPinging) ∧
    (s.pcs c.tid = Pc.hbPinging →
      (s.step c).l.written = s.l.written ++ [(Frame.ping "keepalive", c.ok)]) := by
  refine ⟨?_, ?_, ?_, ?_⟩ <;> intro h <;> unfold Sys.step <;> rw [h] <;> simp only []
  · split <;> simp [Sys.goto, *]
  · split <;> simp [Sys.goto, *]
  · simp [Sys.writeBegin]
  · simp [Sys.writeEnd, connWrite]

/-- C2, as stated, fails: the heartbeat of a fresh listener runs alone through
three iterations whose pings succeed, and is at the start of its fourth iteration
with the listener open and the count at 3.  It reads the token; before it takes
the mutex the reader goroutine, inside a read, runs the pong handler, which
resets the count; the heartbeat then reads the count under the mutex, finds 0,
and hands a fourth ping to the connection, in an iteration at whose start the
count was above 2. -/
theorem heartbeatIter_ping_counterexample :
    ((Sys.init (newListener "l1" [] false)).run
      (List.replicate 4 ⟨0, true, ReadOutcome.err, Call.close, true⟩ ++
        List.replicate 2 ⟨1, true, ReadOutcome.pong, Call.close, true⟩ ++
        List.replicate 27 ⟨0, true, ReadOutcome.err, Call.close, true⟩)).pcs 0
      = Pc.hbIsClosed ∧
    ((Sys.init (newListener "l1" [] false)).run
      (List.replicate 4 ⟨0, true, ReadOutcome.err, Call.close, true⟩ ++
        List.replicate 2 ⟨1, true, ReadOutcome.pong, Call.close, true⟩ ++
        List.replicate 27 ⟨0, true, ReadOutcome.err, Call.close, true⟩)).l.IsClosed
      = false ∧
    ((Sys.init (newListener "l1" [] false)).run
      (List.replicate 4 ⟨0, true, ReadOutcome.err, Call.close, true⟩ ++
        List.replicate 2 ⟨1, true, ReadOutcome.pong, Call.close, true⟩ ++
        List.replicate 27 ⟨0, true, ReadOutcome.err, Call.close, true⟩)).l.pongsPending
      = 3 ∧
    ((Sys.init (newListener "l1" [] false)).run
      (List.replicate 4 ⟨0, true, ReadOutcome.err, Call.close, true⟩ ++
        List.replicate 2 ⟨1, true, ReadOutcome.pong, Call.close, true⟩ ++
        List.replicate 27 ⟨0, true, ReadOutcome.err, Call.close, true⟩)).l.written
      = List.replicate 3 (Frame.ping "keepalive", true) ∧
    ((Sys.init (newListener "l1" [] false)).run
      (List.replicate 4 ⟨0, true, ReadOutcome.err, Call.close, true⟩ ++
        List.replicate 2 ⟨1, true, ReadOutcome.pong, Call.close, true⟩ ++
        List.replicate 27 ⟨0, true, ReadOutcome.err, Call.close, true⟩ ++
        [⟨0, true, ReadOutcome.err, Call.close, true⟩] ++
        List.replicate 4 ⟨1, true, ReadOutcome.pong, Call.close, true⟩ ++
        List.replicate 4 ⟨0, true, ReadOutcome.err, Call.close, true⟩)).l.written
      = List.replicate 4 (Frame.ping "keepalive", true) ∧
    ((Sys.init (newListener "l1" [] false)).run
      (List.replicate 4 ⟨0, true, ReadOutcome.err, Call.close, true⟩ ++
        List.replicate 2 ⟨1, true, ReadOutcome.pong, Call.close, true⟩ ++
        List.replicate 27 ⟨0, true, ReadOutcome.err, Call.close, true⟩ ++
        [⟨0, true, ReadOutcome.err, Call.close, true⟩] ++
        List.replicate 4 ⟨1, true, ReadOutcome.pong, Call.close, true⟩ ++
        List.replicate 4 ⟨0, true, ReadOutcome.err, Call.close, true⟩)).pcs 0
      = Pc.hbErrTest true ∧
    ¬ (((Sys.init (newListener "l1" [] false)).run
      (List.replicate 4 ⟨0, true, ReadOutcome.err, Call.close, true⟩ ++
        List.replicate 2 ⟨1, true, ReadOutcome.pong, Call.close, true⟩ ++
        List.replicate 27 ⟨0, true, ReadOutcome.err, Call.close, true⟩)).l.IsClosed
        = false ∧
      ((Sys.init (newListener "l1" [] false)).run
      (List.replicate 4 ⟨0, true, ReadOutcome.err, Call.close, true⟩ ++
        List.replicate 2 ⟨1, true, ReadOutcome.pong, Call.close, true⟩ ++
        List.replicate 27 ⟨0, true, ReadOutcome.err, Call.close, true⟩)).l.pongsPending
        ≤ 2) := by
  decide

/-- C2, amended: a heartbeat iteration attempts a ping exactly when the listener is
not closed at the moment the iteration reads the token (line 75, outside the
mutex) and the count is at most 2 at the moment it reads the count (line 80,
under the mutex).  In any state, the statement of line 75 sends the thread to
the deferred `Close` when the token has fired and to `Lock()` otherwise, that of
line 80 sends it to the timeout exit when the count is above 2 and to
`WriteControl` otherwise, and `WriteControl`, once entered, hands the ping to
the connection; a thread is at `Lock()`, at the test of the count, at the entry
of `WriteControl` and inside it only by having passed the program point before,
with the token read as not fired and the count read as at most 2; only the
return of that `WriteControl` hands a ping to the connection; a thread on its way
out stays on its way out.  In the states reached from the initial state, other
threads leave the count as it is while the heartbeat holds the mutex, and the
listener is closed once the heartbeat is done.  From a reached state in which
the heartbeat is at the start of an iteration and the mutex is free, the
heartbeat running alone ends the iteration in the state of `heartbeatIter`, done
when the iteration returns and at the start of the next iteration otherwise; and
for `heartbeatIter`, where nothing happens between the two reads, a ping is
handed to the connection exactly when at the start the listener is not closed
and the count is at most 2: on a closed listener the iteration returns with the
state as it was, and with the count above 2 it returns with the listener closed
and nothing written. -/
theorem heartbeatIter_ping_iff (e : listenerCommon) (sched : List Choice)
    (sendOk closeErr : Bool)
    (h0 : ((Sys.init e).run sched).pcs 0 = Pc.hbIsClosed)
    (hl : ((Sys.init e).run sched).lock = none) :
    (∀ (u : Sys) (c : Choice),
      (u.pcs c.tid = Pc.hbIsClosed →
        (u.step c).l = u.l ∧ (u.step c).lock = u.lock ∧
        (u.step c).pcs c.tid = (if u.l.IsClosed then Pc.clLock else Pc.hbLock)) ∧
      (u.pcs c.tid = Pc.hbTest →
        (u.step c).l = u.l ∧ (u.step c).lock = u.lock ∧
        (u.step c).pcs c.tid =
          (if u.l.pongsPending > 2 then Pc.hbUnlockTimeout else Pc.hbPing)) ∧
      (u.pcs c.tid = Pc.hbPing →
        (u.step c).l = u.l ∧ (u.step c).pcs c.tid = Pc.hbPinging) ∧
      (u.pcs c.tid = Pc.hbPinging →
        (u.step c).l.written = u.l.written ++ [(Frame.ping "keepalive", c.ok)])) ∧
    (∀ (u : Sys) (c : Choice) (t : Nat),
      ((u.step c).pcs t = Pc.hbLock →
        u.pcs t = Pc.hbLock ∨ (c.tid = t ∧ u.pcs t = Pc.hbIsClosed ∧ u.l.IsClosed = false)) ∧
      ((u.step c).pcs t = Pc.hbTest →
        u.pcs t = Pc.hbTest ∨ (c.tid = t ∧ u.pcs t = Pc.hbLock ∧ u.lock = none)) ∧
      ((u.step c).pcs t = Pc.hbPing →
        u.pcs t = Pc.hbPing ∨ (c.tid = t ∧ u.pcs t = Pc.hbTest ∧ u.l.pongsPending ≤ 2)) ∧
      ((u.step c).pcs t = Pc.hbPinging →
        u.pcs t = Pc.hbPinging ∨ (c.tid = t ∧ u.pcs t = Pc.hbPing))) ∧
    (∀ (u : Sys) (c : Choice) (ok : Bool),
      (u.step c).l.written = u.l.written ++ [(Frame.ping "keepalive", ok)] →
        u.pcs c.tid = Pc.hbPinging) ∧
    (∀ (u : Sys) (c : Choice) (t : Nat),
      (u.pcs t).hbExit = true → ((u.step c).pcs t).hbExit = true) ∧
    (∀ (sched2 : List Choice) (c : Choice),
      (((Sys.init e).run sched2).pcs 0).locked = true → c.tid ≠ 0 →
        (((Sys.init e).run sched2).step c).l.pongsPending =
          ((Sys.init e).run sched2).l.pongsPending) ∧
    (∀ sched2 : List Choice, ((Sys.init e).run sched2).pcs 0 = Pc.done →
      ((Sys.init e).run sched2).l.IsClosed = true) ∧
    ((((Sys.init e).run sched).l.heartbeatIter sendOk closeErr).2 = Ctl.ret →
      (((Sys.init e).run sched).run
          (List.replicate 5 ⟨0, sendOk, ReadOutcome.err, Call.close, true⟩ ++
            List.replicate 8 ⟨0, closeErr, ReadOutcome.err, Call.close, true⟩)).l =
        (((Sys.init e).run sched).l.heartbeatIter sendOk closeErr).1 ∧
      (((Sys.init e).run sched).run
          (List.replicate 5 ⟨0, sendOk, ReadOutcome.err, Call.close, true⟩ ++
            List.replicate 8 ⟨0, closeErr, ReadOutcome.err, Call.close, true⟩)).pcs 0 =
        Pc.done) ∧
    ((((Sys.init e).run sched).l.heartbeatIter sendOk closeErr).2 = Ctl.next →
      (((Sys.init e).run sched).run
          (List.replicate 9 ⟨0, sendOk, ReadOutcome.err, Call.close, true⟩)).l =
        (((Sys.init e).run sched).l.heartbeatIter sendOk closeErr).1 ∧
      (((Sys.init e).run sched).run
          (List.replicate 9 ⟨0, sendOk, ReadOutcome.err, Call.close, true⟩)).pcs 0 =
        Pc.hbIsClosed) ∧
    (((((Sys.init e).run sched).l.heartbeatIter sendOk closeErr).1.written =
          ((Sys.init e).run sched).l.written ++ [(Frame.ping "keepalive", sendOk)] ↔
        (((Sys.init e).run sched).l.IsClosed = false ∧
          ((Sys.init e).run sched).l.pongsPending ≤ 2)) ∧
      (¬ (((Sys.init e).run sched).l.IsClosed = false ∧
          ((Sys.init e).run sched).l.pongsPending ≤ 2) →
        (((Sys.init e).run sched).l.heartbeatIter sendOk closeErr).1.written =
          ((Sys.init e).run sched).l.written ∧
        (((Sys.init e).run sched).l.heartbeatIter sendOk closeErr).2 = Ctl.ret) ∧
      (((Sys.init e).run sched).l.IsClosed = true →
        ((Sys.init e).run sched).l.heartbeatIter sendOk closeErr =
          (((Sys.init e).run sched).l, Ctl.ret)) ∧
      (((Sys.init e).run sched).l.IsClosed = false →
        2 < ((Sys.init e).run sched).l.pongsPending →
        (((Sys.init e).run sched).l.heartbeatIter sendOk closeErr).1.IsClosed = true ∧
        (((Sys.init e).run sched).l.heartbeatIter sendOk closeErr).2 = Ctl.ret ∧
        (((Sys.init e).run sched).l.heartbeatIter sendOk closeErr).1.written =
          ((Sys.init e).run sched).l.written)) := by
  refine ⟨step_hb_reads, step_to_ping, step_writes_ping, step_hbExit, ?_, ?_, ?_, ?_,
    heartbeatIter_atomic _ sendOk closeErr⟩
  · intro sched2 c hlk hc
    exact step_pongsPending_held _ c (Inv_run sched2 _ (Inv_init e)) hlk hc
  · intro sched2
    exact (Returned_run sched2 _ (Returned_init e)).2.2.2.1
  · intro hret
    have := heartbeat_solo_ret _ sendOk closeErr h0 hl hret
    exact ⟨this.1, this.2.1⟩
  · intro hnext
    have := heartbeat_solo_next _ sendOk closeErr h0 hl hnext
    exact ⟨this.1, this.2.1⟩

theorem heartbeatIter_ping_iff_witness :
    ((Sys.init (newListener "l1" [] false)).run
      (List.replicate 4 ⟨0, true, ReadOutcome.err, Call.close, true⟩)).pcs 0 = Pc.hbIsClosed ∧
    ((Sys.init (newListener "l1" [] false)).run
      (List.replicate 4 ⟨0, true, ReadOutcome.err, Call.close, true⟩)).lock = none ∧
    (((Sys.init (newListener "l1" [] false)).run
        (List.replicate 4 ⟨0, true, ReadOutcome.err, Call.close, true⟩)).run
      (List.replicate 9 ⟨0, true, ReadOutcome.err, Call.close, true⟩)).pcs 0 =
      Pc.hbIsClosed :=
  ⟨by decide, by decide,
    ((heartbeatIter_ping_iff (newListener "l1" [] false)
      (List.replicate 4 ⟨0, true, ReadOutcome.err, Call.close, true⟩) true false
      (by decide) (by decide)).2.2.2.2.2.2.2.1 (by decide)).2⟩

/-! ## Bound on the count of pending pongs -/

/-- C21: `pongsPending` is bounded.  From a listener whose count is 0, after every
sequence of listener operations (heartbeat iterations with successful or failing
sends, pong callbacks, `Close` calls, `WriteJSON` calls, reader steps) the count
is at most 3, and so it is in every state that the threads of the listener reach
under any schedule of their statements.  The value 3 is reached: on an open
listener by three heartbeat iterations whose pings succeed, with no pong, and at
statement level by the heartbeat thread running alone through three pings. -/
theorem pongsPending_bounded (e : listenerCommon) (ops : List Op) (sched : List Choice)
    (closeErr : Bool) (h0 : e.pongsPending = 0) :
    (applyOps e ops).pongsPending ≤ 3 ∧
    ((Sys.init e).run sched).l.pongsPending ≤ 3 ∧
    (e.IsClosed = false →
      (applyOps e [Op.heartbeatIter true closeErr, Op.heartbeatIter true closeErr,
        Op.heartbeatIter true closeErr]).pongsPending = 3) ∧
    ((Sys.init (newListener "l1" [] false)).run
      (List.replicate 29 ⟨0, true, ReadOutcome.err, Call.close, true⟩)).l.pongsPending = 3 := by
  have hb : (Sys.init e).Bounded := by
    refine ⟨?_, ?_⟩
    · show e.pongsPending ≤ 3
      omega
    · intro t _
      show e.pongsPending ≤ 2
      omega
  refine ⟨pongsPending_applyOps ops e (by omega), (Bounded_run sched _ (Inv_init e) hb).1, ?_, ?_⟩
  · intro hc
    have s1 := heartbeatIter_of_sendOk e closeErr hc (by omega)
    have s2 := heartbeatIter_of_sendOk ((e.connWrite (Frame.ping "keepalive") true).incrPongs)
      closeErr hc (by simp [incrPongs, connWrite, h0, uintSize])
    have s3 := heartbeatIter_of_sendOk
      ((((e.connWrite (Frame.ping "keepalive") true).incrPongs).connWrite
        (Frame.ping "keepalive") true).incrPongs)
      closeErr hc (by simp [incrPongs, connWrite, h0, uintSize])
    simp only [applyOps, List.foldl_cons, List.foldl_nil, applyOp, s1, s2, s3]
    simp [incrPongs, connWrite, h0, uintSize]
  · decide

theorem pongsPending_bounded_witness :
    (newListener "l1" ["lifecycle"] true).pongsPending = 0 ∧
    (applyOps (newListener "l1" ["lifecycle"] true)
      [Op.heartbeatIter true false, Op.heartbeatIter true false, Op.heartbeatIter true false,
        Op.writeJSON ⟨"lifecycle", 0, ""⟩ true, Op.heartbeatIter true false]).pongsPending ≤ 3 :=
  ⟨rfl, (pongsPending_bounded (newListener "l1" ["lifecycle"] true)
    [Op.heartbeatIter true false, Op.heartbeatIter true false, Op.heartbeatIter true false,
      Op.writeJSON ⟨"lifecycle", 0, ""⟩ true, Op.heartbeatIter true false] [] false rfl).1⟩

/-! ## Agreement of the closed state and the connection -/

/-- C22, as stated, fails: on a fresh listener a caller of `Close` that has taken
the mutex and returned from `Conn.Close()` has not called the cancel function
yet: the connection is closed and the token has not fired.  The heartbeat, whose
test of line 75 reads the token without the mutex, reads it in that state as not
fired and goes on to `Lock()`. -/
theorem closed_agrees_counterexample :
    ((Sys.init (newListener "l1" [] false)).run
      (List.replicate 4 ⟨0, true, ReadOutcome.err, Call.close, true⟩ ++
        List.replicate 5 ⟨2, false, ReadOutcome.err, Call.close, true⟩)).l.IsClosed = false ∧
    ((Sys.init (newListener "l1" [] false)).run
      (List.replicate 4 ⟨0, true, ReadOutcome.err, Call.close, true⟩ ++
        List.replicate 5 ⟨2, false, ReadOutcome.err, Call.close, true⟩)).l.connCloseCalls
      = 1 ∧
    ((Sys.init (newListener "l1" [] false)).run
      (List.replicate 4 ⟨0, true, ReadOutcome.err, Call.close, true⟩ ++
        List.replicate 5 ⟨2, false, ReadOutcome.err, Call.close, true⟩)).pcs 2
      = Pc.clCancel ∧
    ((Sys.init (newListener "l1" [] false)).run
      (List.replicate 4 ⟨0, true, ReadOutcome.err, Call.close, true⟩ ++
        List.replicate 5 ⟨2, false, ReadOutcome.err, Call.close, true⟩)).pcs 0
      = Pc.hbIsClosed ∧
    ((Sys.init (newListener "l1" [] false)).run
      (List.replicate 4 ⟨0, true, ReadOutcome.err, Call.close, true⟩ ++
        List.replicate 5 ⟨2, false, ReadOutcome.err, Call.close, true⟩ ++
        [⟨0, true, ReadOutcome.err, Call.close, true⟩])).pcs 0
      = Pc.hbLock ∧
    ¬ (((Sys.init (newListener "l1" [] false)).run
      (List.replicate 4 ⟨0, true, ReadOutcome.err, Call.close, true⟩ ++
        List.replicate 5 ⟨2, false, ReadOutcome.err, Call.close, true⟩)).l.IsClosed = true ↔
      0 < ((Sys.init (newListener "l1" [] false)).run
      (List.replicate 4 ⟨0, true, ReadOutcome.err, Call.close, true⟩ ++
        List.replicate 5 ⟨2, false, ReadOutcome.err, Call.close, true⟩)).l.connCloseCalls) := by
  decide

/-- C22, amended: from a listener whose token has not fired and whose connection
has not been closed, in every state that the threads reach under any schedule
the connection has been closed at most once; when the token has fired the
connection has been closed; when the connection has been closed the token has
fired or a thread is between the two calls of `Close`; such a thread holds the
mutex, with the connection closed once and the token not yet fired; in every
state in which no thread is there the token has fired exactly when the
connection has been closed; and the listener is closed once the thread of the
heartbeat or of the reader is done.  When every operation runs as a whole
(`Close`, heartbeat iterations, pong callbacks, reader steps, `WriteJSON`), after
every sequence of operations the token has fired exactly when `Close` has called
the close operation of the connection, which it has then done once; a heartbeat
iteration that returns, and a reader that returns, leave the listener closed, and
it is still closed after any further operations. -/
theorem closed_agrees_with_connection (e : listenerCommon) (ops ops2 : List Op)
    (sched : List Choice) (sendOk closeErr : Bool) (r : Option Event)
    (h1 : e.IsClosed = false) (h2 : e.connCloseCalls = 0) (h3 : e.cancelCalls = 0) :
    ((applyOps e ops).IsClosed = true ↔ 0 < (applyOps e ops).connCloseCalls) ∧
    (applyOps e ops).connCloseCalls ≤ 1 ∧
    (((applyOps e ops).heartbeatIter sendOk closeErr).2 = Ctl.ret →
      (applyOps e (ops ++ Op.heartbeatIter sendOk closeErr :: ops2)).IsClosed = true) ∧
    (((applyOps e ops).reader [r] closeErr).2 = true →
      (applyOps e (ops ++ Op.readerStep r closeErr :: ops2)).IsClosed = true) ∧
    ((∀ t, ((Sys.init e).run sched).pcs t ≠ Pc.clCancel) →
      (((Sys.init e).run sched).l.IsClosed = true ↔
        0 < ((Sys.init e).run sched).l.connCloseCalls)) ∧
    (∀ t, ((Sys.init e).run sched).pcs t = Pc.clCancel →
      ((Sys.init e).run sched).lock = some t ∧
      ((Sys.init e).run sched).l.IsClosed = false ∧
      ((Sys.init e).run sched).l.connCloseCalls = 1) ∧
    (((Sys.init e).run sched).pcs 0 = Pc.done → ((Sys.init e).run sched).l.IsClosed = true) ∧
    (((Sys.init e).run sched).pcs 1 = Pc.done → ((Sys.init e).run sched).l.IsClosed = true) ∧
    ((Sys.init e).run sched).l.connCloseCalls ≤ 1 ∧
    (((Sys.init e).run sched).l.IsClosed = true →
      ((Sys.init e).run sched).l.connCloseCalls = 1) ∧
    (0 < ((Sys.init e).run sched).l.connCloseCalls →
      ((Sys.init e).run sched).l.IsClosed = true ∨
        ∃ t, ((Sys.init e).run sched).pcs t = Pc.clCancel ∧
          ((Sys.init e).run sched).lock = some t) := by
  have hA : Agrees (applyOps e ops) := Agrees_applyOps ops e (Or.inl ⟨h1, h2, h3⟩)
  have hI := Inv_run sched (Sys.init e) (Inv_init e)
  have hC := Counts_run sched (Sys.init e) (Inv_init e) (Counts_init e h1 h2 h3)
  have hR := Returned_run sched (Sys.init e) (Returned_init e)
  have hcl : ((Sys.init e).run sched).l.ctxErr = true →
      closesOfHolder ((Sys.init e).run sched).lock ((Sys.init e).run sched).pcs = 0 := by
    intro hx
    unfold closesOfHolder
    split
    · rfl
    · rename_i t _
      cases hp : (((Sys.init e).run sched).pcs t).isCancel
      · simp
      · have := hC.1 t (isCancel_closing _ hp)
        rw [hx] at this
        exact absurd this (by decide)
  have hle : closesOfHolder ((Sys.init e).run sched).lock ((Sys.init e).run sched).pcs ≤ 1 := by
    unfold closesOfHolder
    split
    · omega
    · split <;> omega
  refine ⟨?_, ?_, ?_, ?_, ?_, ?_, hR.2.2.2.1, hR.2.2.2.2, ?_, ?_, ?_⟩
  · rcases hA with ⟨a1, a2, _⟩ | ⟨a1, a2, _⟩
    · have : (applyOps e ops).IsClosed = false := a1
      rw [this, a2]; simp
    · have : (applyOps e ops).IsClosed = true := a1
      rw [this, a2]; simp
  · rcases hA with ⟨_, a2, _⟩ | ⟨_, a2, _⟩
    · rw [a2]; omega
    · rw [a2]
  · intro hret
    rw [applyOps_append]
    exact isClosed_applyOps ops2 _ (heartbeatIter_ret_closed _ sendOk closeErr hret)
  · intro hret
    rw [applyOps_append]
    exact isClosed_applyOps ops2 _ (reader_ret_closed _ [r] closeErr hret)
  · intro hno
    have hz : closesOfHolder ((Sys.init e).run sched).lock ((Sys.init e).run sched).pcs = 0 := by
      unfold closesOfHolder
      split
      · rfl
      · rename_i t _
        have := hno t
        cases hp : ((Sys.init e).run sched).pcs t <;> simp_all [Pc.isCancel]
    have hcc := hC.2.2
    rw [hz, hC.2.1] at hcc
    show ((Sys.init e).run sched).l.ctxErr = true ↔ _
    rw [hcc]
    cases ((Sys.init e).run sched).l.ctxErr <;> simp
  · intro t ht
    have hlk := hI.1 t (by rw [ht]; rfl)
    have hE := hC.1 t (by rw [ht]; rfl)
    refine ⟨hlk, hE, ?_⟩
    have hcc := hC.2.2
    rw [hC.2.1, hE, hlk] at hcc
    rw [hcc]
    simp [closesOfHolder, ht, Pc.isCancel]
  · have hcc := hC.2.2
    rw [hC.2.1] at hcc
    rw [hcc]
    cases hx : ((Sys.init e).run sched).l.ctxErr
    · simp; exact hle
    · rw [hcl hx]; simp
  · intro hx
    have hx1 : ((Sys.init e).run sched).l.ctxErr = true := hx
    have hcc := hC.2.2
    rw [hC.2.1, hcl hx1, hx1] at hcc
    rw [hcc]; simp
  · intro hpos
    cases hx : ((Sys.init e).run sched).l.ctxErr
    · right
      have hcc := hC.2.2
      rw [hC.2.1, hx] at hcc
      have hone : closesOfHolder ((Sys.init e).run sched).lock ((Sys.init e).run sched).pcs
          ≠ 0 := by
        intro hz
        rw [hz] at hcc
        simp at hcc
        omega
      cases hlk : ((Sys.init e).run sched).lock with
      | none => rw [hlk] at hone; exact absurd rfl hone
      | some t =>
        refine ⟨t, ?_, rfl⟩
        rw [hlk] at hone
        cases hp : ((Sys.init e).run sched).pcs t <;> simp_all [closesOfHolder, Pc.isCancel]
    · left
      exact hx

theorem closed_agrees_with_connection_witness :
    (newListener "l1" [] true).IsClosed = false ∧
    (newListener "l1" [] true).connCloseCalls = 0 ∧
    (newListener "l1" [] true).cancelCalls = 0 ∧
    ((applyOps (newListener "l1" [] true)
        [Op.heartbeatIter true false, Op.readerStep none true, Op.close false]).IsClosed = true ↔
      0 < (applyOps (newListener "l1" [] true)
        [Op.heartbeatIter true false, Op.readerStep none true,
          Op.close false]).connCloseCalls) :=
  ⟨rfl, rfl, rfl,
    (closed_agrees_with_connection (newListener "l1" [] true)
      [Op.heartbeatIter true false, Op.readerStep none true, Op.close false] [] [] true false
      none rfl rfl rfl).1⟩


end events

/-! ## Migration feature flags -/

namespace migration

theorem appendIf_eq (l : List String) (p : Option Bool) (name : String) :
    appendIf (some l) p name = Except.ok (some (l ++ if p = some true then [name] else [])) := by
  rcases p with _ | _ | _ <;>
    simp [appendIf, isTrue, load, Slice.append, bind, Except.bind, pure, Except.pure]

theorem GetRsyncFeaturesSlice_some (h : MigrationHeader) (r : RsyncFeatures)
    (hr : h.RsyncFeatures = some r) :
    GetRsyncFeaturesSlice (some h) = Except.ok (some
      ((if r.Xattrs = some true then ["xattrs"] else []) ++
       (if r.Delete = some true then ["delete"] else []) ++
       (if r.Compress = some true then ["compress"] else []) ++
       (if r.Bidirectional = some true then ["bidirectional"] else []))) := by
  simp [GetRsyncFeaturesSlice, hr, load, appendIf_eq, bind, Except.bind, pure, Except.pure]

theorem GetZfsFeaturesSlice_some (h : MigrationHeader) (z : ZfsFeatures)
    (hz : h.ZfsFeatures = some z) :
    GetZfsFeaturesSlice (some h) = Except.ok (some
      ((if z.Compress = some true then ["compress"] else []) ++
       (if z.MigrationHeader = some true then ["migration_header"] else []))) := by
  simp [GetZfsFeaturesSlice, hz, load, appendIf_eq, bind, Except.bind, pure, Except.pure,
    ZFSFeatureMigrationHeader]

theorem GetBtrfsFeaturesSlice_some (h : MigrationHeader) (b : BtrfsFeatures)
    (hb : h.BtrfsFeatures = some b) :
    GetBtrfsFeaturesSlice (some h) = Except.ok (some
      ((if b.MigrationHeader = some true then ["migration_header"] else []) ++
       (if b.HeaderSubvolumes = some true then ["header_subvolumes"] else []) ++
       (if b.HeaderSubvolumeUuids = some true then ["header_subvolume_uuids"] else []))) := by
  simp [GetBtrfsFeaturesSlice, hb, load, appendIf_eq, bind, Except.bind, pure, Except.pure,
    BTRFSFeatureMigrationHeader, BTRFSFeatureSubvolumes, BTRFSFeatureSubvolumeUUIDs]

/-- C12: GetRsyncFeaturesSlice returns exactly the supported rsync features.  It
never panics and never returns the nil slice; a nil header or a nil
`RsyncFeatures` gives the empty slice; otherwise the result lists, in the order
xattrs, delete, compress, bidirectional, the features whose flag is present and
true.  So the result is always a duplicate-free sublist of the four names, and a
name is in it exactly when its flag is present and true. -/
theorem GetRsyncFeaturesSlice_supported (m : Option MigrationHeader) :
    GetRsyncFeaturesSlice none = Except.ok (some []) ∧
    (∀ h : MigrationHeader, h.RsyncFeatures = none →
      GetRsyncFeaturesSlice (some h) = Except.ok (some [])) ∧
    (∀ (h : MigrationHeader) (r : RsyncFeatures), h.RsyncFeatures = some r →
      GetRsyncFeaturesSlice (some h) = Except.ok (some
        (([("xattrs", r.Xattrs), ("delete", r.Delete), ("compress", r.Compress),
            ("bidirectional", r.Bidirectional)].filter (fun f => f.2 = some true)).map
          Prod.fst))) ∧
    ∃ l, GetRsyncFeaturesSlice m = Except.ok (some l) ∧
      l.Sublist ["xattrs", "delete", "compress", "bidirectional"] ∧ l.Nodup ∧
      ("xattrs" ∈ l ↔ ∃ h r, m = some h ∧ h.RsyncFeatures = some r ∧ r.Xattrs = some true) ∧
      ("delete" ∈ l ↔ ∃ h r, m = some h ∧ h.RsyncFeatures = some r ∧ r.Delete = some true) ∧
      ("compress" ∈ l ↔
        ∃ h r, m = some h ∧ h.RsyncFeatures = some r ∧ r.Compress = some true) ∧
      ("bidirectional" ∈ l ↔
        ∃ h r, m = some h ∧ h.RsyncFeatures = some r ∧ r.Bidirectional = some true) := by
  have hnone : ∀ h : MigrationHeader, h.RsyncFeatures = none →
      GetRsyncFeaturesSlice (some h) = Except.ok (some []) := by
    intro h hr
    simp [GetRsyncFeaturesSlice, hr, load, bind, Except.bind, pure, Except.pure]
  refine ⟨rfl, hnone, ?_, ?_⟩
  · intro h r hr
    rw [GetRsyncFeaturesSlice_some h r hr]
    obtain ⟨x, d, c, b⟩ := r
    rcases x with _ | _ | _ <;> rcases d with _ | _ | _ <;> rcases c with _ | _ | _ <;>
      rcases b with _ | _ | _ <;> rfl
  · cases m with
    | none => exact ⟨[], rfl, by decide, by decide, by simp, by simp, by simp, by simp⟩
    | some h =>
      cases hr : h.RsyncFeatures with
      | none => exact ⟨[], hnone h hr, by decide, by decide, by simp [hr], by simp [hr],
          by simp [hr], by simp [hr]⟩
      | some r =>
        have key : ∀ f : RsyncFeatures → Option Bool,
            (∃ h1 r1, some h = some h1 ∧ h1.RsyncFeatures = some r1 ∧ f r1 = some true) ↔
              f r = some true := by
          intro f
          constructor
          · rintro ⟨h1, r1, h2, h3, h4⟩
            cases h2
            rw [hr] at h3
            cases h3
            exact h4
          · intro h4
            exact ⟨h, r, rfl, hr, h4⟩
        refine ⟨_, GetRsyncFeaturesSlice_some h r hr, ?_, ?_, ?_⟩
        · by_cases hx : r.Xattrs = some true <;> by_cases hd : r.Delete = some true <;>
            by_cases hc : r.Compress = some true <;>
            by_cases hb : r.Bidirectional = some true <;>
            simp only [hx, hd, hc, hb, if_true, if_false] <;> decide
        · by_cases hx : r.Xattrs = some true <;> by_cases hd : r.Delete = some true <;>
            by_cases hc : r.Compress = some true <;>
            by_cases hb : r.Bidirectional = some true <;>
            simp only [hx, hd, hc, hb, if_true, if_false] <;> decide
        · rw [key (fun r => r.Xattrs), key (fun r => r.Delete), key (fun r => r.Compress),
            key (fun r => r.Bidirectional)]
          by_cases hx : r.Xattrs = some true <;> by_cases hd : r.Delete = some true <;>
            by_cases hc : r.Compress = some true <;>
            by_cases hb : r.Bidirectional = some true <;>
            simp only [hx, hd, hc, hb, if_true, if_false] <;> decide

/-- C13: GetBtrfsFeaturesSlice returns exactly the supported BTRFS features.  It
never panics and never returns the nil slice; a nil header or a nil
`BtrfsFeatures` gives the empty slice; otherwise the result lists, in the order
migration_header, header_subvolumes, header_subvolume_uuids, the features whose
flag (MigrationHeader, HeaderSubvolumes, HeaderSubvolumeUuids) is present and
true.  So the result is always a duplicate-free sublist of the three names, and a
name is in it exactly when its flag is present and true. -/
theorem GetBtrfsFeaturesSlice_supported (m : Option MigrationHeader) :
    GetBtrfsFeaturesSlice none = Except.ok (some []) ∧
    (∀ h : MigrationHeader, h.BtrfsFeatures = none →
      GetBtrfsFeaturesSlice (some h) = Except.ok (some [])) ∧
    (∀ (h : MigrationHeader) (b : BtrfsFeatures), h.BtrfsFeatures = some b →
      GetBtrfsFeaturesSlice (some h) = Except.ok (some
        (([("migration_header", b.MigrationHeader), ("header_subvolumes", b.HeaderSubvolumes),
            ("header_subvolume_uuids", b.HeaderSubvolumeUuids)].filter
              (fun f => f.2 = some true)).map Prod.fst))) ∧
    ∃ l, GetBtrfsFeaturesSlice m = Except.ok (some l) ∧
      l.Sublist ["migration_header", "header_subvolumes", "header_subvolume_uuids"] ∧
      l.Nodup ∧
      ("migration_header" ∈ l ↔
        ∃ h b, m = some h ∧ h.BtrfsFeatures = some b ∧ b.MigrationHeader = some true) ∧
      ("header_subvolumes" ∈ l ↔
        ∃ h b, m = some h ∧ h.BtrfsFeatures = some b ∧ b.HeaderSubvolumes = some true) ∧
      ("header_subvolume_uuids" ∈ l ↔
        ∃ h b, m = some h ∧ h.BtrfsFeatures = some b ∧ b.HeaderSubvolumeUuids = some true) := by
  have hnone : ∀ h : MigrationHeader, h.BtrfsFeatures = none →
      GetBtrfsFeaturesSlice (some h) = Except.ok (some []) := by
    intro h hb
    simp [GetBtrfsFeaturesSlice, hb, load, bind, Except.bind, pure, Except.pure]
  refine ⟨rfl, hnone, ?_, ?_⟩
  · intro h b hb
    rw [GetBtrfsFeaturesSlice_some h b hb]
    obtain ⟨x, d, c⟩ := b
    rcases x with _ | _ | _ <;> rcases d with _ | _ | _ <;> rcases c with _ | _ | _ <;> rfl
  · cases m with
    | none => exact ⟨[], rfl, by decide, by decide, by simp, by simp, by simp⟩
    | some h =>
      cases hb : h.BtrfsFeatures with
      | none => exact ⟨[], hnone h hb, by decide, by decide, by simp [hb], by simp [hb],
          by simp [hb]⟩
      | some b =>
        refine ⟨_, GetBtrfsFeaturesSlice_some h b hb, ?_⟩
        obtain ⟨x, d, c⟩ := b
        rcases x with _ | _ | _ <;> rcases d with _ | _ | _ <;> rcases c with _ | _ | _ <;>
          simp [hb]

/-- C14: GetZfsFeaturesSlice returns exactly the supported ZFS features.  It never
panics and never returns the nil slice; a nil header or a nil `ZfsFeatures` gives
the empty slice; otherwise the result lists, in the order compress,
migration_header, the features whose flag (Compress, MigrationHeader) is present
and true.  So the result is always a duplicate-free sublist of the two names, a
name is in it exactly when its flag is present and true, and the result is the
same whatever the rsync and BTRFS features of the header are. -/
theorem GetZfsFeaturesSlice_supported (m : Option MigrationHeader) :
    GetZfsFeaturesSlice none = Except.ok (some []) ∧
    (∀ h : MigrationHeader, h.ZfsFeatures = none →
      GetZfsFeaturesSlice (some h) = Except.ok (some [])) ∧
    (∀ (h : MigrationHeader) (z : ZfsFeatures), h.ZfsFeatures = some z →
      GetZfsFeaturesSlice (some h) = Except.ok (some
        (([("compress", z.Compress), ("migration_header", z.MigrationHeader)].filter
              (fun f => f.2 = some true)).map Prod.fst))) ∧
    (∃ l, GetZfsFeaturesSlice m = Except.ok (some l) ∧
      l.Sublist ["compress", "migration_header"] ∧ l.Nodup ∧
      ("compress" ∈ l ↔
        ∃ h z, m = some h ∧ h.ZfsFeatures = some z ∧ z.Compress = some true) ∧
      ("migration_header" ∈ l ↔
        ∃ h z, m = some h ∧ h.ZfsFeatures = some z ∧ z.MigrationHeader = some true)) ∧
    (∀ (h : MigrationHeader) (r : Option RsyncFeatures) (b : Option BtrfsFeatures),
      GetZfsFeaturesSlice (some { h with RsyncFeatures := r, BtrfsFeatures := b }) =
        GetZfsFeaturesSlice (some h)) := by
  have hnone : ∀ h : MigrationHeader, h.ZfsFeatures = none →
      GetZfsFeaturesSlice (some h) = Except.ok (some []) := by
    intro h hz
    simp [GetZfsFeaturesSlice, hz, load, bind, Except.bind, pure, Except.pure]
  refine ⟨rfl, hnone, ?_, ?_, ?_⟩
  · intro h z hz
    rw [GetZfsFeaturesSlice_some h z hz]
    obtain ⟨x, d⟩ := z
    rcases x with _ | _ | _ <;> rcases d with _ | _ | _ <;> rfl
  · cases m with
    | none => exact ⟨[], rfl, by decide, by decide, by simp, by simp⟩
    | some h =>
      cases hz : h.ZfsFeatures with
      | none => exact ⟨[], hnone h hz, by decide, by decide, by simp [hz], by simp [hz]⟩
      | some z =>
        refine ⟨_, GetZfsFeaturesSlice_some h z hz, ?_⟩
        obtain ⟨x, d⟩ := z
        rcases x with _ | _ | _ <;> rcases d with _ | _ | _ <;> simp [hz]
  · intro h r b
    rfl

end migration

/-! ## Lifecycle events of network zones -/

namespace lifecycle

/-- C15: NetworkZoneAction.Event builds the canonical source URL of a network
zone.  For every zone name, project, requestor and context the event is returned
without panic; its Source is `/1.0/network-zones/` followed by the path-escaped
zone name, with `?project=` and the query-escaped project appended exactly when
the project is not the default project; Action is the action string, and Context
and Requestor are the values passed in. -/
theorem NetworkZoneAction_Event_source (imp : Imports) (a : NetworkZoneAction)
    (name project : String) (requestor : Option EventLifecycleRequestor) (ctx : Context) :
    NetworkZoneAction.Event imp a ⟨some ⟨name⟩, project⟩ requestor ctx =
      Except.ok
        { Action := a,
          Source := "/1.0/network-zones/" ++ imp.PathEscape name ++
            (if project = imp.Default then "" else "?project=" ++ imp.QueryEscape project),
          Context := ctx,
          Requestor := requestor } := by
  by_cases hp : project = imp.Default
  · simp [NetworkZoneAction.Event, load, bind, Except.bind, pure, Except.pure, hp]
  · simp [NetworkZoneAction.Event, load, bind, Except.bind, pure, Except.pure, hp,
      String.append_assoc]

/-- C16: NetworkZoneRecordAction.Event builds the canonical source URL of a network
zone record.  For every zone name, record name and project the event is returned
without panic; its Source is `/1.0/network-zones/`, the path-escaped zone name,
`/records/` and the path-escaped record name, with `?project=` and the
query-escaped project appended after the record path exactly when the project is
not the default project; in the default project it is the Source of the zone
event of the same zone followed by `/records/` and the escaped record name.
Action, Context and Requestor are passed through. -/
theorem NetworkZoneRecordAction_Event_source (imp : Imports) (a : NetworkZoneRecordAction)
    (b : NetworkZoneAction) (zone name project : String)
    (requestor : Option EventLifecycleRequestor) (ctx : Context) :
    NetworkZoneRecordAction.Event imp a ⟨some ⟨zone⟩, project⟩ name requestor ctx =
      Except.ok
        { Action := a,
          Source := "/1.0/network-zones/" ++ imp.PathEscape zone ++ "/records/" ++
            imp.PathEscape name ++
            (if project = imp.Default then "" else "?project=" ++ imp.QueryEscape project),
          Context := ctx,
          Requestor := requestor } ∧
    ((NetworkZoneRecordAction.Event imp a ⟨some ⟨zone⟩, imp.Default⟩ name requestor ctx).map
        EventLifecycle.Source =
      (NetworkZoneAction.Event imp b ⟨some ⟨zone⟩, imp.Default⟩ requestor ctx).map
        (fun e => e.Source ++ "/records/" ++ imp.PathEscape name)) := by
  constructor
  · by_cases hp : project = imp.Default
    · simp [NetworkZoneRecordAction.Event, load, bind, Except.bind, pure, Except.pure, hp]
    · simp [NetworkZoneRecordAction.Event, load, bind, Except.bind, pure, Except.pure, hp,
        String.append_assoc]
  · simp [NetworkZoneRecordAction.Event, NetworkZoneAction.Event, load, bind, Except.bind, pure,
      Except.pure, Except.map]

end lifecycle

/-! ## Rendering of configuration sections -/

namespace drivers

theorem writeEntries_eq (entries : List cfgEntry) (sb : String) :
    writeEntries sb entries = sb ++ concatText (entries.map entryText) := by
  induction entries generalizing sb with
  | nil => simp [writeEntries, concatText]
  | cons e es ih =>
    have hstep : writeEntries sb (e :: es) =
        writeEntries (if e.value != "" then sb ++ (e.key ++ " = \"" ++ e.value ++ "\"\n") else sb)
          es := rfl
    rw [hstep, ih]
    by_cases hv : e.value = ""
    · simp [hv, entryText, concatText]
    · simp [hv, entryText, concatText, String.append_assoc]

theorem qemuAppendSections_cons (sb : String) (sec : cfgSection) (secs : List cfgSection) :
    qemuAppendSections sb (sec :: secs) = qemuAppendSections (sb ++ sectionText sec) secs := by
  have hstep : qemuAppendSections sb (sec :: secs) =
      qemuAppendSections
        (writeEntries ((if sec.comment != "" then sb ++ ("# " ++ sec.comment ++ "\n") else sb) ++
          ("[" ++ sec.name ++ "]\n")) sec.entries ++ "\n") secs := rfl
  rw [hstep, writeEntries_eq]
  congr 1
  by_cases hc : sec.comment = ""
  · simp [hc, sectionText, String.append_assoc]
  · simp [hc, sectionText, String.append_assoc]

theorem qemuAppendSections_eq (secs : List cfgSection) (sb : String) :
    qemuAppendSections sb secs = sb ++ concatText (secs.map sectionText) := by
  induction secs generalizing sb with
  | nil => simp [qemuAppendSections, concatText]
  | cons s ss ih =>
    rw [qemuAppendSections_cons, ih]
    simp [concatText, String.append_assoc]

theorem concatText_append (a b : List String) :
    concatText (a ++ b) = concatText a ++ concatText b := by
  induction a with
  | nil => simp [concatText]
  | cons x xs ih => simp [concatText, ih, String.append_assoc]

/-- C17: qemuAppendSections renders the sections in order after what the builder
holds.  The content after the call is the content before it followed by the
texts of the sections; a section gives its comment line when the comment is not
empty, its name in brackets, one line per entry with a non-empty value, in order,
and an empty line.  So the output for no sections is empty, and the output for
two lists of sections in a row is the output for the first followed by the output
for the second. -/
theorem qemuAppendSections_renders (sb : String) (sec : cfgSection)
    (secs1 secs2 : List cfgSection) (entry : cfgEntry) (entries : List cfgEntry) :
    qemuAppendSections sb secs1 = sb ++ concatText (secs1.map sectionText) ∧
    sectionText sec =
      (if sec.comment = "" then "" else "# " ++ sec.comment ++ "\n") ++
        ("[" ++ sec.name ++ "]\n") ++ concatText (sec.entries.map entryText) ++ "\n" ∧
    concatText (List.map entryText (entry :: entries)) =
      (if entry.value = "" then "" else entry.key ++ " = \"" ++ entry.value ++ "\"\n") ++
        concatText (entries.map entryText) ∧
    qemuAppendSections sb [] = sb ∧
    qemuAppendSections "" [] = "" ∧
    qemuAppendSections sb (secs1 ++ secs2) = qemuAppendSections (qemuAppendSections sb secs1) secs2 ∧
    qemuAppendSections "" (secs1 ++ secs2) =
      qemuAppendSections "" secs1 ++ qemuAppendSections "" secs2 := by
  refine ⟨qemuAppendSections_eq secs1 sb, rfl, rfl, rfl, rfl, ?_, ?_⟩
  · simp [qemuAppendSections]
  · simp [qemuAppendSections_eq, concatText_append]

/-- The rendering of the base sections of an aarch64 machine: the entry without a
value (cap-large-decr) gives no line. -/
theorem qemuAppendSections_aarch64 :
    qemuAppendSections "" (qemuBaseSections "aarch64") =
      "# Machine\n[machine]\ngraphics = \"off\"\ntype = \"virt\"\ngic-version = \"max\"\naccel = \"kvm\"\nusb = \"off\"\n\n[boot-opts]\nstrict = \"on\"\n\n" := by
  decide

/-- C18: qemuBaseSections.  For every architecture the result is the machine
section (comment Machine; entries graphics=off, type, gic-version, cap-large-decr,
accel=kvm, usb=off in that order), then for x86_64 only the two global sections of
driver ICH9-LPC with property disable_s3 and disable_s4 and value 1, then the
boot-opts section with strict=on.  The type is q35, virt, pseries or
s390-ccw-virtio for x86_64, aarch64, ppc64le or s390x and empty otherwise;
gic-version is max for aarch64 only and cap-large-decr is off for ppc64le only,
and where they are empty their entries give no text.  The result has 4 sections
exactly for x86_64 and 2 sections otherwise. -/
theorem qemuBaseSections_shape (architecture : String) :
    qemuBaseSections architecture =
      [{ name := "machine", comment := "Machine",
         entries := [
           ⟨"graphics", "off"⟩,
           ⟨"type",
             if architecture = "x86_64" then "q35"
             else if architecture = "aarch64" then "virt"
             else if architecture = "ppc64le" then "pseries"
             else if architecture = "s390x" then "s390-ccw-virtio"
             else ""⟩,
           ⟨"gic-version", if architecture = "aarch64" then "max" else ""⟩,
           ⟨"cap-large-decr", if architecture = "ppc64le" then "off" else ""⟩,
           ⟨"accel", "kvm"⟩,
           ⟨"usb", "off"⟩] }] ++
      (if architecture = "x86_64" then
        [{ name := "global", comment := "",
           entries := [⟨"driver", "ICH9-LPC"⟩, ⟨"property", "disable_s3"⟩, ⟨"value", "1"⟩] },
         { name := "global", comment := "",
           entries := [⟨"driver", "ICH9-LPC"⟩, ⟨"property", "disable_s4"⟩, ⟨"value", "1"⟩] }]
       else []) ++
      [{ name := "boot-opts", comment := "", entries := [⟨"strict", "on"⟩] }] ∧
    ((qemuBaseSections architecture).head?.map cfgSection.name = some "machine") ∧
    ((qemuBaseSections architecture).getLast? =
      some { name := "boot-opts", comment := "", entries := [⟨"strict", "on"⟩] }) ∧
    ((qemuBaseSections architecture).length = 4 ↔ architecture = "x86_64") ∧
    (architecture ≠ "x86_64" → (qemuBaseSections architecture).length = 2) ∧
    (architecture ≠ "aarch64" →
      entryText ⟨"gic-version", if architecture = "aarch64" then "max" else ""⟩ = "") ∧
    (architecture ≠ "ppc64le" →
      entryText ⟨"cap-large-decr", if architecture = "ppc64le" then "off" else ""⟩ = "") := by
  have hg : architecture ≠ "aarch64" →
      entryText ⟨"gic-version", if architecture = "aarch64" then "max" else ""⟩ = "" := by
    intro h
    simp [entryText, h]
  have hd : architecture ≠ "ppc64le" →
      entryText ⟨"cap-large-decr", if architecture = "ppc64le" then "off" else ""⟩ = "" := by
    intro h
    simp [entryText, h]
  have key : architecture ≠ "x86_64" → qemuBaseSections architecture =
      [{ name := "machine", comment := "Machine",
         entries := [
           ⟨"graphics", "off"⟩,
           ⟨"type",
             if architecture = "aarch64" then "virt"
             else if architecture = "ppc64le" then "pseries"
             else if architecture = "s390x" then "s390-ccw-virtio"
             else ""⟩,
           ⟨"gic-version", if architecture = "aarch64" then "max" else ""⟩,
           ⟨"cap-large-decr", if architecture = "ppc64le" then "off" else ""⟩,
           ⟨"accel", "kvm"⟩,
           ⟨"usb", "off"⟩] },
       { name := "boot-opts", comment := "", entries := [⟨"strict", "on"⟩] }] := by
    intro hx
    simp [qemuBaseSections, hx]
  refine ⟨?_, ?_, ?_, ?_, ?_, hg, hd⟩
  · by_cases hx : architecture = "x86_64"
    · subst hx; decide
    · rw [key hx]; simp [hx]
  · by_cases hx : architecture = "x86_64"
    · subst hx; decide
    · rw [key hx]; simp
  · by_cases hx : architecture = "x86_64"
    · subst hx; decide
    · rw [key hx]; simp
  · by_cases hx : architecture = "x86_64"
    · subst hx; decide
    · rw [key hx]; simp [hx]
  · intro hx
    rw [key hx]; simp

/-- C19: qemuDeviceEntries.  With bus name pci or pcie the entries are
driver=pciName, bus=devBus, addr=devAddr in that order; with ccw the one entry is
driver=ccwName; with any other bus name there is none of the three.  The entry
multifunction=on comes after them, as the last entry, exactly when the
multifunction flag is set.  So there are at most 4 entries, and at most one with
the key driver. -/
theorem qemuDeviceEntries_shape (opts : qemuDevEntriesOpts) :
    qemuDeviceEntries opts =
      (if opts.dev.busName = "pci" ∨ opts.dev.busName = "pcie" then
        [⟨"driver", opts.pciName⟩, ⟨"bus", opts.dev.devBus⟩, ⟨"addr", opts.dev.devAddr⟩]
       else if opts.dev.busName = "ccw" then [⟨"driver", opts.ccwName⟩]
       else []) ++
      (if opts.dev.multifunction = true then [⟨"multifunction", "on"⟩] else []) ∧
    (opts.dev.multifunction = true →
      (qemuDeviceEntries opts).getLast? = some ⟨"multifunction", "on"⟩) ∧
    ((⟨"multifunction", "on"⟩ : cfgEntry) ∈ qemuDeviceEntries opts ↔
      opts.dev.multifunction = true) ∧
    (qemuDeviceEntries opts).length ≤ 4 ∧
    (qemuDeviceEntries opts).countP (fun e => e.key = "driver") ≤ 1 := by
  have key : qemuDeviceEntries opts =
      (if opts.dev.busName = "pci" ∨ opts.dev.busName = "pcie" then
        [⟨"driver", opts.pciName⟩, ⟨"bus", opts.dev.devBus⟩, ⟨"addr", opts.dev.devAddr⟩]
       else if opts.dev.busName = "ccw" then [⟨"driver", opts.ccwName⟩]
       else []) ++
      (if opts.dev.multifunction = true then [⟨"multifunction", "on"⟩] else []) := by
    unfold qemuDeviceEntries
    by_cases h1 : opts.dev.busName = "pci" ∨ opts.dev.busName = "pcie"
    · cases hm : opts.dev.multifunction <;> simp [h1, hm]
    · have h1a : ¬ opts.dev.busName = "pci" := fun h => h1 (Or.inl h)
      have h1b : ¬ opts.dev.busName = "pcie" := fun h => h1 (Or.inr h)
      by_cases h2 : opts.dev.busName = "ccw" <;>
        cases hm : opts.dev.multifunction <;> simp [h1a, h1b, h2, hm]
  rw [key]
  refine ⟨rfl, ?_, ?_, ?_, ?_⟩
  · intro hm
    simp [hm]
  · by_cases h1 : opts.dev.busName = "pci" ∨ opts.dev.busName = "pcie" <;>
      by_cases h2 : opts.dev.busName = "ccw" <;>
      cases hm : opts.dev.multifunction <;> simp [h1, h2]
  · by_cases h1 : opts.dev.busName = "pci" ∨ opts.dev.busName = "pcie" <;>
      by_cases h2 : opts.dev.busName = "ccw" <;>
      cases hm : opts.dev.multifunction <;> simp [h1, h2]
  · by_cases h1 : opts.dev.busName = "pci" ∨ opts.dev.busName = "pcie" <;>
      by_cases h2 : opts.dev.busName = "ccw" <;>
      cases hm : opts.dev.multifunction <;> simp [h1, h2, List.countP_cons]

end drivers


/-! ## The serial sections and the template `qemuSerial` -/

namespace drivers

set_option maxRecDepth 100000 in
/-- The parsed form of the template text. -/
theorem qemuSerial_parsed :
    qemuSerial = some
      [template.Node.text "\n# Virtual serial bus\n[device \"dev-qemu_serial\"]",
      template.Node.action true (template.Action.ifEq "bus" ["pci", "pcie"]) false,
      template.Node.text "\ndriver = \"virtio-serial-pci\"\nbus = \"",
      template.Node.action false (template.Action.field "devBus") false,
      template.Node.text "\"\naddr = \"",
      template.Node.action false (template.Action.field "devAddr") false,
      template.Node.text "\"",
      template.Node.action true template.Action.endIf false,
      template.Node.text "\n",
      template.Node.action false (template.Action.ifEq "bus" ["ccw"]) true,
      template.Node.text "driver = \"virtio-serial-ccw\"",
      template.Node.action true template.Action.endIf false,
      template.Node.text "\n",
      template.Node.action false (template.Action.ifField "multifunction") true,
      template.Node.text "multifunction = \"on\"",
      template.Node.action true template.Action.endIf false,
      template.Node.text "\n\n# LXD serial identifier\n[chardev \"",
      template.Node.action false (template.Action.field "chardevName") false,
      template.Node.text "\"]\nbackend = \"ringbuf\"\nsize = \"",
      template.Node.action false (template.Action.field "ringbufSizeBytes") false,
      template.Node.text
        "B\"\n\n[device \"qemu_serial\"]\ndriver = \"virtserialport\"\nname = \"org.linuxcontainers.lxd\"\nchardev = \"",
      template.Node.action false (template.Action.field "chardevName") false,
      template.Node.text
        "\"\nbus = \"dev-qemu_serial.0\"\n\n# Spice agent\n[chardev \"qemu_spice-chardev\"]\nbackend = \"spicevmc\"\nname = \"vdagent\"\n\n[device \"qemu_spice\"]\ndriver = \"virtserialport\"\nname = \"com.redhat.spice.0\"\nchardev = \"qemu_spice-chardev\"\nbus = \"dev-qemu_serial.0\"\n\n# Spice folder\n[chardev \"qemu_spicedir-chardev\"]\nbackend = \"spiceport\"\nname = \"org.spice-space.webdav.0\"\n\n[device \"qemu_spicedir\"]\ndriver = \"virtserialport\"\nname = \"org.spice-space.webdav.0\"\nchardev = \"qemu_spicedir-chardev\"\nbus = \"dev-qemu_serial.0\"\n"] := by
  rfl

theorem append_B_ne (s : String) : s ++ "B" ≠ "" := by
  intro h
  have := congrArg String.data h
  simp at this

theorem unlines_append (a b : List String) : unlines (a ++ b) = unlines a ++ unlines b := by
  simp [unlines, concatText_append]

set_option maxRecDepth 100000 in
set_option maxHeartbeats 1000000 in
/-- The output of the template as a list of lines. -/
theorem qemuSerial_lines (opts : qemuSerialOpts) :
    template.Execute qemuSerial (qemuSerialData opts) = Except.ok (unlines
      (["", "# Virtual serial bus", "[device \"dev-qemu_serial\"]"] ++
        (if opts.dev.busName = "pci" ∨ opts.dev.busName = "pcie" then
          ["driver = \"virtio-serial-pci\"", "bus = \"" ++ opts.dev.devBus ++ "\"",
            "addr = \"" ++ opts.dev.devAddr ++ "\""]
         else []) ++
        [if opts.dev.busName = "ccw" then "driver = \"virtio-serial-ccw\"" else ""] ++
        [if opts.dev.multifunction = true then "multifunction = \"on\"" else ""] ++
        [""] ++ serialTailLines opts.charDevName opts.ringbufSizeBytes)) := by
  obtain ⟨⟨bus, devBus, devAddr, mf⟩, cd, n⟩ := opts
  rw [qemuSerial_parsed]
  by_cases h1 : bus = "pci"
  · subst h1
    cases mf <;>
    · simp [template.Execute, template.exec, qemuSerialData, List.lookup, template.truth,
        template.print, Except.map]
      apply String.ext
      simp [unlines, concatText, serialTailLines]
  · by_cases h2 : bus = "pcie"
    · subst h2
      cases mf <;>
      · simp [template.Execute, template.exec, qemuSerialData, List.lookup, template.truth,
          template.print, Except.map]
        apply String.ext
        simp [unlines, concatText, serialTailLines]
    · by_cases h3 : bus = "ccw"
      · subst h3
        cases mf <;>
        · simp [template.Execute, template.exec, qemuSerialData, List.lookup, template.truth,
            template.print, Except.map]
          apply String.ext
          simp [unlines, concatText, serialTailLines]
      · cases mf <;>
        · simp [template.Execute, template.exec, qemuSerialData, List.lookup, template.truth,
            template.print, Except.map, h1, h2, h3]
          apply String.ext
          simp [unlines, concatText, serialTailLines]


set_option maxRecDepth 100000 in
set_option maxHeartbeats 1000000 in
/-- The rendering of the serial sections as a list of lines. -/
theorem qemuSerialSections_lines (opts : qemuSerialOpts) (hb : opts.dev.devBus ≠ "")
    (ha : opts.dev.devAddr ≠ "") (hc : opts.charDevName ≠ "") :
    qemuAppendSections "" (qemuSerialSections opts) = unlines
      (["# Virtual serial bus", "[device \"dev-qemu_serial\"]"] ++
        (if opts.dev.busName = "pci" ∨ opts.dev.busName = "pcie" then
          ["driver = \"virtio-serial-pci\"", "bus = \"" ++ opts.dev.devBus ++ "\"",
            "addr = \"" ++ opts.dev.devAddr ++ "\""]
         else if opts.dev.busName = "ccw" then ["driver = \"virtio-serial-ccw\""]
         else []) ++
        (if opts.dev.multifunction = true then ["multifunction = \"on\""] else []) ++
        [""] ++ serialTailLines opts.charDevName opts.ringbufSizeBytes ++ [""]) := by
  obtain ⟨⟨bus, devBus, devAddr, mf⟩, cd, n⟩ := opts
  simp only at hb ha hc
  rw [qemuAppendSections_eq]
  by_cases h1 : bus = "pci"
  · subst h1
    cases mf <;>
    · simp [qemuSerialSections, qemuDeviceEntries, concatText, sectionText, entryText, hb, ha, hc,
        append_B_ne]
      apply String.ext
      simp [unlines, concatText, serialTailLines]
  · by_cases h2 : bus = "pcie"
    · subst h2
      cases mf <;>
      · simp [qemuSerialSections, qemuDeviceEntries, concatText, sectionText, entryText, hb, ha,
          hc, append_B_ne]
        apply String.ext
        simp [unlines, concatText, serialTailLines]
    · by_cases h3 : bus = "ccw"
      · subst h3
        cases mf <;>
        · simp [qemuSerialSections, qemuDeviceEntries, concatText, sectionText, entryText, hb, ha,
            hc, append_B_ne]
          apply String.ext
          simp [unlines, concatText, serialTailLines]
      · cases mf <;>
        · simp [qemuSerialSections, qemuDeviceEntries, concatText, sectionText, entryText, hb, ha,
            hc, append_B_ne, h1, h2, h3]
          apply String.ext
          simp [unlines, concatText, serialTailLines]

/-- The scan of a text does not look at the lines already found. -/
theorem foldl_feed_done (cs : List Char) (d : List String) (c : List Char) :
    cs.foldl LineScan.feed { done := d, cur := c } =
      { done := (cs.foldl LineScan.feed { done := [], cur := c }).done ++ d,
        cur := (cs.foldl LineScan.feed { done := [], cur := c }).cur } := by
  induction cs generalizing d c with
  | nil => simp
  | cons x xs ih =>
    simp only [List.foldl_cons, LineScan.feed]
    by_cases hx : x = '\n'
    · simp only [hx, if_true]
      by_cases hcur : c = []
      · simp only [hcur, if_true]
        exact ih d []
      · simp only [hcur, if_false]
        rw [ih (String.mk c.reverse :: d) [], ih [String.mk c.reverse] []]
        simp
    · simp only [hx, if_false]
      exact ih d (x :: c)

/-- The scan of a line and its newline, started between two lines. -/
theorem foldl_feed_line (l : String) (d : List String) :
    (l ++ "\n").data.foldl LineScan.feed { done := d, cur := [] } =
      { done := (nonEmptyLines l).reverse ++ d, cur := [] } := by
  have hd : (l ++ "\n").data = l.data ++ ['\n'] := by simp
  rw [hd, List.foldl_append, foldl_feed_done l.data d []]
  simp only [List.foldl_cons, List.foldl_nil, LineScan.feed, if_true, nonEmptyLines,
    LineScan.finish, List.reverse_reverse]
  by_cases hcur : (l.data.foldl LineScan.feed { done := [], cur := [] }).cur = []
  · simp [hcur]
  · simp [hcur]

theorem foldl_feed_unlines (ls : List String) (d : List String) :
    (unlines ls).data.foldl LineScan.feed { done := d, cur := [] } =
      { done := (linesOfAll ls).reverse ++ d, cur := [] } := by
  induction ls generalizing d with
  | nil => simp [unlines, concatText, linesOfAll]
  | cons l rest ih =>
    have hu : unlines (l :: rest) = (l ++ "\n") ++ unlines rest := rfl
    rw [hu, String.data_append, List.foldl_append, foldl_feed_line, ih]
    simp [linesOfAll]

/-- The non-empty lines of a text given line by line. -/
theorem nonEmptyLines_unlines (ls : List String) : nonEmptyLines (unlines ls) = linesOfAll ls := by
  unfold nonEmptyLines
  rw [foldl_feed_unlines]
  simp [LineScan.finish]

theorem nonEmptyLines_empty : nonEmptyLines "" = [] := by
  decide

theorem linesOfAll_append (a b : List String) :
    linesOfAll (a ++ b) = linesOfAll a ++ linesOfAll b := by
  induction a with
  | nil => rfl
  | cons x xs ih =>
    show nonEmptyLines x ++ linesOfAll (xs ++ b) = (nonEmptyLines x ++ linesOfAll xs) ++ linesOfAll b
    rw [ih, List.append_assoc]

/-- C20: the section-based serial configuration agrees with the text template
`qemuSerial`.  For every bus name, multifunction flag and ring buffer size, and
every non-empty devBus, devAddr and character device name, the template executed
on the corresponding values gives a text without error, and the rendering of
`qemuSerialSections` by `qemuAppendSections` has the same sequence of non-empty
lines as that text. -/
theorem qemuSerialSections_agree (opts : qemuSerialOpts) (hb : opts.dev.devBus ≠ "")
    (ha : opts.dev.devAddr ≠ "") (hc : opts.charDevName ≠ "") :
    ∃ text, template.Execute qemuSerial (qemuSerialData opts) = Except.ok text ∧
      nonEmptyLines (qemuAppendSections "" (qemuSerialSections opts)) = nonEmptyLines text := by
  refine ⟨_, qemuSerial_lines opts, ?_⟩
  rw [qemuSerialSections_lines opts hb ha hc, nonEmptyLines_unlines, nonEmptyLines_unlines]
  simp only [linesOfAll_append]
  by_cases h1 : opts.dev.busName = "pci" ∨ opts.dev.busName = "pcie"
  · have h3 : ¬ opts.dev.busName = "ccw" := by
      rcases h1 with h | h <;> rw [h] <;> decide
    cases hm : opts.dev.multifunction <;>
      simp [h1, h3, linesOfAll, nonEmptyLines_empty]
  · by_cases h3 : opts.dev.busName = "ccw" <;>
      cases hm : opts.dev.multifunction <;>
      simp [h1, h3, linesOfAll, nonEmptyLines_empty]

theorem qemuSerialSections_agree_witness :
    ("pcie.0" : String) ≠ "" ∧ ("00.1" : String) ≠ "" ∧ ("qemu_serial-chardev" : String) ≠ "" ∧
    ∃ text,
      template.Execute qemuSerial
        (qemuSerialData ⟨⟨"pcie", "pcie.0", "00.1", true⟩, "qemu_serial-chardev", 16⟩) =
        Except.ok text ∧
      nonEmptyLines (qemuAppendSections ""
        (qemuSerialSections ⟨⟨"pcie", "pcie.0", "00.1", true⟩, "qemu_serial-chardev", 16⟩)) =
        nonEmptyLines text :=
  ⟨by decide, by decide, by decide,
    qemuSerialSections_agree ⟨⟨"pcie", "pcie.0", "00.1", true⟩, "qemu_serial-chardev", 16⟩
      (by decide) (by decide) (by decide)⟩

end drivers
